import Mathlib

/-!
Admin servers of the Passenger helper agent and logging agent.

A shallow embedding of `ext/common/agents/HelperAgent/AdminServer.h` and
`ext/common/agents/LoggingAgent/AdminServer.h`.

Conventions of the embedding:

* C++ `string` / `StaticString` values are Lean `String`s read as byte strings
  (one `Char` per byte); sizes are `String.length`.
* Every call that the handlers make on a collaborator (ServerKit, the pool, the
  worker event loops, the logging subsystem, the watchdog socket) is recorded,
  in program order, as an `Event` in the `trace` of the state `St`.
* A C++ exception is the field `thrown` of the state: the function that throws
  returns at once with `thrown := some e`; the `try`/`catch` blocks of
  `onRequestBegin` and `onRequestBody` inspect it.
* Diagnostic logging macros (`P_INFO`, `P_WARN`, `P_NOTICE`, `SKC_DEBUG`,
  `TRACE_POINT`) have no effect on control flow and are left out; the
  `SKC_ERROR` of a `catch` block is kept as the mark that the block ran.
-/

namespace Passenger

/-- HTTP request methods (the `http_method` enumeration used by `req->method`). -/
inductive HttpMethod
  | HTTP_DELETE
  | HTTP_GET
  | HTTP_HEAD
  | HTTP_POST
  | HTTP_PUT
  | HTTP_CONNECT
  | HTTP_OPTIONS
  | HTTP_TRACE
  | HTTP_PATCH
  deriving DecidableEq, Repr

/-- Body kinds of a request: `req->bodyType` of `ServerKit::BaseHttpRequest`. -/
inductive BodyType
  | RBT_NO_BODY
  | RBT_CONTENT_LENGTH
  | RBT_CHUNKED
  | RBT_UPGRADE
  deriving DecidableEq, Repr

/-- Modelled from the spec: the `Authorization` record of `agents/AdminServerUtils.h`
(not under src/): the identity source (`uid`, `apiKey`), the three capabilities
read-pool, modify-pool, inspect-state, and the admin tier. -/
structure Authorization where
  uid : Int
  apiKey : String
  canReadPool : Bool
  canModifyPool : Bool
  canInspectState : Bool
  canAdminister : Bool
  deriving DecidableEq, Repr

/-- The default-constructed `Authorization()`: no identity, no capability. -/
def Authorization.none : Authorization :=
  { uid := -1, apiKey := "", canReadPool := false, canModifyPool := false,
    canInspectState := false, canAdminister := false }

/-- JSON values (`Json::Value`). -/
inductive Json
  | null
  | bool (b : Bool)
  | int (n : Int)
  | str (s : String)
  | arr (items : List Json)
  | obj (members : List (String × Json))

/-- C++ exceptions that can cross the handlers. `SecurityException` and the other
`oxt::tracable_exception`s are caught by the `catch` blocks of the admin servers;
`other` stands for a failure that those blocks do not catch (a `std::` exception
or an out-of-range access). -/
inductive Exn
  | SecurityException
  | tracable (what : String)
  | other (what : String)
  deriving DecidableEq, Repr

/-- Whether `catch (const oxt::tracable_exception &)` catches the exception. -/
def Exn.isTracable : Exn → Bool
  | Exn.SecurityException => true
  | Exn.tracable _ => true
  | Exn.other _ => false

/-- The functions bound with `boost::bind` and submitted to a worker event loop. -/
inductive Command
  | disconnectClient (clientName : String)
  | inspectRequestHandlerState
  | garbageCollect
  | getRequestHandlerConfig
  | configureRequestHandler (json : Json)

/-- A `ServerKit::HeaderTable`, in insertion order. -/
abbrev HeaderTable := List (String × String)

/-- A response body: a literal or formatted string, or `doc.toStyledString()`. -/
inductive Body
  | text (s : String)
  | styled (doc : Json)

/-- Restart methods of `ApplicationPool2::Pool::RestartOptions`. -/
inductive RestartMethod
  | RM_DEFAULT
  | RM_BLOCKING
  | RM_ROLLING
  deriving DecidableEq, Repr

/-- Calls made by the handlers on their collaborators, in program order. -/
inductive Event
  | authorize
  | writeSimpleResponse (code : Nat) (headers : HeaderTable) (body : Body)
  | endAsBadRequest (body : String)
  | endRequest
  | disconnect
  | runLater (thread : Nat) (cmd : Command)
  | runSync (thread : Nat) (cmd : Command)
  | toXml (uid : Int) (apiKey : String) (query : String)
  | inspect (uid : Int) (apiKey : String) (query : String)
  | restartGroupByName (name : String) (uid : Int) (apiKey : String) (method : RestartMethod)
  | detachProcess (pid : Int) (uid : Int) (apiKey : String)
  | all_backtraces
  | dump
  | exitEventNotify
  | getLogFile
  | getFileDescriptorLogFile
  | getLogLevel
  | hasFileDescriptorLogFile
  | setLogLevel (level : Int)
  | absolutizePath (path : String)
  | setLogFile (path : String)
  | setFileDescriptorLogFile (path : String)
  | setLogFileWithFd (path : String) (fd : Int)
  | connectToUnixServer (path : String)
  | writeExact (data : String)
  | readLine
  | watchdogClose
  | readFileDescriptorWithNegotiation (timeout : Nat)
  | safelyClose (fd : Int)
  | jsonParse (body : String)
  | P_BUG (message : String)
  | SKC_ERROR

/-- The request as parsed by ServerKit before `onRequestBegin` runs. -/
structure Request where
  method : HttpMethod
  path : String
  bodyType : BodyType
  contentLength : Nat
  credentials : String

/-- A worker (`RequestHandler`): what `inspectStateAsJson()` and
`getConfigAsJson()` return when run on its event loop. The configuration is a
JSON object, given by its members. -/
structure RequestHandler where
  inspectStateAsJson : Json
  getConfigAsJson : List (String × Json)

/-- The application pool, by the results of the calls the admin server makes. -/
structure Pool where
  toXml : Int → String → String → String
  inspect : Int → String → String → String
  restartGroupByName : String → Int → String → RestartMethod → Except Exn Bool
  detachProcess : Int → Int → String → Except Exn Bool

/-- The watchdog (supervisor) as seen through the Unix socket: whether connecting
and writing succeed, the lines it sends, and the outcome of the descriptor transfer. -/
structure Watchdog where
  connect : Option Exn
  write : Option Exn
  lines : List String
  transfer : Except Exn Int

/-- Library and operating-system collaborators shared by both admin servers. -/
structure Env where
  jsonParse : String → Except String Json
  asString : Json → Except Exn String
  asInt : Json → Except Exn Int
  asUInt : Json → Except Exn Nat
  absolutizePath : String → Except String String
  openLogFile : String → Option Int
  openFileDescriptorLogFile : String → Option Int
  strerror : Int → String
  all_backtraces : String
  PROGRAM_NAME : String
  watchdog : Watchdog

/-- Mutable state touched while one request is processed: the request fields the
handlers write, the process-wide logging state, and the bookkeeping of the
embedding (`trace`, `thrown`). -/
structure St where
  trace : List Event
  ended : Bool
  wantKeepAlive : Bool
  disconnected : Bool
  body : String
  jsonBody : Json
  authorization : Authorization
  logLevel : Int
  logFile : String
  fileDescriptorLogFile : String
  hasFileDescriptorLogFile : Bool
  thrown : Option Exn

/-- The state of a freshly initialised request, given the logging state. -/
def St.init (logLevel : Int) (logFile fileDescriptorLogFile : String)
    (hasFileDescriptorLogFile : Bool) : St :=
  { trace := [], ended := false, wantKeepAlive := true, disconnected := false,
    body := "", jsonBody := Json.null, authorization := Authorization.none,
    logLevel := logLevel, logFile := logFile,
    fileDescriptorLogFile := fileDescriptorLogFile,
    hasFileDescriptorLogFile := hasFileDescriptorLogFile, thrown := Option.none }

/-- Record one collaborator call. -/
def St.emit (s : St) (e : Event) : St :=
  { s with trace := s.trace ++ [e] }

/-- Leave the current function by throwing `e`. -/
def St.throw (s : St) (e : Exn) : St :=
  { s with thrown := some e }

/-- ServerKit `writeSimpleResponse(client, code, headers, body)`. -/
def writeSimpleResponse (s : St) (code : Nat) (headers : HeaderTable) (body : Body) : St :=
  s.emit (Event.writeSimpleResponse code headers body)

/-- ServerKit `endRequest(&client, &req)`. -/
def endRequest (s : St) : St :=
  { s.emit Event.endRequest with ended := true }

/-- The recurring `if (!req->ended()) { endRequest(&client, &req); }`. -/
def endRequestUnlessEnded (s : St) : St :=
  if s.ended then s else endRequest s

/-- ServerKit `endAsBadRequest(&client, &req, body)`: a 400 response that ends the request. -/
def endAsBadRequest (s : St) (body : String) : St :=
  { s.emit (Event.endAsBadRequest body) with ended := true }

/-- ServerKit `disconnect(&client)`. -/
def disconnect (s : St) : St :=
  { s.emit Event.disconnect with ended := true, disconnected := true }

/-- Modelled from the spec: `getPathWithoutQueryString()` of ServerKit (not under
src/): the request path up to, and without, the first question mark. -/
def Request.getPathWithoutQueryString (req : Request) : String :=
  String.mk (req.path.data.takeWhile (fun c => c != '?'))

/-- Modelled from the spec: `getQueryString()` of ServerKit (not under src/): what
follows the first question mark of the request path. -/
def Request.getQueryString (req : Request) : String :=
  String.mk ((req.path.data.dropWhile (fun c => c != '?')).drop 1)

/-- Modelled from the spec: `hasBody()` of ServerKit (not under src/): the request
announces a body. -/
def Request.hasBody (req : Request) : Bool :=
  req.bodyType != BodyType.RBT_NO_BODY

/-- The string function `startsWith(str, substr)`. -/
def startsWith (str substr : String) : Bool :=
  substr.data.isPrefixOf str.data

/-- The call `str.erase(0, n)`. -/
def eraseFront (str : String) (n : Nat) : String :=
  String.mk (str.data.drop n)

/-- The call `snprintf(message, bufsize, ...)`: at most `bufsize - 1` bytes are kept. -/
def snprintf (bufsize : Nat) (formatted : String) : String :=
  String.mk (formatted.data.take (bufsize - 1))

/-- `Json::Value::isMember(key)` on a parsed body: defined on objects and on null. -/
def Json.isMember : Json → String → Except Exn Bool
  | Json.obj members, key => Except.ok (members.any (fun kv => kv.1 == key))
  | Json.null, _ => Except.ok false
  | _, _ => Except.error (Exn.other "Json::Value: requires objectValue or nullValue")

/-- `Json::Value::operator[](key)` for reading: the member, or null when absent. -/
def Json.get : Json → String → Json
  | Json.obj members, key =>
    match members.find? (fun kv => kv.1 == key) with
    | some kv => kv.2
    | Option.none => Json.null
  | _, _ => Json.null

/-- Modelled from the spec: the assignment `doc[key] = value` of jsoncpp's
`Json::Value` (not under src/) on the members of a JSON object: the member is
replaced, or added when the key is absent. The list keeps the members in the
order of their first assignment; this order is bookkeeping of the embedding and
says nothing about the order in which `toStyledString()` writes the members. -/
def setMember (members : List (String × Json)) (key : String) (value : Json) :
    List (String × Json) :=
  if members.any (fun kv => kv.1 == key) then
    members.map (fun kv => if kv.1 == key then (key, value) else kv)
  else
    members ++ [(key, value)]

/-- The capture group of `serverConnectionPath`, the regular expression
`^/server/(.+)\.json$`, when `boost::regex_match` matches the whole `path`. -/
def serverConnectionPathCapture (path : String) : Option String :=
  let rest := path.data.drop 8
  if "/server/".data.isPrefixOf path.data && ".json".data.isSuffixOf rest
      && decide (6 ≤ rest.length) then
    some (String.mk (rest.take (rest.length - 5)))
  else
    Option.none

/-- The member `regex_match(str, e)` applied to `serverConnectionPath`. -/
def regex_match (path : String) : Bool :=
  (serverConnectionPathCapture path).isSome

/-- The test `data[i] >= '0' && data[i] <= '9'`, also the character class `[0-9]`. -/
def isDigit (c : Char) : Bool :=
  decide ('0'.toNat ≤ c.toNat) && decide (c.toNat ≤ '9'.toNat)

/-- Modelled from the spec: `stringToUint` of `Utils/StrIntUtils.h` (not under
src/) parses the leading digits as a number; its result is a C++ `unsigned int`,
so the decimal value is accumulated in 32-bit unsigned arithmetic. Leading
blanks are skipped and parsing stops at the first character that is not a digit. -/
def stringToUint (str : String) : Nat :=
  ((str.data.dropWhile (fun c => c == ' ')).takeWhile isDigit).foldl
    (fun result c => (result * 10 + (c.toNat - '0'.toNat)) % 2 ^ 32) 0

/-- Conversion of an `unsigned int` to `int` (and to `pid_t`), as done by the
`return` of `extractThreadNumberFromClientName`. -/
def uintToInt (u : Nat) : Int :=
  if u < 2 ^ 31 then (u : Int) else (u : Int) - 2 ^ 32

/-- `extractThreadNumberFromClientName`: match `^([0-9]+)-.*` against the whole
client name; on a match return the captured digits through `stringToUint`. -/
def extractThreadNumberFromClientName (clientName : String) : Int :=
  let digits := clientName.data.takeWhile isDigit
  let rest := clientName.data.dropWhile isDigit
  if digits.isEmpty || rest.head? != some '-' then
    -1
  else
    uintToInt (stringToUint (String.mk digits))

end Passenger

namespace Passenger

/-- The statement `setLogLevel(level)`. -/
def setLogLevel (s : St) (level : Int) : St :=
  { s.emit (Event.setLogLevel level) with logLevel := level }

/-- The successful outcome of `setLogFile(path, &e)`: the log file is now `path`. -/
def setLogFile (s : St) (path : String) : St :=
  { s.emit (Event.setLogFile path) with logFile := path }

/-- The successful outcome of `setFileDescriptorLogFile(path, &e)`. -/
def setFileDescriptorLogFile (s : St) (path : String) : St :=
  { s.emit (Event.setFileDescriptorLogFile path) with
    fileDescriptorLogFile := path, hasFileDescriptorLogFile := true }

/-- The statement `setLogFileWithFd(path, fd)`. -/
def setLogFileWithFd (s : St) (path : String) (fd : Int) : St :=
  { s.emit (Event.setLogFileWithFd path fd) with logFile := path }

/-- The bytes written to the watchdog by `processReinheritLogs`. -/
def watchdogRequest (fdPassingPassword : String) : String :=
  "GET /config/log_file.fd HTTP/1.1\r\n" ++
  "Connection: close\r\n" ++
  "Fd-Passing-Password: " ++ fdPassingPassword ++ "\r\n" ++
  "\r\n"

/-- The headers inserted by the handlers that set only `Content-Type: application/json`. -/
def jsonHeaders : HeaderTable :=
  [("Content-Type", "application/json")]

/-- The literal `{ "status": "ok" }`. -/
def statusOk : String :=
  "\x7b \"status\": \"ok\" \x7d"

namespace ServerAgent

/-- The helper agent's `AdminServer`: its public fields, and `authorize` as the
result of `authorize(this, client, req)` of `agents/AdminServerUtils.h` for each request. -/
structure AdminServer where
  requestHandlers : List RequestHandler
  appPool : Pool
  instanceDir : String
  fdPassingPassword : String
  authorize : Request → Authorization

/-- Modelled from the spec: `authorizeAdminOperation` of `agents/AdminServerUtils.h`
(not under src/): the derived authorization has the admin tier. -/
def authorizeAdminOperation (srv : AdminServer) (req : Request) : Bool :=
  (srv.authorize req).canAdminister

/-- Modelled from the spec: `authorizeStateInspectionOperation` of
`agents/AdminServerUtils.h` (not under src/): the derived authorization has the
inspect-state capability. -/
def authorizeStateInspectionOperation (srv : AdminServer) (req : Request) : Bool :=
  (srv.authorize req).canInspectState

/-- `requestBodyExceedsLimit(client, req, limit)`. -/
def requestBodyExceedsLimit (req : Request) (s : St) (limit : Nat) : Bool :=
  (req.bodyType == BodyType.RBT_CONTENT_LENGTH && decide (req.contentLength > limit))
    || (req.bodyType == BodyType.RBT_CHUNKED && decide (s.body.length > limit))

/-- The default argument `limit = 1024 * 128`. -/
def defaultLimit : Nat := 1024 * 128

/-- `respondWith401`. -/
def respondWith401 (s : St) : St :=
  endRequestUnlessEnded (writeSimpleResponse s 401
    [("Cache-Control", "no-cache, no-store, must-revalidate"),
     ("WWW-Authenticate", "Basic realm=\"admin\"")]
    (Body.text "Unauthorized"))

/-- `respondWith404`. -/
def respondWith404 (s : St) : St :=
  endRequestUnlessEnded (writeSimpleResponse s 404
    [("Cache-Control", "no-cache, no-store, must-revalidate")]
    (Body.text "Not found"))

/-- `respondWith405`. -/
def respondWith405 (s : St) : St :=
  endRequestUnlessEnded (writeSimpleResponse s 405
    [("Cache-Control", "no-cache, no-store, must-revalidate")]
    (Body.text "Method not allowed"))

/-- `respondWith413`. -/
def respondWith413 (s : St) : St :=
  endRequestUnlessEnded (writeSimpleResponse s 413
    [("Cache-Control", "no-cache, no-store, must-revalidate")]
    (Body.text "Request body too large"))

/-- `respondWith422`. -/
def respondWith422 (s : St) (body : String) : St :=
  endRequestUnlessEnded (writeSimpleResponse s 422
    [("Cache-Control", "no-cache, no-store, must-revalidate"),
     ("Content-Type", "text/plain; charset=utf-8")]
    (Body.text body))

/-- `respondWith500`. -/
def respondWith500 (s : St) (body : String) : St :=
  endRequestUnlessEnded (writeSimpleResponse s 500
    [("Cache-Control", "no-cache, no-store, must-revalidate"),
     ("Content-Type", "text/plain; charset=utf-8")]
    (Body.text body))

/-- `processServerConnectionOperation`. -/
def processServerConnectionOperation (srv : AdminServer) (req : Request) (s : St) : St :=
  let s := s.emit Event.authorize
  if !authorizeAdminOperation srv req then
    respondWith401 s
  else if req.method = HttpMethod.HTTP_DELETE then
    match serverConnectionPathCapture req.getPathWithoutQueryString with
    | Option.none => endAsBadRequest s "Invalid URI"
    | some clientName =>
      let threadNumber := extractThreadNumberFromClientName clientName
      if threadNumber < 1 ∨ threadNumber.toNat > srv.requestHandlers.length then
        endRequestUnlessEnded (writeSimpleResponse s 400 jsonHeaders
          (Body.text "\x7b \"status\": \"error\", \"reason\": \"Invalid thread number\" \x7d"))
      else
        let s := s.emit (Event.runLater (threadNumber.toNat - 1)
          (Command.disconnectClient clientName))
        endRequestUnlessEnded (writeSimpleResponse s 200 jsonHeaders (Body.text statusOk))
  else
    respondWith405 s

/-- The `for` loop of `processServerStatus`, from worker position `i` on. -/
def processServerStatusLoop : List RequestHandler → Nat → List (String × Json) → St →
    List (String × Json) × St
  | [], _, doc, s => (doc, s)
  | rh :: rest, i, doc, s =>
    processServerStatusLoop rest (i + 1)
      (setMember doc ("thread" ++ toString (i + 1)) rh.inspectStateAsJson)
      (s.emit (Event.runSync i Command.inspectRequestHandlerState))

/-- `processServerStatus`. -/
def processServerStatus (srv : AdminServer) (req : Request) (s : St) : St :=
  let s := s.emit Event.authorize
  if authorizeStateInspectionOperation srv req then
    let doc := setMember [] "threads" (Json.int srv.requestHandlers.length)
    let r := processServerStatusLoop srv.requestHandlers 0 doc s
    endRequestUnlessEnded (writeSimpleResponse r.2 200 jsonHeaders (Body.styled (Json.obj r.1)))
  else
    respondWith401 s

/-- `processPoolStatusXml`. -/
def processPoolStatusXml (srv : AdminServer) (req : Request) (s : St) : St :=
  let s := s.emit Event.authorize
  let auth := srv.authorize req
  if auth.canReadPool then
    let s := s.emit (Event.toXml auth.uid auth.apiKey req.getQueryString)
    endRequestUnlessEnded (writeSimpleResponse s 200 [("Content-Type", "text/xml")]
      (Body.text (srv.appPool.toXml auth.uid auth.apiKey req.getQueryString)))
  else
    respondWith401 s

/-- `processPoolStatusTxt`. -/
def processPoolStatusTxt (srv : AdminServer) (req : Request) (s : St) : St :=
  let s := s.emit Event.authorize
  let auth := srv.authorize req
  if auth.canReadPool then
    let s := s.emit (Event.inspect auth.uid auth.apiKey req.getQueryString)
    endRequestUnlessEnded (writeSimpleResponse s 200 [("Content-Type", "text/plain")]
      (Body.text (srv.appPool.inspect auth.uid auth.apiKey req.getQueryString)))
  else
    respondWith401 s

/-- `processPoolRestartAppGroup`. -/
def processPoolRestartAppGroup (srv : AdminServer) (req : Request) (s : St) : St :=
  let s := s.emit Event.authorize
  let auth := srv.authorize req
  if !auth.canModifyPool then
    respondWith401 s
  else if req.method ≠ HttpMethod.HTTP_POST then
    respondWith405 s
  else if !req.hasBody then
    endAsBadRequest s "Body required"
  else if requestBodyExceedsLimit req s defaultLimit then
    respondWith413 s
  else
    { s with authorization := auth }

/-- The tail of `processPoolRestartAppGroupBody`, once `options.method` is settled. -/
def processPoolRestartAppGroupBodyRestart (srv : AdminServer) (env : Env) (s : St)
    (method : RestartMethod) : St :=
  match env.asString (s.jsonBody.get "name") with
  | Except.error e => s.throw e
  | Except.ok name =>
    let s := s.emit (Event.restartGroupByName name s.authorization.uid
      s.authorization.apiKey method)
    match srv.appPool.restartGroupByName name s.authorization.uid
        s.authorization.apiKey method with
    | Except.error Exn.SecurityException => respondWith401 s
    | Except.error e => s.throw e
    | Except.ok result =>
      let response :=
        if result then "\x7b \"restarted\": true \x7d" else "\x7b \"restarted\": false \x7d"
      endRequestUnlessEnded (writeSimpleResponse s 200
        [("Content-Type", "application/json"),
         ("Cache-Control", "no-cache, no-store, must-revalidate")]
        (Body.text response))

/-- `processPoolRestartAppGroupBody`. -/
def processPoolRestartAppGroupBody (srv : AdminServer) (env : Env) (s : St) : St :=
  match s.jsonBody.isMember "name" with
  | Except.error e => s.throw e
  | Except.ok false => endAsBadRequest s "Name required"
  | Except.ok true =>
    match s.jsonBody.isMember "restart_method" with
    | Except.error e => s.throw e
    | Except.ok false => processPoolRestartAppGroupBodyRestart srv env s RestartMethod.RM_DEFAULT
    | Except.ok true =>
      match env.asString (s.jsonBody.get "restart_method") with
      | Except.error e => s.throw e
      | Except.ok restartMethodString =>
        if restartMethodString = "blocking" then
          processPoolRestartAppGroupBodyRestart srv env s RestartMethod.RM_BLOCKING
        else if restartMethodString = "rolling" then
          processPoolRestartAppGroupBodyRestart srv env s RestartMethod.RM_ROLLING
        else
          endAsBadRequest s "Unsupported restart method"

/-- `processPoolDetachProcess`. -/
def processPoolDetachProcess (srv : AdminServer) (req : Request) (s : St) : St :=
  let s := s.emit Event.authorize
  let auth := srv.authorize req
  if !auth.canModifyPool then
    respondWith401 s
  else if req.method ≠ HttpMethod.HTTP_POST then
    respondWith405 s
  else if !req.hasBody then
    endAsBadRequest s "Body required"
  else if requestBodyExceedsLimit req s defaultLimit then
    respondWith413 s
  else
    { s with authorization := auth }

/-- `processPoolDetachProcessBody`. -/
def processPoolDetachProcessBody (srv : AdminServer) (env : Env) (s : St) : St :=
  match s.jsonBody.isMember "pid" with
  | Except.error e => s.throw e
  | Except.ok true =>
    match env.asUInt (s.jsonBody.get "pid") with
    | Except.error e => s.throw e
    | Except.ok n =>
      let pid := uintToInt (n % 2 ^ 32)
      let s := s.emit (Event.detachProcess pid s.authorization.uid s.authorization.apiKey)
      match srv.appPool.detachProcess pid s.authorization.uid s.authorization.apiKey with
      | Except.error Exn.SecurityException => respondWith401 s
      | Except.error e => s.throw e
      | Except.ok result =>
        let response :=
          if result then "\x7b \"detached\": true \x7d" else "\x7b \"detached\": false \x7d"
        endRequestUnlessEnded (writeSimpleResponse s 200
          [("Content-Type", "application/json"),
           ("Cache-Control", "no-cache, no-store, must-revalidate")]
          (Body.text response))
  | Except.ok false => endAsBadRequest s "PID required"

/-- `processBacktraces`. -/
def processBacktraces (srv : AdminServer) (env : Env) (req : Request) (s : St) : St :=
  let s := s.emit Event.authorize
  if authorizeStateInspectionOperation srv req then
    let s := s.emit Event.all_backtraces
    endRequestUnlessEnded (writeSimpleResponse s 200 [("Content-Type", "text/plain")]
      (Body.text env.all_backtraces))
  else
    respondWith401 s

/-- `processPing`. -/
def processPing (srv : AdminServer) (req : Request) (s : St) : St :=
  let s := s.emit Event.authorize
  let auth := srv.authorize req
  if auth.canReadPool || auth.canInspectState then
    endRequestUnlessEnded (writeSimpleResponse s 200
      [("Cache-Control", "no-cache, no-store, must-revalidate"),
       ("Content-Type", "application/json")]
      (Body.text statusOk))
  else
    respondWith401 s

/-- `processShutdown`. -/
def processShutdown (srv : AdminServer) (req : Request) (s : St) : St :=
  if req.method ≠ HttpMethod.HTTP_PUT then
    respondWith405 s
  else
    let s := s.emit Event.authorize
    if authorizeAdminOperation srv req then
      let s := s.emit Event.exitEventNotify
      endRequestUnlessEnded (writeSimpleResponse s 200 jsonHeaders (Body.text statusOk))
    else
      respondWith401 s

/-- A `for` loop that submits `cmd` with `runLater` to every worker, from position `i` on. -/
def runLaterOnAll : List RequestHandler → Nat → Command → St → St
  | [], _, _, s => s
  | _ :: rest, i, cmd, s => runLaterOnAll rest (i + 1) cmd (s.emit (Event.runLater i cmd))

/-- `processGc`. -/
def processGc (srv : AdminServer) (req : Request) (s : St) : St :=
  if req.method ≠ HttpMethod.HTTP_PUT then
    respondWith405 s
  else
    let s := s.emit Event.authorize
    if authorizeAdminOperation srv req then
      let s := runLaterOnAll srv.requestHandlers 0 Command.garbageCollect s
      endRequestUnlessEnded (writeSimpleResponse s 200 jsonHeaders (Body.text statusOk))
    else
      respondWith401 s

/-- The document built by the GET branch of `processConfig` after the worker's
configuration has been read into `doc`. -/
def configDoc (doc : List (String × Json)) (logLevel : Int) (logFile : String)
    (fileDescriptorLogFile : String) : List (String × Json) :=
  let doc := setMember doc "log_level" (Json.int logLevel)
  let doc := if !logFile.isEmpty then setMember doc "log_file" (Json.str logFile) else doc
  if !fileDescriptorLogFile.isEmpty then
    setMember doc "file_descriptor_log_file" (Json.str fileDescriptorLogFile)
  else
    doc

/-- `processConfig`. In the GET branch the 401 answer is not followed by a `return`. -/
def processConfig (srv : AdminServer) (req : Request) (s : St) : St :=
  if req.method = HttpMethod.HTTP_GET then
    let s := s.emit Event.authorize
    let s := if !authorizeStateInspectionOperation srv req then respondWith401 s else s
    let s := s.emit Event.getLogFile
    let logFile := s.logFile
    let s := s.emit Event.getFileDescriptorLogFile
    let fileDescriptorLogFile := s.fileDescriptorLogFile
    match srv.requestHandlers.head? with
    | Option.none => s.throw (Exn.other "requestHandlers[0] out of range")
    | some rh =>
      let s := s.emit (Event.runSync 0 Command.getRequestHandlerConfig)
      let s := s.emit Event.getLogLevel
      let doc := configDoc rh.getConfigAsJson s.logLevel logFile fileDescriptorLogFile
      endRequestUnlessEnded (writeSimpleResponse s 200 jsonHeaders (Body.styled (Json.obj doc)))
  else if req.method = HttpMethod.HTTP_PUT then
    let s := s.emit Event.authorize
    if !authorizeAdminOperation srv req then
      respondWith401 s
    else if !req.hasBody then
      endAsBadRequest s "Body required"
    else
      s
  else
    respondWith405 s

/-- The end of `processConfigBody`: push the configuration to every worker and answer 200. -/
def processConfigBodyFinish (srv : AdminServer) (headers : HeaderTable) (s : St) : St :=
  let s := runLaterOnAll srv.requestHandlers 0 (Command.configureRequestHandler s.jsonBody) s
  endRequestUnlessEnded (writeSimpleResponse s 200 headers (Body.text statusOk))

/-- The `log_file` part of `processConfigBody` and what follows it. -/
def processConfigBodyLogFile (srv : AdminServer) (env : Env) (headers : HeaderTable)
    (s : St) : St :=
  match s.jsonBody.isMember "log_file" with
  | Except.error e => s.throw e
  | Except.ok false => processConfigBodyFinish srv headers s
  | Except.ok true =>
    match env.asString (s.jsonBody.get "log_file") with
    | Except.error e => s.throw e
    | Except.ok logFile =>
      let s := s.emit (Event.absolutizePath logFile)
      match env.absolutizePath logFile with
      | Except.error what =>
        endRequestUnlessEnded (writeSimpleResponse s 500 headers
          (Body.text (snprintf 1024 ("\x7b \"status\": \"error\", " ++
            "\"message\": \"Cannot absolutize log file filename: " ++ what ++ "\" \x7d"))))
      | Except.ok logFile =>
        match env.openLogFile logFile with
        | some e =>
          endRequestUnlessEnded (writeSimpleResponse s 500 headers
            (Body.text (snprintf 1024 ("\x7b \"status\": \"error\", " ++
              "\"message\": \"Cannot open log file: " ++ env.strerror e ++
              " (errno=" ++ toString e ++ ")\" \x7d"))))
        | Option.none => processConfigBodyFinish srv headers (setLogFile s logFile)

/-- `processConfigBody`. -/
def processConfigBody (srv : AdminServer) (env : Env) (s : St) : St :=
  let headers : HeaderTable :=
    [("Content-Type", "application/json"),
     ("Cache-Control", "no-cache, no-store, must-revalidate")]
  match s.jsonBody.isMember "log_level" with
  | Except.error e => s.throw e
  | Except.ok false => processConfigBodyLogFile srv env headers s
  | Except.ok true =>
    match env.asInt (s.jsonBody.get "log_level") with
    | Except.error e => s.throw e
    | Except.ok level => processConfigBodyLogFile srv env headers (setLogLevel s level)

/-- The `while (true)` loop of `processReinheritLogs` over the lines still to be
read: `none` when the premature-EOF branch is taken, else the value of
`logFilePath` at the `break`. -/
def readHeaderLines : List String → String → St → Option String × St
  | [], _, s => (Option.none, s.emit Event.readLine)
  | response :: rest, logFilePath, s =>
    if response.isEmpty then
      (Option.none, s.emit Event.readLine)
    else if response = "\r\n" then
      (some logFilePath, s.emit Event.readLine)
    else if startsWith response "filename: " || startsWith response "Filename: " then
      readHeaderLines rest (eraseFront response "filename: ".length) (s.emit Event.readLine)
    else
      readHeaderLines rest logFilePath (s.emit Event.readLine)

/-- The headers of every answer written by `processReinheritLogs` itself. -/
def reinheritHeaders : HeaderTable :=
  [("Cache-Control", "no-cache, no-store, must-revalidate"),
   ("Content-Type", "application/json")]

/-- `processReinheritLogs`, after the watchdog has been connected and the request written. -/
def processReinheritLogsExchange (env : Env) (s : St) : St :=
  let response := env.watchdog.lines.headD ""
  let s := s.emit Event.readLine
  if response ≠ "HTTP/1.1 200 OK\r\n" then
    let s := s.emit Event.watchdogClose
    endRequestUnlessEnded (writeSimpleResponse s 500 reinheritHeaders
      (Body.text ("\x7b \"status\": \"error\", " ++
        "\"code\": \"INHERIT_ERROR\", " ++
        "\"message\": \"Error communicating with Watchdog process: non-200 response\" \x7d\n")))
  else
    match readHeaderLines env.watchdog.lines.tail "" s with
    | (Option.none, s) =>
      let s := s.emit Event.watchdogClose
      endRequestUnlessEnded (writeSimpleResponse s 500 reinheritHeaders
        (Body.text ("\x7b \"status\": \"error\", " ++
          "\"code\": \"INHERIT_ERROR\", " ++
          "\"message\": \"Error communicating with Watchdog process: " ++
          "premature EOF encountered in response\" \x7d\n")))
    | (some logFilePath, s) =>
      if logFilePath.isEmpty then
        let s := s.emit Event.watchdogClose
        endRequestUnlessEnded (writeSimpleResponse s 500 reinheritHeaders
          (Body.text ("\x7b \"status\": \"error\", " ++
            "\"code\": \"INHERIT_ERROR\", " ++
            "\"message\": \"Error communicating with Watchdog process: " ++
            "no log filename received in response\" \x7d\n")))
      else
        let s := s.emit (Event.readFileDescriptorWithNegotiation 1000000)
        match env.watchdog.transfer with
        | Except.error e => s.throw e
        | Except.ok fd =>
          let s := setLogFileWithFd s logFilePath fd
          let s := s.emit (Event.safelyClose fd)
          let s := s.emit Event.watchdogClose
          endRequestUnlessEnded (writeSimpleResponse s 200 reinheritHeaders
            (Body.text (statusOk ++ "\n")))

/-- `processReinheritLogs`. -/
def processReinheritLogs (srv : AdminServer) (env : Env) (req : Request) (s : St) : St :=
  if req.method ≠ HttpMethod.HTTP_POST then
    respondWith405 s
  else
    let s := s.emit Event.authorize
    if authorizeAdminOperation srv req then
      if srv.instanceDir.isEmpty || srv.fdPassingPassword.isEmpty then
        endRequestUnlessEnded (writeSimpleResponse s 501 reinheritHeaders
          (Body.text ("\x7b \"status\": \"error\", " ++
            "\"code\": \"NO_WATCHDOG\", " ++
            "\"message\": \"No Watchdog process\" \x7d\n")))
      else
        let s := s.emit (Event.connectToUnixServer (srv.instanceDir ++ "/agents.s/watchdog"))
        match env.watchdog.connect with
        | some e => s.throw e
        | Option.none =>
          let s := s.emit (Event.writeExact (watchdogRequest srv.fdPassingPassword))
          match env.watchdog.write with
          | some e => s.throw e
          | Option.none => processReinheritLogsExchange env s
    else
      respondWith401 s

/-- `processReopenLogs`. -/
def processReopenLogs (srv : AdminServer) (env : Env) (req : Request) (s : St) : St :=
  if req.method ≠ HttpMethod.HTTP_POST then
    respondWith405 s
  else
    let s := s.emit Event.authorize
    if authorizeAdminOperation srv req then
      let s := s.emit Event.getLogFile
      let logFile := s.logFile
      if logFile.isEmpty then
        endRequestUnlessEnded (writeSimpleResponse s 500 jsonHeaders
          (Body.text ("\x7b \"status\": \"error\", " ++
            "\"code\": \"NO_LOG_FILE\", " ++
            "\"message\": \"" ++ env.PROGRAM_NAME ++
            " was not configured with a log file.\" \x7d\n")))
      else
        match env.openLogFile logFile with
        | some e =>
          endRequestUnlessEnded (writeSimpleResponse s 500 jsonHeaders
            (Body.text (snprintf 1024 ("\x7b \"status\": \"error\", " ++
              "\"code\": \"LOG_FILE_OPEN_ERROR\", " ++
              "\"message\": \"Cannot reopen log file " ++ logFile ++ ": " ++
              env.strerror e ++ " (errno=" ++ toString e ++ ")\" \x7d"))))
        | Option.none =>
          let s := setLogFile s logFile
          let s := s.emit Event.hasFileDescriptorLogFile
          if s.hasFileDescriptorLogFile then
            let s := s.emit Event.getFileDescriptorLogFile
            match env.openFileDescriptorLogFile s.fileDescriptorLogFile with
            | some e =>
              endRequestUnlessEnded (writeSimpleResponse s 500 jsonHeaders
                (Body.text (snprintf 1024 ("\x7b \"status\": \"error\", " ++
                  "\"code\": \"FD_LOG_FILE_OPEN_ERROR\", " ++
                  "\"message\": \"Cannot reopen file descriptor log file " ++
                  s.fileDescriptorLogFile ++ ": " ++
                  env.strerror e ++ " (errno=" ++ toString e ++ ")\" \x7d"))))
            | Option.none =>
              let s := setFileDescriptorLogFile s s.fileDescriptorLogFile
              endRequestUnlessEnded (writeSimpleResponse s 200 jsonHeaders
                (Body.text (statusOk ++ "\n")))
          else
            endRequestUnlessEnded (writeSimpleResponse s 200 jsonHeaders
              (Body.text (statusOk ++ "\n")))
    else
      respondWith401 s

/-- The `if`/`else if` chain of `onRequestBegin`: the handler selected by `path`. -/
def dispatch (srv : AdminServer) (env : Env) (req : Request) (s : St) : St :=
  let path := req.getPathWithoutQueryString
  if path = "/server.json" then processServerStatus srv req s
  else if regex_match path then processServerConnectionOperation srv req s
  else if path = "/pool.xml" then processPoolStatusXml srv req s
  else if path = "/pool.txt" then processPoolStatusTxt srv req s
  else if path = "/pool/restart_app_group.json" then processPoolRestartAppGroup srv req s
  else if path = "/pool/detach_process.json" then processPoolDetachProcess srv req s
  else if path = "/backtraces.txt" then processBacktraces srv env req s
  else if path = "/ping.json" then processPing srv req s
  else if path = "/shutdown.json" then processShutdown srv req s
  else if path = "/gc.json" then processGc srv req s
  else if path = "/config.json" then processConfig srv req s
  else if path = "/reinherit_logs.json" then processReinheritLogs srv env req s
  else if path = "/reopen_logs.json" then processReopenLogs srv env req s
  else respondWith404 s

/-- The `catch (const oxt::tracable_exception &)` block of `onRequestBegin`. -/
def catchInRequestBegin (s : St) : St :=
  match s.thrown with
  | Option.none => s
  | some e =>
    if e.isTracable then
      let s := { s.emit Event.SKC_ERROR with thrown := Option.none }
      if s.ended then s else endRequest { s with wantKeepAlive := false }
    else
      s

/-- `onRequestBegin`. -/
def onRequestBegin (srv : AdminServer) (env : Env) (req : Request) (s : St) : St :=
  catchInRequestBegin (dispatch srv env req s)

/-- The body-phase dispatch of `onRequestBody`, inside its `try` block. -/
def dispatchBody (srv : AdminServer) (env : Env) (req : Request) (s : St) : St :=
  let path := req.getPathWithoutQueryString
  if path = "/pool/restart_app_group.json" then processPoolRestartAppGroupBody srv env s
  else if path = "/pool/detach_process.json" then processPoolDetachProcessBody srv env s
  else if path = "/config.json" then processConfigBody srv env s
  else (s.emit (Event.P_BUG ("Unknown path for body processing: " ++ path))).throw
    (Exn.other "P_BUG")

/-- The `catch (const oxt::tracable_exception &)` block of `onRequestBody`. -/
def catchInRequestBody (s : St) : St :=
  match s.thrown with
  | Option.none => s
  | some e =>
    if e.isTracable then
      endRequestUnlessEnded { s.emit Event.SKC_ERROR with thrown := Option.none }
    else
      s

/-- `onRequestBody(client, req, buffer, errcode)`. -/
def onRequestBody (srv : AdminServer) (env : Env) (req : Request) (buffer : String)
    (errcode : Int) (s : St) : St :=
  if buffer.length > 0 then
    let s := { s with body := s.body ++ buffer }
    if requestBodyExceedsLimit req s defaultLimit then respondWith413 s else s
  else if errcode = 0 then
    let s := s.emit (Event.jsonParse s.body)
    match env.jsonParse s.body with
    | Except.ok json => catchInRequestBody (dispatchBody srv env req { s with jsonBody := json })
    | Except.error formattedErrorMessages => respondWith422 s formattedErrorMessages
  else
    disconnect s

/-- Modelled from the spec: the ServerKit request lifecycle (not under src/). After
`onRequestBegin`, the body events `(buffer, errcode)` are delivered one by one to
`onRequestBody` for as long as the request has not ended and no exception has
escaped; a failed check short-circuits the later states. -/
def deliverBody (srv : AdminServer) (env : Env) (req : Request) :
    List (String × Int) → St → St
  | [], s => s
  | ev :: rest, s =>
    if s.ended || s.thrown.isSome then s
    else deliverBody srv env req rest (onRequestBody srv env req ev.1 ev.2 s)

/-- One request from its header phase to the last body event delivered. -/
def processRequest (srv : AdminServer) (env : Env) (req : Request)
    (events : List (String × Int)) (s : St) : St :=
  deliverBody srv env req events (onRequestBegin srv env req s)

end ServerAgent

namespace LoggingAgent

/-- The logging agent's `AdminServer`: its public fields (`loggingServer` by what
`dump` writes), and `authorize` as the result of `authorize(this, client, req)` of
`agents/AdminServerUtils.h` for each request. -/
structure AdminServer where
  loggingServerDump : String
  instanceDir : String
  fdPassingPassword : String
  authorize : Request → Authorization

/-- Modelled from the spec: `authorizeAdminOperation` of `agents/AdminServerUtils.h`
(not under src/): the derived authorization has the admin tier. -/
def authorizeAdminOperation (srv : AdminServer) (req : Request) : Bool :=
  (srv.authorize req).canAdminister

/-- Modelled from the spec: `authorizeStateInspectionOperation` of
`agents/AdminServerUtils.h` (not under src/): the derived authorization has the
inspect-state capability. -/
def authorizeStateInspectionOperation (srv : AdminServer) (req : Request) : Bool :=
  (srv.authorize req).canInspectState

/-- `respondWith401`. -/
def respondWith401 (s : St) : St :=
  endRequestUnlessEnded (writeSimpleResponse s 401
    [("Cache-Control", "no-cache, no-store, must-revalidate"),
     ("WWW-Authenticate", "Basic realm=\"admin\"")]
    (Body.text "Unauthorized"))

/-- `respondWith404`. -/
def respondWith404 (s : St) : St :=
  endRequestUnlessEnded (writeSimpleResponse s 404
    [("Cache-Control", "no-cache, no-store, must-revalidate")]
    (Body.text "Not found"))

/-- `respondWith405`. -/
def respondWith405 (s : St) : St :=
  endRequestUnlessEnded (writeSimpleResponse s 405
    [("Cache-Control", "no-cache, no-store, must-revalidate")]
    (Body.text "Method not allowed"))

/-- `respondWith422`. -/
def respondWith422 (s : St) (body : String) : St :=
  endRequestUnlessEnded (writeSimpleResponse s 422
    [("Cache-Control", "no-cache, no-store, must-revalidate"),
     ("Content-Type", "text/plain; charset=utf-8")]
    (Body.text body))

/-- `processPing`. -/
def processPing (srv : AdminServer) (req : Request) (s : St) : St :=
  let s := s.emit Event.authorize
  if authorizeStateInspectionOperation srv req then
    endRequestUnlessEnded (writeSimpleResponse s 200
      [("Cache-Control", "no-cache, no-store, must-revalidate"),
       ("Content-Type", "application/json")]
      (Body.text statusOk))
  else
    respondWith401 s

/-- `processShutdown`. -/
def processShutdown (srv : AdminServer) (req : Request) (s : St) : St :=
  if req.method ≠ HttpMethod.HTTP_POST then
    respondWith405 s
  else
    let s := s.emit Event.authorize
    if authorizeAdminOperation srv req then
      let s := s.emit Event.exitEventNotify
      endRequestUnlessEnded (writeSimpleResponse s 200 jsonHeaders (Body.text statusOk))
    else
      respondWith401 s

/-- The document built by the GET branch of `processConfig`. -/
def configDoc (logLevel : Int) (logFile : String) (fileDescriptorLogFile : String) :
    List (String × Json) :=
  let doc := setMember [] "log_level" (Json.int logLevel)
  let doc := if !logFile.isEmpty then setMember doc "log_file" (Json.str logFile) else doc
  if !fileDescriptorLogFile.isEmpty then
    setMember doc "file_descriptor_log_file" (Json.str fileDescriptorLogFile)
  else
    doc

/-- `processConfig`. In the GET branch the 401 answer is not followed by a `return`. -/
def processConfig (srv : AdminServer) (req : Request) (s : St) : St :=
  if req.method = HttpMethod.HTTP_GET then
    let s := s.emit Event.authorize
    let s := if !authorizeStateInspectionOperation srv req then respondWith401 s else s
    let s := s.emit Event.getLogFile
    let logFile := s.logFile
    let s := s.emit Event.getFileDescriptorLogFile
    let fileDescriptorLogFile := s.fileDescriptorLogFile
    let s := s.emit Event.getLogLevel
    let doc := configDoc s.logLevel logFile fileDescriptorLogFile
    endRequestUnlessEnded (writeSimpleResponse s 200 jsonHeaders (Body.styled (Json.obj doc)))
  else if req.method = HttpMethod.HTTP_PUT then
    let s := s.emit Event.authorize
    if !authorizeAdminOperation srv req then
      respondWith401 s
    else if !req.hasBody then
      endAsBadRequest s "Body required"
    else
      s
  else
    respondWith405 s

/-- The `log_file` part of `processConfigBody` and what follows it. -/
def processConfigBodyLogFile (env : Env) (headers : HeaderTable) (s : St) : St :=
  match s.jsonBody.isMember "log_file" with
  | Except.error e => s.throw e
  | Except.ok false =>
    endRequestUnlessEnded (writeSimpleResponse s 200 headers (Body.text (statusOk ++ "\n")))
  | Except.ok true =>
    match env.asString (s.jsonBody.get "log_file") with
    | Except.error e => s.throw e
    | Except.ok logFile =>
      let s := s.emit (Event.absolutizePath logFile)
      match env.absolutizePath logFile with
      | Except.error what =>
        endRequestUnlessEnded (writeSimpleResponse s 500 headers
          (Body.text (snprintf 1024 ("\x7b \"status\": \"error\", " ++
            "\"message\": \"Cannot absolutize log file filename: " ++ what ++ "\" \x7d"))))
      | Except.ok logFile =>
        match env.openLogFile logFile with
        | some e =>
          endRequestUnlessEnded (writeSimpleResponse s 500 headers
            (Body.text (snprintf 1024 ("\x7b \"status\": \"error\", " ++
              "\"message\": \"Cannot open log file: " ++ env.strerror e ++
              " (errno=" ++ toString e ++ ")\" \x7d"))))
        | Option.none =>
          endRequestUnlessEnded (writeSimpleResponse (setLogFile s logFile) 200 headers
            (Body.text (statusOk ++ "\n")))

/-- `processConfigBody`. -/
def processConfigBody (env : Env) (s : St) : St :=
  let headers : HeaderTable := [("Content-Type", "application/json")]
  match s.jsonBody.isMember "log_level" with
  | Except.error e => s.throw e
  | Except.ok false => processConfigBodyLogFile env headers s
  | Except.ok true =>
    match env.asInt (s.jsonBody.get "log_level") with
    | Except.error e => s.throw e
    | Except.ok level => processConfigBodyLogFile env headers (setLogLevel s level)

/-- The `while (true)` loop of `processReinheritLogs` over the lines still to be
read: `none` when the premature-EOF branch is taken, else the value of
`logFilePath` at the `break`. -/
def readHeaderLines : List String → String → St → Option String × St
  | [], _, s => (Option.none, s.emit Event.readLine)
  | response :: rest, logFilePath, s =>
    if response.isEmpty then
      (Option.none, s.emit Event.readLine)
    else if response = "\r\n" then
      (some logFilePath, s.emit Event.readLine)
    else if startsWith response "filename: " || startsWith response "Filename: " then
      readHeaderLines rest (eraseFront response "filename: ".length) (s.emit Event.readLine)
    else
      readHeaderLines rest logFilePath (s.emit Event.readLine)

/-- The headers of every answer written by `processReinheritLogs` itself. -/
def reinheritHeaders : HeaderTable :=
  [("Cache-Control", "no-cache, no-store, must-revalidate"),
   ("Content-Type", "application/json")]

/-- `processReinheritLogs`, after the watchdog has been connected and the request written. -/
def processReinheritLogsExchange (env : Env) (s : St) : St :=
  let response := env.watchdog.lines.headD ""
  let s := s.emit Event.readLine
  if response ≠ "HTTP/1.1 200 OK\r\n" then
    let s := s.emit Event.watchdogClose
    endRequestUnlessEnded (writeSimpleResponse s 500 reinheritHeaders
      (Body.text ("\x7b \"status\": \"error\", " ++
        "\"code\": \"INHERIT_ERROR\", " ++
        "\"message\": \"Error communicating with Watchdog process: non-200 response\" \x7d\n")))
  else
    match readHeaderLines env.watchdog.lines.tail "" s with
    | (Option.none, s) =>
      let s := s.emit Event.watchdogClose
      endRequestUnlessEnded (writeSimpleResponse s 500 reinheritHeaders
        (Body.text ("\x7b \"status\": \"error\", " ++
          "\"code\": \"INHERIT_ERROR\", " ++
          "\"message\": \"Error communicating with Watchdog process: " ++
          "premature EOF encountered in response\" \x7d\n")))
    | (some logFilePath, s) =>
      if logFilePath.isEmpty then
        let s := s.emit Event.watchdogClose
        endRequestUnlessEnded (writeSimpleResponse s 500 reinheritHeaders
          (Body.text ("\x7b \"status\": \"error\", " ++
            "\"code\": \"INHERIT_ERROR\", " ++
            "\"message\": \"Error communicating with Watchdog process: " ++
            "no log filename received in response\" \x7d\n")))
      else
        let s := s.emit (Event.readFileDescriptorWithNegotiation 1000000)
        match env.watchdog.transfer with
        | Except.error e => s.throw e
        | Except.ok fd =>
          let s := setLogFileWithFd s logFilePath fd
          let s := s.emit (Event.safelyClose fd)
          let s := s.emit Event.watchdogClose
          endRequestUnlessEnded (writeSimpleResponse s 200 reinheritHeaders
            (Body.text (statusOk ++ "\n")))

/-- `processReinheritLogs`. -/
def processReinheritLogs (srv : AdminServer) (env : Env) (req : Request) (s : St) : St :=
  if req.method ≠ HttpMethod.HTTP_POST then
    respondWith405 s
  else
    let s := s.emit Event.authorize
    if authorizeAdminOperation srv req then
      if srv.instanceDir.isEmpty || srv.fdPassingPassword.isEmpty then
        endRequestUnlessEnded (writeSimpleResponse s 501 reinheritHeaders
          (Body.text ("\x7b \"status\": \"error\", " ++
            "\"code\": \"NO_WATCHDOG\", " ++
            "\"message\": \"No Watchdog process\" \x7d\n")))
      else
        let s := s.emit (Event.connectToUnixServer (srv.instanceDir ++ "/agents.s/watchdog"))
        match env.watchdog.connect with
        | some e => s.throw e
        | Option.none =>
          let s := s.emit (Event.writeExact (watchdogRequest srv.fdPassingPassword))
          match env.watchdog.write with
          | some e => s.throw e
          | Option.none => processReinheritLogsExchange env s
    else
      respondWith401 s

/-- `processReopenLogs`. -/
def processReopenLogs (srv : AdminServer) (env : Env) (req : Request) (s : St) : St :=
  if req.method ≠ HttpMethod.HTTP_POST then
    respondWith405 s
  else
    let s := s.emit Event.authorize
    if authorizeAdminOperation srv req then
      let s := s.emit Event.getLogFile
      let logFile := s.logFile
      if logFile.isEmpty then
        endRequestUnlessEnded (writeSimpleResponse s 500 jsonHeaders
          (Body.text ("\x7b \"status\": \"error\", " ++
            "\"code\": \"NO_LOG_FILE\", " ++
            "\"message\": \"" ++ env.PROGRAM_NAME ++
            " was not configured with a log file.\" \x7d\n")))
      else
        match env.openLogFile logFile with
        | some e =>
          endRequestUnlessEnded (writeSimpleResponse s 500 jsonHeaders
            (Body.text (snprintf 1024 ("\x7b \"status\": \"error\", " ++
              "\"code\": \"LOG_FILE_OPEN_ERROR\", " ++
              "\"message\": \"Cannot reopen log file " ++ logFile ++ ": " ++
              env.strerror e ++ " (errno=" ++ toString e ++ ")\" \x7d"))))
        | Option.none =>
          let s := setLogFile s logFile
          let s := s.emit Event.hasFileDescriptorLogFile
          if s.hasFileDescriptorLogFile then
            let s := s.emit Event.getFileDescriptorLogFile
            match env.openFileDescriptorLogFile s.fileDescriptorLogFile with
            | some e =>
              endRequestUnlessEnded (writeSimpleResponse s 500 jsonHeaders
                (Body.text (snprintf 1024 ("\x7b \"status\": \"error\", " ++
                  "\"code\": \"FD_LOG_FILE_OPEN_ERROR\", " ++
                  "\"message\": \"Cannot reopen file descriptor log file " ++
                  s.fileDescriptorLogFile ++ ": " ++
                  env.strerror e ++ " (errno=" ++ toString e ++ ")\" \x7d"))))
            | Option.none =>
              let s := setFileDescriptorLogFile s s.fileDescriptorLogFile
              endRequestUnlessEnded (writeSimpleResponse s 200 jsonHeaders
                (Body.text (statusOk ++ "\n")))
          else
            endRequestUnlessEnded (writeSimpleResponse s 200 jsonHeaders
              (Body.text (statusOk ++ "\n")))
    else
      respondWith401 s

/-- `processStatusTxt`. -/
def processStatusTxt (srv : AdminServer) (req : Request) (s : St) : St :=
  if req.method ≠ HttpMethod.HTTP_GET then
    respondWith405 s
  else
    let s := s.emit Event.authorize
    if authorizeStateInspectionOperation srv req then
      let s := s.emit Event.dump
      endRequestUnlessEnded (writeSimpleResponse s 200 [("Content-Type", "text/plain")]
        (Body.text srv.loggingServerDump))
    else
      respondWith401 s

/-- The `if`/`else if` chain of `onRequestBegin`; `path` is the whole request path. -/
def dispatch (srv : AdminServer) (env : Env) (req : Request) (s : St) : St :=
  let path := req.path
  if path = "/ping.json" then processPing srv req s
  else if path = "/shutdown.json" then processShutdown srv req s
  else if path = "/config.json" then processConfig srv req s
  else if path = "/reinherit_logs.json" then processReinheritLogs srv env req s
  else if path = "/reopen_logs.json" then processReopenLogs srv env req s
  else if path = "/status.txt" then processStatusTxt srv req s
  else respondWith404 s

/-- The `catch (const oxt::tracable_exception &)` block of `onRequestBegin`. -/
def catchInRequestBegin (s : St) : St :=
  match s.thrown with
  | Option.none => s
  | some e =>
    if e.isTracable then
      let s := { s.emit Event.SKC_ERROR with thrown := Option.none }
      if s.ended then s else endRequest { s with wantKeepAlive := false }
    else
      s

/-- `onRequestBegin`. -/
def onRequestBegin (srv : AdminServer) (env : Env) (req : Request) (s : St) : St :=
  catchInRequestBegin (dispatch srv env req s)

/-- `onRequestBody(client, req, buffer, errcode)`. -/
def onRequestBody (env : Env) (buffer : String) (errcode : Int) (s : St) : St :=
  if buffer.length > 0 then
    { s with body := s.body ++ buffer }
  else if errcode = 0 then
    let s := s.emit (Event.jsonParse s.body)
    match env.jsonParse s.body with
    | Except.ok json => processConfigBody env { s with jsonBody := json }
    | Except.error formattedErrorMessages => respondWith422 s formattedErrorMessages
  else
    disconnect s

/-- Modelled from the spec: the ServerKit request lifecycle (not under src/). After
`onRequestBegin`, the body events `(buffer, errcode)` are delivered one by one to
`onRequestBody` for as long as the request has not ended and no exception has
escaped; a failed check short-circuits the later states. -/
def deliverBody (env : Env) : List (String × Int) → St → St
  | [], s => s
  | ev :: rest, s =>
    if s.ended || s.thrown.isSome then s
    else deliverBody env rest (onRequestBody env ev.1 ev.2 s)

/-- One request from its header phase to the last body event delivered. -/
def processRequest (srv : AdminServer) (env : Env) (req : Request)
    (events : List (String × Int)) (s : St) : St :=
  deliverBody env events (onRequestBegin srv env req s)

end LoggingAgent

/-- Whether the event writes a response: `writeSimpleResponse` or the 400 of
`endAsBadRequest`. -/
def Event.isResponse : Event → Bool
  | Event.writeSimpleResponse _ _ _ => true
  | Event.endAsBadRequest _ => true
  | _ => false

/-- Whether the event is handler logic behind the authorization gate: a pool call,
a command submitted to a worker loop, a read of worker or logging state, a
change of log level or log sink, a shutdown notification, or watchdog traffic. -/
def Event.isPrivileged : Event → Bool
  | Event.authorize => false
  | Event.writeSimpleResponse _ _ _ => false
  | Event.endAsBadRequest _ => false
  | Event.endRequest => false
  | Event.disconnect => false
  | Event.jsonParse _ => false
  | Event.P_BUG _ => false
  | Event.SKC_ERROR => false
  | _ => true

/-- The response written by the event, as `(status, headers, body)`; the answer
of `endAsBadRequest` is a 400 whose headers are set by ServerKit. -/
def Event.response? : Event → Option (Nat × HeaderTable × Body)
  | Event.writeSimpleResponse code headers body => some (code, headers, body)
  | Event.endAsBadRequest body => some (400, [], Body.text body)
  | _ => Option.none

/-- The responses written, in order. -/
def responses (trace : List Event) : List (Nat × HeaderTable × Body) :=
  trace.filterMap Event.response?

/-- The body handed to the JSON parser by the event. -/
def Event.parsedBody? : Event → Option String
  | Event.jsonParse body => some body
  | _ => Option.none

/-- The bodies handed to the JSON parser, in order. -/
def parsedBodies (trace : List Event) : List String :=
  trace.filterMap Event.parsedBody?

/-- Whether the event marks a `catch` block. -/
def Event.isCatch : Event → Bool
  | Event.SKC_ERROR => true
  | _ => false

/-- Whether the event is the `authorize` call. -/
def Event.isAuthorize : Event → Bool
  | Event.authorize => true
  | _ => false

/-- The status codes of the responses written, in order. -/
def statuses (trace : List Event) : List Nat :=
  (responses trace).map (fun r => r.1)

/-- The literal paths that `onRequestBegin` of the helper agent compares with. -/
def ServerAgent.registeredPaths : List String :=
  ["/server.json", "/pool.xml", "/pool.txt", "/pool/restart_app_group.json",
   "/pool/detach_process.json", "/backtraces.txt", "/ping.json", "/shutdown.json",
   "/gc.json", "/config.json", "/reinherit_logs.json", "/reopen_logs.json"]

/-- The literal paths that `onRequestBegin` of the logging agent compares with. -/
def LoggingAgent.registeredPaths : List String :=
  ["/ping.json", "/shutdown.json", "/config.json", "/reinherit_logs.json",
   "/reopen_logs.json", "/status.txt"]

/-- The events of `respondWith404` on a request that has not ended. -/
def notFoundTrace : List Event :=
  [Event.writeSimpleResponse 404 [("Cache-Control", "no-cache, no-store, must-revalidate")]
     (Body.text "Not found"),
   Event.endRequest]

/-- The events of `respondWith405` on a request that has not ended. -/
def methodNotAllowedTrace : List Event :=
  [Event.writeSimpleResponse 405 [("Cache-Control", "no-cache, no-store, must-revalidate")]
     (Body.text "Method not allowed"),
   Event.endRequest]

/-- The events of `respondWith401` on a request that has not ended. -/
def unauthorizedTrace : List Event :=
  [Event.writeSimpleResponse 401
     [("Cache-Control", "no-cache, no-store, must-revalidate"),
      ("WWW-Authenticate", "Basic realm=\"admin\"")]
     (Body.text "Unauthorized"),
   Event.endRequest]

/-- The method gate of the helper agent, read off its handlers: for a path whose
handler tests `req->method`, the methods it lets through; `none` for a path
whose handler never looks at the method (`/server.json`, `/pool.xml`,
`/pool.txt`, `/backtraces.txt`, `/ping.json`) and for an unregistered path. -/
def ServerAgent.allowedMethods (path : String) : Option (List HttpMethod) :=
  if path = "/server.json" then Option.none
  else if regex_match path then some [HttpMethod.HTTP_DELETE]
  else if path = "/pool/restart_app_group.json" then some [HttpMethod.HTTP_POST]
  else if path = "/pool/detach_process.json" then some [HttpMethod.HTTP_POST]
  else if path = "/shutdown.json" then some [HttpMethod.HTTP_PUT]
  else if path = "/gc.json" then some [HttpMethod.HTTP_PUT]
  else if path = "/config.json" then some [HttpMethod.HTTP_GET, HttpMethod.HTTP_PUT]
  else if path = "/reinherit_logs.json" then some [HttpMethod.HTTP_POST]
  else if path = "/reopen_logs.json" then some [HttpMethod.HTTP_POST]
  else Option.none

/-- The method gate of the logging agent, read off its handlers (`/ping.json`
never looks at the method). -/
def LoggingAgent.allowedMethods (path : String) : Option (List HttpMethod) :=
  if path = "/shutdown.json" then some [HttpMethod.HTTP_POST]
  else if path = "/config.json" then some [HttpMethod.HTTP_GET, HttpMethod.HTTP_PUT]
  else if path = "/reinherit_logs.json" then some [HttpMethod.HTTP_POST]
  else if path = "/reopen_logs.json" then some [HttpMethod.HTTP_POST]
  else if path = "/status.txt" then some [HttpMethod.HTTP_GET]
  else Option.none

/-- The helper-agent routes whose handler tests the authorization before the
method, with the capability tested: `/server/<token>.json` (admin) and the two
pool operations (modify-pool). -/
def ServerAgent.capabilityTestedFirst (path : String) : Option (Authorization → Bool) :=
  if path = "/server.json" then Option.none
  else if regex_match path then some (fun auth => auth.canAdminister)
  else if path = "/pool/restart_app_group.json" then some (fun auth => auth.canModifyPool)
  else if path = "/pool/detach_process.json" then some (fun auth => auth.canModifyPool)
  else Option.none

/-- An authorization with every capability. -/
def Authorization.full : Authorization :=
  { uid := 0, apiKey := "", canReadPool := true, canModifyPool := true,
    canInspectState := true, canAdminister := true }

/-- A pool for concrete runs: it restarts every group and knows no process. -/
def samplePool : Pool :=
  { toXml := fun _ _ _ => "<info/>",
    inspect := fun _ _ _ => "pool",
    restartGroupByName := fun _ _ _ _ => Except.ok true,
    detachProcess := fun _ _ _ => Except.ok false }

/-- An environment for concrete runs, around the given watchdog: a JSON parser
that accepts exactly the empty object, conversions that accept strings and
integers, and log files that always open. -/
def sampleEnv (watchdog : Watchdog) : Env :=
  { jsonParse := fun body =>
      if body = "\x7b\x7d" then Except.ok (Json.obj []) else Except.error "Syntax error",
    asString := fun j =>
      match j with
      | Json.str v => Except.ok v
      | _ => Except.error (Exn.other "not convertible to string"),
    asInt := fun j =>
      match j with
      | Json.int n => Except.ok n
      | _ => Except.error (Exn.other "not convertible to Int"),
    asUInt := fun j =>
      match j with
      | Json.int n => Except.ok n.toNat
      | _ => Except.error (Exn.other "not convertible to UInt"),
    absolutizePath := fun path => Except.ok path,
    openLogFile := fun _ => Option.none,
    openFileDescriptorLogFile := fun _ => Option.none,
    strerror := fun _ => "error",
    all_backtraces := "",
    PROGRAM_NAME := "Phusion Passenger",
    watchdog := watchdog }

/-- A watchdog that answers with a log file name and hands over descriptor 7. -/
def sampleWatchdog : Watchdog :=
  { connect := Option.none, write := Option.none,
    lines := ["HTTP/1.1 200 OK\r\n", "filename: /var/log/passenger.log\r\n", "\r\n"],
    transfer := Except.ok 7 }

/-- A helper-agent admin server with one worker, deriving `auth` for every request. -/
def ServerAgent.sampleServer (auth : Authorization) : ServerAgent.AdminServer :=
  { requestHandlers := [{ inspectStateAsJson := Json.null, getConfigAsJson := [] }],
    appPool := samplePool, instanceDir := "/tmp/instance", fdPassingPassword := "secret",
    authorize := fun _ => auth }

/-- A logging-agent admin server, deriving `auth` for every request. -/
def LoggingAgent.sampleServer (auth : Authorization) : LoggingAgent.AdminServer :=
  { loggingServerDump := "", instanceDir := "/tmp/instance", fdPassingPassword := "secret",
    authorize := fun _ => auth }

/-- A request without a body. -/
def sampleRequest (method : HttpMethod) (path : String) : Request :=
  { method := method, path := path, bodyType := BodyType.RBT_NO_BODY, contentLength := 0,
    credentials := "" }

/-- A request with a chunked body. -/
def sampleChunkedRequest (method : HttpMethod) (path : String) : Request :=
  { method := method, path := path, bodyType := BodyType.RBT_CHUNKED, contentLength := 0,
    credentials := "" }

/-- The authorization grants every capability. -/
def Authorization.grantsEverything (auth : Authorization) : Bool :=
  auth.canReadPool && auth.canModifyPool && auth.canInspectState && auth.canAdminister

/-- The helper-agent routes whose handler tests the method before anything else. -/
def ServerAgent.methodTestedFirst : List String :=
  ["/shutdown.json", "/gc.json", "/config.json", "/reinherit_logs.json", "/reopen_logs.json"]

/-- Following the words of the specification: the number written by a run of
decimal digits, read as a natural number. -/
def decimalValue (digits : List Char) : Nat :=
  digits.foldl (fun n c => 10 * n + (c.toNat - '0'.toNat)) 0

/-- Following the words of the specification: the path `/server/<token>.json` of
a token. -/
def serverConnectionPathOf (token : List Char) : String :=
  String.mk ("/server/".data ++ token ++ ".json".data)

/-- Following the words of the specification: a token that matches `^[0-9]+-.*`,
built from its nonempty run of leading digits and from what follows the hyphen. -/
def tokenOf (digits rest : List Char) : List Char :=
  digits ++ '-' :: rest

/-- The request is open and nothing has been answered: no response written, no
`catch` block run, no exception in flight, the connection still there. -/
def St.Pending (s : St) : Prop :=
  s.ended = false ∧ s.thrown = Option.none ∧ s.disconnected = false ∧
    responses s.trace = [] ∧ s.trace.any Event.isCatch = false

/-- The request has ended with exactly one response written. -/
def St.Answered (s : St) : Prop :=
  s.ended = true ∧ s.thrown = Option.none ∧ s.disconnected = false ∧
    (responses s.trace).length = 1 ∧ s.trace.any Event.isCatch = false

/-- The request was given up without any response: a `catch` block ended it, the
connection was dropped after a body read error, or an exception that the admin
server does not catch is in flight. -/
def St.Aborted (s : St) : Prop :=
  responses s.trace = [] ∧
    ((s.ended = true ∧ s.thrown = Option.none ∧
        (s.disconnected = true ∨ s.trace.any Event.isCatch = true)) ∨
      (s.ended = false ∧ s.thrown ≠ Option.none))

/-- An event that is neither a response, nor the mark of a `catch` block, nor a
call of the JSON parser. -/
def Event.isSilent : Event → Bool
  | Event.writeSimpleResponse _ _ _ => false
  | Event.endAsBadRequest _ => false
  | Event.SKC_ERROR => false
  | Event.jsonParse _ => false
  | _ => true

/-- The state `s'` is reached from the pending state `s` by silent steps only:
it is still pending, with the same buffered body and the same parser calls. -/
def Quietly (s s' : St) : Prop :=
  s'.Pending ∧ s'.body = s.body ∧ parsedBodies s'.trace = parsedBodies s.trace

/-- A handler has finished with the pending request `s`, giving `s'`: it did not
touch the buffered body, handed nothing to the JSON parser, and the request is
answered or given up. -/
def Finished (s s' : St) : Prop :=
  s'.body = s.body ∧ parsedBodies s'.trace = parsedBodies s.trace ∧
    (s'.Answered ∨ s'.Aborted)

/-- What a header-phase handler does to a pending request `s`, giving `s'`: it
finishes with it, or it lets it through to the body phase and then the only
call made was `authorize`. -/
def Handled (s s' : St) : Prop :=
  Finished s s' ∨ (Quietly s s' ∧ s'.trace = s.trace ++ [Event.authorize])

/-- The request on which `processConfig` of the helper agent answers 401 and
carries on: GET /config.json without the inspect-state capability. -/
def ServerAgent.configGetUnauthorized (srv : ServerAgent.AdminServer) (req : Request) : Bool :=
  decide (req.getPathWithoutQueryString = "/config.json") &&
    decide (req.method = HttpMethod.HTTP_GET) &&
    !ServerAgent.authorizeStateInspectionOperation srv req

/-- The request on which `processConfig` of the logging agent answers 401 and
carries on: GET /config.json without the inspect-state capability. -/
def LoggingAgent.configGetUnauthorized (srv : LoggingAgent.AdminServer) (req : Request) : Bool :=
  decide (req.path = "/config.json") &&
    decide (req.method = HttpMethod.HTTP_GET) &&
    !LoggingAgent.authorizeStateInspectionOperation srv req

/-- The request awaits its body: it is pending and only `authorize` has been called. -/
def St.AwaitingBody (s : St) : Prop :=
  s.Pending ∧ s.trace.all Event.isAuthorize = true

/-- The events of `respondWith413` on a request that has not ended. -/
def payloadTooLargeTrace : List Event :=
  [Event.writeSimpleResponse 413 [("Cache-Control", "no-cache, no-store, must-revalidate")]
     (Body.text "Request body too large"),
   Event.endRequest]

/-- The events of `respondWith422` on a request that has not ended. -/
def unprocessableTrace (body : String) : List Event :=
  [Event.writeSimpleResponse 422
     [("Cache-Control", "no-cache, no-store, must-revalidate"),
      ("Content-Type", "text/plain; charset=utf-8")]
     (Body.text body),
   Event.endRequest]

/-- What one call of `onRequestBody` with `buffer` does to a pending request `s`,
giving `s'`; `exceeds` is the outcome of the size check after the buffer has
been appended. Either the data is buffered, or the request is answered with
413, or the parser rejects the buffered body and the request is answered with
422, or the parser accepts it and a body handler finishes with the request, or
the connection is dropped after a read error. -/
def BodyStep (env : Env) (buffer : String) (exceeds : Bool) (s s' : St) : Prop :=
  (0 < buffer.length ∧ exceeds = false ∧ s'.Pending ∧ s'.trace = s.trace ∧
      s'.body = s.body ++ buffer) ∨
  (0 < buffer.length ∧ exceeds = true ∧ s'.Answered ∧
      s'.trace = s.trace ++ payloadTooLargeTrace ∧ s'.body = s.body ++ buffer) ∨
  (∃ message, env.jsonParse s.body = Except.error message ∧ s'.Answered ∧
      s'.trace = s.trace ++ Event.jsonParse s.body :: unprocessableTrace message ∧
      s'.body = s.body) ∨
  (∃ json, env.jsonParse s.body = Except.ok json ∧ (s'.Answered ∨ s'.Aborted) ∧
      parsedBodies s'.trace = parsedBodies s.trace ++ [s.body] ∧ s'.body = s.body) ∨
  (s'.Aborted ∧ s'.ended = true ∧ s'.trace = s.trace ++ [Event.disconnect] ∧
      s'.body = s.body)

/-- A request that is still open awaits its body. -/
def St.OpenQuiet (s : St) : Prop :=
  s.ended = false → s.thrown = Option.none → s.AwaitingBody

/-- The request is pending, answered with exactly one response, or given up
without any response. -/
def St.Settled (s : St) : Prop :=
  s.Pending ∨ s.Answered ∨ s.Aborted

/-- Every body that the JSON parser was given and rejected has led to the 422
answer, with the request ended and no privileged call made. -/
def RejectsInvalidJson (env : Env) (s : St) : Prop :=
  ∀ b ∈ parsedBodies s.trace, ∀ message, env.jsonParse b = Except.error message →
    statuses s.trace = [422] ∧ s.trace.all (fun e => !e.isPrivileged) = true ∧
      s.ended = true

/-- The ceiling on the buffered body: the JSON parser was only given bodies within
`limit`, and a buffered body beyond `limit` has led to the 413 answer, with the
request ended, the parser not called and no privileged call made. -/
def EnforcesCeiling (limit : Nat) (s : St) : Prop :=
  (∀ b ∈ parsedBodies s.trace, b.length ≤ limit) ∧
  (limit < s.body.length →
    statuses s.trace = [413] ∧ parsedBodies s.trace = [] ∧
      s.trace.all (fun e => !e.isPrivileged) = true ∧ s.ended = true)

/-- The number of body bytes carried by the events `(buffer, errcode)`. -/
def dataLength (events : List (String × Int)) : Nat :=
  (events.map (fun ev => ev.1.length)).sum

/-- A body of 131073 bytes, one more than the ceiling of 128 KiB. -/
def oversizedBody : String :=
  String.mk (List.replicate 131073 'a')

/-- The size check of the helper agent applied to a buffered body `body`. -/
def ServerAgent.bodyWithinCeiling (req : Request) (body : String) : Bool :=
  !ServerAgent.requestBodyExceedsLimit req { St.init 0 "" "" false with body := body }
    ServerAgent.defaultLimit

/-- The requests that the header phase of the helper agent lets through to the
body phase, read off `processPoolRestartAppGroup`, `processPoolDetachProcess`
and the PUT branch of `processConfig`. -/
def ServerAgent.acceptsBody (srv : ServerAgent.AdminServer) (req : Request) : Bool :=
  if req.getPathWithoutQueryString = "/pool/restart_app_group.json"
      ∨ req.getPathWithoutQueryString = "/pool/detach_process.json" then
    (srv.authorize req).canModifyPool && decide (req.method = HttpMethod.HTTP_POST)
      && req.hasBody && ServerAgent.bodyWithinCeiling req ""
  else if req.getPathWithoutQueryString = "/config.json" then
    decide (req.method = HttpMethod.HTTP_PUT) && ServerAgent.authorizeAdminOperation srv req
      && req.hasBody
  else
    false

/-- The requests that the header phase of the logging agent lets through to the
body phase, read off the PUT branch of `processConfig`. -/
def LoggingAgent.acceptsBody (srv : LoggingAgent.AdminServer) (req : Request) : Bool :=
  decide (req.path = "/config.json") && decide (req.method = HttpMethod.HTTP_PUT)
    && LoggingAgent.authorizeAdminOperation srv req && req.hasBody

/-- The body events of a body that arrives in the chunks `chunks` and then ends. -/
def bodyEvents (chunks : List String) : List (String × Int) :=
  chunks.map (fun c => (c, (0 : Int))) ++ [("", 0)]

/-- The body buffered from `chunks` on top of `body` by the repeated
`req->body.append(...)`. -/
def buffered (body : String) (chunks : List String) : String :=
  chunks.foldl (fun b c => b ++ c) body

/-- The test of the handoff loop for a line that carries the log file name:
`startsWith(response, "filename: ") || startsWith(response, "Filename: ")`. -/
def capturesFilename (response : String) : Bool :=
  startsWith response "filename: " || startsWith response "Filename: "

/-- The body of the 500 answers of `processReinheritLogs`: the error code
`INHERIT_ERROR`, with `detail` closing the message. -/
def inheritErrorBody (detail : String) : String :=
  "\x7b \"status\": \"error\", \"code\": \"INHERIT_ERROR\", " ++
    "\"message\": \"Error communicating with Watchdog process: " ++ detail ++ "\" \x7d\n"

/-- Following the words of the specification: the way in which the reply `lines`
of the supervisor fails the header exchange, if it does. The status line is not
exactly `HTTP/1.1 200 OK`; or the reply ends (an empty read) before a blank
line; or the blank line is reached and no line before it carries the file name. -/
def headerExchangeFailure (lines : List String) : Option String :=
  if lines.headD "" ≠ "HTTP/1.1 200 OK\r\n" then
    some "non-200 response"
  else if !(lines.tail.takeWhile (fun l => l != "")).contains "\r\n" then
    some "premature EOF encountered in response"
  else if (lines.tail.takeWhile (fun l => l != "\r\n")).all (fun l => !capturesFilename l) then
    some "no log filename received in response"
  else
    Option.none

/-- Whether the event changes the active log sink. -/
def Event.isLogSinkChange : Event → Bool
  | Event.setLogFile _ => true
  | Event.setFileDescriptorLogFile _ => true
  | Event.setLogFileWithFd _ _ => true
  | _ => false

/-- Whether the event is an attempt to receive a descriptor from the watchdog. -/
def Event.isDescriptorTransfer : Event → Bool
  | Event.readFileDescriptorWithNegotiation _ => true
  | _ => false

/-- A watchdog that answers with the status line 404 and nothing else. -/
def notFoundWatchdog : Watchdog :=
  { connect := Option.none, write := Option.none,
    lines := ["HTTP/1.1 404 Not Found\r\n"],
    transfer := Except.ok 7 }

/-- The requests on which `processReinheritLogs` of the helper agent turns to the
watchdog: POST /reinherit_logs.json with the admin capability, on a server that
knows its instance directory and its descriptor-passing password. -/
def ServerAgent.asksWatchdog (srv : ServerAgent.AdminServer) (req : Request) : Bool :=
  decide (req.getPathWithoutQueryString = "/reinherit_logs.json") &&
    decide (req.method = HttpMethod.HTTP_POST) && ServerAgent.authorizeAdminOperation srv req &&
    !srv.instanceDir.isEmpty && !srv.fdPassingPassword.isEmpty

/-- The requests on which `processReinheritLogs` of the logging agent turns to the
watchdog. -/
def LoggingAgent.asksWatchdog (srv : LoggingAgent.AdminServer) (req : Request) : Bool :=
  decide (req.path = "/reinherit_logs.json") &&
    decide (req.method = HttpMethod.HTTP_POST) && LoggingAgent.authorizeAdminOperation srv req &&
    !srv.instanceDir.isEmpty && !srv.fdPassingPassword.isEmpty

/-- The calls of `processReinheritLogs` up to the request written to the watchdog. -/
def handoffPrelude (instanceDir fdPassingPassword : String) : List Event :=
  [Event.authorize, Event.connectToUnixServer (instanceDir ++ "/agents.s/watchdog"),
   Event.writeExact (watchdogRequest fdPassingPassword)]

/-- The run that ends in `s` has left the log sink as it was: no call that sets
the log file was made, and the logging state is the one given. -/
def St.SinkUntouched (s : St) (logFile fdLogFile : String) (hasFd : Bool) : Prop :=
  s.trace.all (fun e => !e.isLogSinkChange) = true ∧ s.logFile = logFile ∧
    s.fileDescriptorLogFile = fdLogFile ∧ s.hasFileDescriptorLogFile = hasFd

/-- The value of `logFilePath` when the handoff loop has read the header lines
`hdrs`, starting from `logFilePath`: each line that passes the test replaces it
by what follows its first ten characters. -/
def capturedPath (hdrs : List String) (logFilePath : String) : String :=
  hdrs.foldl
    (fun path response =>
      if capturesFilename response then eraseFront response "filename: ".length else path)
    logFilePath

/-- A watchdog that answers with the status line 200, the header lines `hdrs` and
the blank line, and then hands over the descriptor `d`. -/
def headerWatchdog (hdrs : List String) (d : Int) : Watchdog :=
  { connect := Option.none, write := Option.none,
    lines := "HTTP/1.1 200 OK\r\n" :: hdrs ++ ["\r\n"],
    transfer := Except.ok d }

/-- The calls of a handoff that succeeds after `n` lines read: the descriptor
transfer, the log sink installed with `path` and `fd`, the descriptors closed,
the answer 200 and the end of the request. -/
def handoffSuccess (n : Nat) (path : String) (fd : Int) : List Event :=
  List.replicate n Event.readLine ++
    [Event.readFileDescriptorWithNegotiation 1000000, Event.setLogFileWithFd path fd,
     Event.safelyClose fd, Event.watchdogClose,
     Event.writeSimpleResponse 200 ServerAgent.reinheritHeaders (Body.text (statusOk ++ "\n")),
     Event.endRequest]

/-- A watchdog that answers with a log file name and then lets the descriptor
transfer time out. -/
def stalledWatchdog : Watchdog :=
  { connect := Option.none, write := Option.none,
    lines := ["HTTP/1.1 200 OK\r\n", "filename: /var/log/passenger.log\r\n", "\r\n"],
    transfer := Except.error (Exn.tracable "Timeout receiving file descriptor") }

/-- The step of the handoff at which the collaborator throws `e`: connecting to
the watchdog socket, writing the request, or, after a header block that gave a
file name, receiving the descriptor. -/
def Watchdog.Throws (w : Watchdog) (e : Exn) : Prop :=
  w.connect = some e ∨
  (w.connect = Option.none ∧ w.write = some e) ∨
  (w.connect = Option.none ∧ w.write = Option.none ∧
    ∃ hdrs rest, w.lines = "HTTP/1.1 200 OK\r\n" :: hdrs ++ "\r\n" :: rest ∧
      (∀ h ∈ hdrs, h.isEmpty = false ∧ h ≠ "\r\n") ∧
      (capturedPath hdrs "").isEmpty = false ∧ w.transfer = Except.error e)

/-- The request was given up because `e` was thrown: no response was written and
the log sink is as it was; the `catch` block of `onRequestBegin` has logged a
tracable exception and ended the request without keep-alive, and any other
exception is still in flight. -/
def St.GaveUpOn (s : St) (e : Exn) (logFile fdLogFile : String) (hasFd : Bool) : Prop :=
  responses s.trace = [] ∧ s.SinkUntouched logFile fdLogFile hasFd ∧
    (e.isTracable = true →
      s.ended = true ∧ s.wantKeepAlive = false ∧ s.thrown = Option.none ∧
        s.trace.any Event.isCatch = true) ∧
    (e.isTracable = false → s.ended = false ∧ s.thrown = some e)

/-- The calls of a handoff that is refused after `n` lines read: the socket
closed, the answer 500 with the code `INHERIT_ERROR` and the end of the request. -/
def handoffFailure (n : Nat) (detail : String) : List Event :=
  List.replicate n Event.readLine ++
    [Event.watchdogClose,
     Event.writeSimpleResponse 500 ServerAgent.reinheritHeaders
       (Body.text (inheritErrorBody detail)),
     Event.endRequest]

/-- The members stored by the `for` loop of `processServerStatus` for the workers
`hs`, the first of them at position `i`: the key `thread<i + 1>` with the state
of that worker, and so on in worker order. -/
def threadEntries : List RequestHandler → Nat → List (String × Json)
  | [], _ => []
  | rh :: rest, i =>
    ("thread" ++ toString (i + 1), rh.inspectStateAsJson) :: threadEntries rest (i + 1)

/-- The commands submitted by the `for` loop of `processServerStatus` for `n`
workers, the first of them at position `i`. -/
def stateInspections : Nat → Nat → List Event
  | 0, _ => []
  | n + 1, i => Event.runSync i Command.inspectRequestHandlerState :: stateInspections n (i + 1)

/-- The keys of a JSON object, as the embedding lists them (see `setMember`). -/
def Json.keys : Json → List String
  | Json.obj members => members.map (fun kv => kv.1)
  | _ => []

/-- The JSON documents written as response bodies, in order. -/
def responseDocs (trace : List Event) : List Json :=
  (responses trace).filterMap
    (fun r => match r.2.2 with
      | Body.styled doc => some doc
      | Body.text _ => Option.none)

/-- A helper-agent admin server with the workers `hs`, deriving `auth` for every
request. -/
def ServerAgent.serverWithWorkers (hs : List RequestHandler) (auth : Authorization) :
    ServerAgent.AdminServer :=
  { requestHandlers := hs, appPool := samplePool, instanceDir := "/tmp/instance",
    fdPassingPassword := "secret", authorize := fun _ => auth }

/-- Three workers, told apart by their state. -/
def threeWorkers : List RequestHandler :=
  [{ inspectStateAsJson := Json.str "first", getConfigAsJson := [] },
   { inspectStateAsJson := Json.str "second", getConfigAsJson := [] },
   { inspectStateAsJson := Json.str "third", getConfigAsJson := [] }]

/-- Whether the headers carry `Cache-Control: no-cache, no-store, must-revalidate`. -/
def forbidsCaching (headers : HeaderTable) : Bool :=
  headers.contains ("Cache-Control", "no-cache, no-store, must-revalidate")

/-- The status of each response written, with whether it forbids caching. -/
def cachingOfResponses (trace : List Event) : List (Nat × Bool) :=
  (responses trace).map (fun r => (r.1, forbidsCaching r.2.1))

/-- Whether the event changes the state of the server, of a worker, of the pool
or of the logging: a command other than a read submitted to a worker, a pool
operation, the shutdown notification, or a change of log level or log sink. -/
def Event.changesState : Event → Bool
  | Event.runLater _ _ => true
  | Event.runSync _ (Command.disconnectClient _) => true
  | Event.runSync _ Command.garbageCollect => true
  | Event.runSync _ (Command.configureRequestHandler _) => true
  | Event.restartGroupByName _ _ _ _ => true
  | Event.detachProcess _ _ _ => true
  | Event.exitEventNotify => true
  | Event.setLogLevel _ => true
  | Event.setLogFile _ => true
  | Event.setFileDescriptorLogFile _ => true
  | Event.setLogFileWithFd _ _ => true
  | _ => false

/-- The request is a GET /config.json of the helper agent with the inspect-state
capability. -/
def ServerAgent.configGetAuthorized (srv : ServerAgent.AdminServer) (req : Request) : Bool :=
  decide (req.getPathWithoutQueryString = "/config.json") &&
    decide (req.method = HttpMethod.HTTP_GET) &&
    ServerAgent.authorizeStateInspectionOperation srv req

/-- The request is a GET /config.json of the logging agent with the inspect-state
capability. -/
def LoggingAgent.configGetAuthorized (srv : LoggingAgent.AdminServer) (req : Request) : Bool :=
  decide (req.path = "/config.json") &&
    decide (req.method = HttpMethod.HTTP_GET) &&
    LoggingAgent.authorizeStateInspectionOperation srv req

/-- The logging state of `s'` is the given one. -/
def St.LoggingStateIs (s' : St) (logLevel : Int) (logFile fdLogFile : String)
    (hasFd : Bool) : Prop :=
  s'.logLevel = logLevel ∧ s'.logFile = logFile ∧ s'.fileDescriptorLogFile = fdLogFile ∧
    s'.hasFileDescriptorLogFile = hasFd

/-- Whether the event belongs to one of the two branches that guard against a
dispatch mismatch: the `P_BUG` of the body-phase dispatch, or the answer
`Invalid URI` of `processServerConnectionOperation`. -/
def Event.isGuardBranch : Event → Bool
  | Event.P_BUG _ => true
  | Event.endAsBadRequest body => body == "Invalid URI"
  | _ => false

/-- The paths that the body-phase dispatch of the helper agent knows. -/
def ServerAgent.bodyPaths : List String :=
  ["/pool/restart_app_group.json", "/pool/detach_process.json", "/config.json"]

/-- No call of the run that ends in `s` belongs to a guard branch. -/
def St.NoGuardBranch (s : St) : Prop :=
  s.trace.all (fun e => !e.isGuardBranch) = true

/-- The request has ended, or an exception is in flight. -/
def St.Closed (s : St) : Prop :=
  s.ended = true ∨ s.thrown ≠ Option.none

/-! ## Theorems -/

/-! ### Dispatch of the helper agent -/

theorem ServerAgent.catchInRequestBegin_of_not_thrown (s : St) (h : s.thrown = Option.none) :
    ServerAgent.catchInRequestBegin s = s := by
  simp [ServerAgent.catchInRequestBegin, h]

theorem LoggingAgent.logging_catchInRequestBegin_of_not_thrown (s : St) (h : s.thrown = Option.none) :
    LoggingAgent.catchInRequestBegin s = s := by
  simp [LoggingAgent.catchInRequestBegin, h]

theorem regex_match_registered (path : String) (h : path ∈ ServerAgent.registeredPaths) :
    regex_match path = false := by
  simp only [ServerAgent.registeredPaths, List.mem_cons, List.mem_singleton,
    List.not_mem_nil, or_false] at h
  rcases h with h | h | h | h | h | h | h | h | h | h | h | h <;> subst h <;> decide

theorem ServerAgent.dispatch_serverStatus (srv : ServerAgent.AdminServer) (env : Env)
    (req : Request) (s : St) (h : req.getPathWithoutQueryString = "/server.json") :
    ServerAgent.dispatch srv env req s = ServerAgent.processServerStatus srv req s := by
  simp [ServerAgent.dispatch, h]

theorem ServerAgent.dispatch_serverConnection (srv : ServerAgent.AdminServer) (env : Env)
    (req : Request) (s : St) (h : regex_match req.getPathWithoutQueryString = true) :
    ServerAgent.dispatch srv env req s
      = ServerAgent.processServerConnectionOperation srv req s := by
  have h1 : req.getPathWithoutQueryString ≠ "/server.json" := by
    intro hp
    rw [hp] at h
    exact absurd h (by decide)
  simp [ServerAgent.dispatch, h, h1]

theorem ServerAgent.dispatch_poolXml (srv : ServerAgent.AdminServer) (env : Env)
    (req : Request) (s : St) (h : req.getPathWithoutQueryString = "/pool.xml") :
    ServerAgent.dispatch srv env req s = ServerAgent.processPoolStatusXml srv req s := by
  simp [ServerAgent.dispatch, h, (by decide : regex_match "/pool.xml" = false)]

theorem ServerAgent.dispatch_poolTxt (srv : ServerAgent.AdminServer) (env : Env)
    (req : Request) (s : St) (h : req.getPathWithoutQueryString = "/pool.txt") :
    ServerAgent.dispatch srv env req s = ServerAgent.processPoolStatusTxt srv req s := by
  simp [ServerAgent.dispatch, h, (by decide : regex_match "/pool.txt" = false)]

theorem ServerAgent.dispatch_restartAppGroup (srv : ServerAgent.AdminServer) (env : Env)
    (req : Request) (s : St)
    (h : req.getPathWithoutQueryString = "/pool/restart_app_group.json") :
    ServerAgent.dispatch srv env req s = ServerAgent.processPoolRestartAppGroup srv req s := by
  simp [ServerAgent.dispatch, h,
    (by decide : regex_match "/pool/restart_app_group.json" = false)]

theorem ServerAgent.dispatch_detachProcess (srv : ServerAgent.AdminServer) (env : Env)
    (req : Request) (s : St)
    (h : req.getPathWithoutQueryString = "/pool/detach_process.json") :
    ServerAgent.dispatch srv env req s = ServerAgent.processPoolDetachProcess srv req s := by
  simp [ServerAgent.dispatch, h,
    (by decide : regex_match "/pool/detach_process.json" = false)]

theorem ServerAgent.dispatch_backtraces (srv : ServerAgent.AdminServer) (env : Env)
    (req : Request) (s : St) (h : req.getPathWithoutQueryString = "/backtraces.txt") :
    ServerAgent.dispatch srv env req s = ServerAgent.processBacktraces srv env req s := by
  simp [ServerAgent.dispatch, h, (by decide : regex_match "/backtraces.txt" = false)]

theorem ServerAgent.dispatch_ping (srv : ServerAgent.AdminServer) (env : Env)
    (req : Request) (s : St) (h : req.getPathWithoutQueryString = "/ping.json") :
    ServerAgent.dispatch srv env req s = ServerAgent.processPing srv req s := by
  simp [ServerAgent.dispatch, h, (by decide : regex_match "/ping.json" = false)]

theorem ServerAgent.dispatch_shutdown (srv : ServerAgent.AdminServer) (env : Env)
    (req : Request) (s : St) (h : req.getPathWithoutQueryString = "/shutdown.json") :
    ServerAgent.dispatch srv env req s = ServerAgent.processShutdown srv req s := by
  simp [ServerAgent.dispatch, h, (by decide : regex_match "/shutdown.json" = false)]

theorem ServerAgent.dispatch_gc (srv : ServerAgent.AdminServer) (env : Env)
    (req : Request) (s : St) (h : req.getPathWithoutQueryString = "/gc.json") :
    ServerAgent.dispatch srv env req s = ServerAgent.processGc srv req s := by
  simp [ServerAgent.dispatch, h, (by decide : regex_match "/gc.json" = false)]

theorem ServerAgent.dispatch_config (srv : ServerAgent.AdminServer) (env : Env)
    (req : Request) (s : St) (h : req.getPathWithoutQueryString = "/config.json") :
    ServerAgent.dispatch srv env req s = ServerAgent.processConfig srv req s := by
  simp [ServerAgent.dispatch, h, (by decide : regex_match "/config.json" = false)]

theorem ServerAgent.dispatch_reinheritLogs (srv : ServerAgent.AdminServer) (env : Env)
    (req : Request) (s : St) (h : req.getPathWithoutQueryString = "/reinherit_logs.json") :
    ServerAgent.dispatch srv env req s = ServerAgent.processReinheritLogs srv env req s := by
  simp [ServerAgent.dispatch, h, (by decide : regex_match "/reinherit_logs.json" = false)]

theorem ServerAgent.dispatch_reopenLogs (srv : ServerAgent.AdminServer) (env : Env)
    (req : Request) (s : St) (h : req.getPathWithoutQueryString = "/reopen_logs.json") :
    ServerAgent.dispatch srv env req s = ServerAgent.processReopenLogs srv env req s := by
  simp [ServerAgent.dispatch, h, (by decide : regex_match "/reopen_logs.json" = false)]

theorem ServerAgent.dispatch_unregistered (srv : ServerAgent.AdminServer) (env : Env)
    (req : Request) (s : St)
    (h : req.getPathWithoutQueryString ∉ ServerAgent.registeredPaths)
    (hre : regex_match req.getPathWithoutQueryString = false) :
    ServerAgent.dispatch srv env req s = ServerAgent.respondWith404 s := by
  simp only [ServerAgent.registeredPaths, List.mem_cons, List.mem_singleton, not_or,
    List.not_mem_nil, not_false_eq_true, and_true] at h
  obtain ⟨h1, h2, h3, h4, h5, h6, h7, h8, h9, h10, h11, h12⟩ := h
  simp [ServerAgent.dispatch, h1, h2, h3, h4, h5, h6, h7, h8, h9, h10, h11, h12, hre]

/-- Every request of the helper agent is dispatched to one of fourteen cases. -/
theorem ServerAgent.dispatch_cases (srv : ServerAgent.AdminServer) (env : Env)
    (req : Request) (s : St) :
    (req.getPathWithoutQueryString = "/server.json" ∧
      ServerAgent.dispatch srv env req s = ServerAgent.processServerStatus srv req s) ∨
    (regex_match req.getPathWithoutQueryString = true ∧
      ServerAgent.dispatch srv env req s
        = ServerAgent.processServerConnectionOperation srv req s) ∨
    (req.getPathWithoutQueryString = "/pool.xml" ∧
      ServerAgent.dispatch srv env req s = ServerAgent.processPoolStatusXml srv req s) ∨
    (req.getPathWithoutQueryString = "/pool.txt" ∧
      ServerAgent.dispatch srv env req s = ServerAgent.processPoolStatusTxt srv req s) ∨
    (req.getPathWithoutQueryString = "/pool/restart_app_group.json" ∧
      ServerAgent.dispatch srv env req s = ServerAgent.processPoolRestartAppGroup srv req s) ∨
    (req.getPathWithoutQueryString = "/pool/detach_process.json" ∧
      ServerAgent.dispatch srv env req s = ServerAgent.processPoolDetachProcess srv req s) ∨
    (req.getPathWithoutQueryString = "/backtraces.txt" ∧
      ServerAgent.dispatch srv env req s = ServerAgent.processBacktraces srv env req s) ∨
    (req.getPathWithoutQueryString = "/ping.json" ∧
      ServerAgent.dispatch srv env req s = ServerAgent.processPing srv req s) ∨
    (req.getPathWithoutQueryString = "/shutdown.json" ∧
      ServerAgent.dispatch srv env req s = ServerAgent.processShutdown srv req s) ∨
    (req.getPathWithoutQueryString = "/gc.json" ∧
      ServerAgent.dispatch srv env req s = ServerAgent.processGc srv req s) ∨
    (req.getPathWithoutQueryString = "/config.json" ∧
      ServerAgent.dispatch srv env req s = ServerAgent.processConfig srv req s) ∨
    (req.getPathWithoutQueryString = "/reinherit_logs.json" ∧
      ServerAgent.dispatch srv env req s = ServerAgent.processReinheritLogs srv env req s) ∨
    (req.getPathWithoutQueryString = "/reopen_logs.json" ∧
      ServerAgent.dispatch srv env req s = ServerAgent.processReopenLogs srv env req s) ∨
    ((req.getPathWithoutQueryString ∉ ServerAgent.registeredPaths ∧
        regex_match req.getPathWithoutQueryString = false) ∧
      ServerAgent.dispatch srv env req s = ServerAgent.respondWith404 s) := by
  by_cases hre : regex_match req.getPathWithoutQueryString = true
  · exact Or.inr (Or.inl ⟨hre, ServerAgent.dispatch_serverConnection srv env req s hre⟩)
  · have hre2 : regex_match req.getPathWithoutQueryString = false := by simpa using hre
    by_cases hm : req.getPathWithoutQueryString ∈ ServerAgent.registeredPaths
    · simp only [ServerAgent.registeredPaths, List.mem_cons, List.mem_singleton,
        List.not_mem_nil, or_false] at hm
      rcases hm with h | h | h | h | h | h | h | h | h | h | h | h
      · exact Or.inl ⟨h, ServerAgent.dispatch_serverStatus srv env req s h⟩
      · exact Or.inr (Or.inr (Or.inl ⟨h, ServerAgent.dispatch_poolXml srv env req s h⟩))
      · exact Or.inr (Or.inr (Or.inr (Or.inl ⟨h, ServerAgent.dispatch_poolTxt srv env req s h⟩)))
      · exact Or.inr (Or.inr (Or.inr (Or.inr (Or.inl
          ⟨h, ServerAgent.dispatch_restartAppGroup srv env req s h⟩))))
      · exact Or.inr (Or.inr (Or.inr (Or.inr (Or.inr (Or.inl
          ⟨h, ServerAgent.dispatch_detachProcess srv env req s h⟩)))))
      · exact Or.inr (Or.inr (Or.inr (Or.inr (Or.inr (Or.inr (Or.inl
          ⟨h, ServerAgent.dispatch_backtraces srv env req s h⟩))))))
      · exact Or.inr (Or.inr (Or.inr (Or.inr (Or.inr (Or.inr (Or.inr (Or.inl
          ⟨h, ServerAgent.dispatch_ping srv env req s h⟩)))))))
      · exact Or.inr (Or.inr (Or.inr (Or.inr (Or.inr (Or.inr (Or.inr (Or.inr (Or.inl
          ⟨h, ServerAgent.dispatch_shutdown srv env req s h⟩))))))))
      · exact Or.inr (Or.inr (Or.inr (Or.inr (Or.inr (Or.inr (Or.inr (Or.inr (Or.inr (Or.inl
          ⟨h, ServerAgent.dispatch_gc srv env req s h⟩)))))))))
      · exact Or.inr (Or.inr (Or.inr (Or.inr (Or.inr (Or.inr (Or.inr (Or.inr (Or.inr (Or.inr
          (Or.inl ⟨h, ServerAgent.dispatch_config srv env req s h⟩))))))))))
      · exact Or.inr (Or.inr (Or.inr (Or.inr (Or.inr (Or.inr (Or.inr (Or.inr (Or.inr (Or.inr
          (Or.inr (Or.inl ⟨h, ServerAgent.dispatch_reinheritLogs srv env req s h⟩)))))))))))
      · exact Or.inr (Or.inr (Or.inr (Or.inr (Or.inr (Or.inr (Or.inr (Or.inr (Or.inr (Or.inr
          (Or.inr (Or.inr (Or.inl
            ⟨h, ServerAgent.dispatch_reopenLogs srv env req s h⟩))))))))))))
    · exact Or.inr (Or.inr (Or.inr (Or.inr (Or.inr (Or.inr (Or.inr (Or.inr (Or.inr (Or.inr
        (Or.inr (Or.inr (Or.inr
          ⟨⟨hm, hre2⟩, ServerAgent.dispatch_unregistered srv env req s hm hre2⟩))))))))))))

/-! ### Dispatch of the logging agent -/

/-- Every request of the logging agent is dispatched to one of seven cases. -/
theorem LoggingAgent.logging_dispatch_cases (srv : LoggingAgent.AdminServer) (env : Env)
    (req : Request) (s : St) :
    (req.path = "/ping.json" ∧
      LoggingAgent.dispatch srv env req s = LoggingAgent.processPing srv req s) ∨
    (req.path = "/shutdown.json" ∧
      LoggingAgent.dispatch srv env req s = LoggingAgent.processShutdown srv req s) ∨
    (req.path = "/config.json" ∧
      LoggingAgent.dispatch srv env req s = LoggingAgent.processConfig srv req s) ∨
    (req.path = "/reinherit_logs.json" ∧
      LoggingAgent.dispatch srv env req s = LoggingAgent.processReinheritLogs srv env req s) ∨
    (req.path = "/reopen_logs.json" ∧
      LoggingAgent.dispatch srv env req s = LoggingAgent.processReopenLogs srv env req s) ∨
    (req.path = "/status.txt" ∧
      LoggingAgent.dispatch srv env req s = LoggingAgent.processStatusTxt srv req s) ∨
    (req.path ∉ LoggingAgent.registeredPaths ∧
      LoggingAgent.dispatch srv env req s = LoggingAgent.respondWith404 s) := by
  by_cases h1 : req.path = "/ping.json"
  · exact Or.inl ⟨h1, by simp [LoggingAgent.dispatch, h1]⟩
  by_cases h2 : req.path = "/shutdown.json"
  · exact Or.inr (Or.inl ⟨h2, by simp [LoggingAgent.dispatch, h2]⟩)
  by_cases h3 : req.path = "/config.json"
  · exact Or.inr (Or.inr (Or.inl ⟨h3, by simp [LoggingAgent.dispatch, h3]⟩))
  by_cases h4 : req.path = "/reinherit_logs.json"
  · exact Or.inr (Or.inr (Or.inr (Or.inl ⟨h4, by simp [LoggingAgent.dispatch, h4]⟩)))
  by_cases h5 : req.path = "/reopen_logs.json"
  · exact Or.inr (Or.inr (Or.inr (Or.inr (Or.inl ⟨h5, by simp [LoggingAgent.dispatch, h5]⟩))))
  by_cases h6 : req.path = "/status.txt"
  · exact Or.inr (Or.inr (Or.inr (Or.inr (Or.inr (Or.inl
      ⟨h6, by simp [LoggingAgent.dispatch, h6]⟩)))))
  · exact Or.inr (Or.inr (Or.inr (Or.inr (Or.inr (Or.inr
      ⟨by simp [LoggingAgent.registeredPaths, h1, h2, h3, h4, h5, h6],
       by simp [LoggingAgent.dispatch, h1, h2, h3, h4, h5, h6]⟩)))))

/-- C3. For a request whose path is none of the registered routes of the admin
server it is sent to (for the helper agent: none of the literal paths and no
match of `^/server/(.+)\.json$`, on the path without query string; for the
logging agent: none of the literal paths), whatever the method and the
credentials, `onRequestBegin` writes the 404 response, ends the request and
does nothing else: no handler runs and `authorize` is not called. -/
theorem unregistered_path_answers_404
    (srvH : ServerAgent.AdminServer) (srvL : LoggingAgent.AdminServer) (env : Env)
    (req : Request) (logLevel : Int) (logFile fdLogFile : String) (hasFd : Bool) :
    (req.getPathWithoutQueryString ∉ ServerAgent.registeredPaths →
      regex_match req.getPathWithoutQueryString = false →
      (ServerAgent.onRequestBegin srvH env req
        (St.init logLevel logFile fdLogFile hasFd)).trace = notFoundTrace ∧
      (ServerAgent.onRequestBegin srvH env req
        (St.init logLevel logFile fdLogFile hasFd)).ended = true) ∧
    (req.path ∉ LoggingAgent.registeredPaths →
      (LoggingAgent.onRequestBegin srvL env req
        (St.init logLevel logFile fdLogFile hasFd)).trace = notFoundTrace ∧
      (LoggingAgent.onRequestBegin srvL env req
        (St.init logLevel logFile fdLogFile hasFd)).ended = true) := by
  constructor
  · intro h hre
    simp only [ServerAgent.registeredPaths, List.mem_cons, List.mem_singleton, not_or,
      List.not_mem_nil, not_false_eq_true, and_true] at h
    obtain ⟨h1, h2, h3, h4, h5, h6, h7, h8, h9, h10, h11, h12⟩ := h
    simp [ServerAgent.onRequestBegin, ServerAgent.dispatch, h1, h2, h3, h4, h5, h6, h7, h8,
      h9, h10, h11, h12, hre, ServerAgent.respondWith404, ServerAgent.catchInRequestBegin,
      endRequestUnlessEnded, writeSimpleResponse, endRequest, St.emit, St.init, notFoundTrace]
  · intro h
    simp only [LoggingAgent.registeredPaths, List.mem_cons, List.mem_singleton, not_or,
      List.not_mem_nil, not_false_eq_true, and_true] at h
    obtain ⟨h1, h2, h3, h4, h5, h6⟩ := h
    simp [LoggingAgent.onRequestBegin, LoggingAgent.dispatch, h1, h2, h3, h4, h5, h6,
      LoggingAgent.respondWith404, LoggingAgent.catchInRequestBegin,
      endRequestUnlessEnded, writeSimpleResponse, endRequest, St.emit, St.init, notFoundTrace]

/-- Witness of C3: POST /nope on the helper agent and on the logging agent. -/
theorem unregistered_path_answers_404_witness :
    ((ServerAgent.onRequestBegin (ServerAgent.sampleServer Authorization.full)
        (sampleEnv sampleWatchdog) (sampleRequest HttpMethod.HTTP_POST "/nope")
        (St.init 0 "" "" false)).trace = notFoundTrace ∧
      (ServerAgent.onRequestBegin (ServerAgent.sampleServer Authorization.full)
        (sampleEnv sampleWatchdog) (sampleRequest HttpMethod.HTTP_POST "/nope")
        (St.init 0 "" "" false)).ended = true) ∧
    ((LoggingAgent.onRequestBegin (LoggingAgent.sampleServer Authorization.full)
        (sampleEnv sampleWatchdog) (sampleRequest HttpMethod.HTTP_POST "/nope")
        (St.init 0 "" "" false)).trace = notFoundTrace ∧
      (LoggingAgent.onRequestBegin (LoggingAgent.sampleServer Authorization.full)
        (sampleEnv sampleWatchdog) (sampleRequest HttpMethod.HTTP_POST "/nope")
        (St.init 0 "" "" false)).ended = true) :=
  ⟨(unregistered_path_answers_404 (ServerAgent.sampleServer Authorization.full)
      (LoggingAgent.sampleServer Authorization.full) (sampleEnv sampleWatchdog)
      (sampleRequest HttpMethod.HTTP_POST "/nope") 0 "" "" false).1 (by decide) (by decide),
   (unregistered_path_answers_404 (ServerAgent.sampleServer Authorization.full)
      (LoggingAgent.sampleServer Authorization.full) (sampleEnv sampleWatchdog)
      (sampleRequest HttpMethod.HTTP_POST "/nope") 0 "" "" false).2 (by decide)⟩

/-- Counterexample to C4: POST /server.json with every capability is not answered
with 405: the helper agent queries its worker and answers 200. -/
theorem post_server_json_is_served :
    (ServerAgent.onRequestBegin (ServerAgent.sampleServer Authorization.full)
      (sampleEnv sampleWatchdog) (sampleRequest HttpMethod.HTTP_POST "/server.json")
      (St.init 0 "" "" false)).trace =
      [Event.authorize,
       Event.runSync 0 Command.inspectRequestHandlerState,
       Event.writeSimpleResponse 200 [("Content-Type", "application/json")]
         (Body.styled (Json.obj [("threads", Json.int 1), ("thread1", Json.null)])),
       Event.endRequest] ∧
    statuses (ServerAgent.onRequestBegin (ServerAgent.sampleServer Authorization.full)
      (sampleEnv sampleWatchdog) (sampleRequest HttpMethod.HTTP_POST "/server.json")
      (St.init 0 "" "" false)).trace ≠ [405] := by
  constructor
  · rfl
  · decide

/-- C4 (amended). For every route whose handler tests the method (all routes
except `/server.json`, `/pool.xml`, `/pool.txt`, `/backtraces.txt` and
`/ping.json`, which accept every method) and every method the handler does not
let through, a request whose authorization has every capability is answered in
the header phase with 405 and nothing else happens: the trace is the 405
response and the end of the request, preceded in the helper agent by the
`authorize` call when the handler tests the authorization first. -/
theorem wrong_method_with_full_access_answers_405
    (srvH : ServerAgent.AdminServer) (srvL : LoggingAgent.AdminServer) (env : Env)
    (req : Request) (ms : List HttpMethod)
    (logLevel : Int) (logFile fdLogFile : String) (hasFd : Bool) :
    (ServerAgent.allowedMethods req.getPathWithoutQueryString = some ms →
      req.method ∉ ms → (srvH.authorize req).grantsEverything = true →
      ((ServerAgent.onRequestBegin srvH env req
          (St.init logLevel logFile fdLogFile hasFd)).trace = methodNotAllowedTrace ∨
        (ServerAgent.onRequestBegin srvH env req
          (St.init logLevel logFile fdLogFile hasFd)).trace
            = Event.authorize :: methodNotAllowedTrace) ∧
      (ServerAgent.onRequestBegin srvH env req
        (St.init logLevel logFile fdLogFile hasFd)).ended = true) ∧
    (LoggingAgent.allowedMethods req.path = some ms →
      req.method ∉ ms → (srvL.authorize req).grantsEverything = true →
      (LoggingAgent.onRequestBegin srvL env req
          (St.init logLevel logFile fdLogFile hasFd)).trace = methodNotAllowedTrace ∧
      (LoggingAgent.onRequestBegin srvL env req
        (St.init logLevel logFile fdLogFile hasFd)).ended = true) := by
  constructor
  · intro h hm hc
    simp only [Authorization.grantsEverything, Bool.and_eq_true] at hc
    obtain ⟨⟨⟨hc1, hc2⟩, hc3⟩, hc4⟩ := hc
    simp only [ServerAgent.allowedMethods] at h
    split_ifs at h with h1 h2 h3 h4 h5 h6 h7 h8 h9 <;>
      simp only [Option.some.injEq, reduceCtorEq] at h <;> subst h <;>
      simp only [List.mem_cons, List.mem_singleton, List.not_mem_nil, or_false, not_or] at hm
    · simp [ServerAgent.onRequestBegin, ServerAgent.dispatch_serverConnection _ _ _ _ h2,
        ServerAgent.catchInRequestBegin, ServerAgent.processServerConnectionOperation,
        ServerAgent.authorizeAdminOperation, ServerAgent.respondWith405,
        endRequestUnlessEnded, writeSimpleResponse, endRequest, St.emit, St.init,
        methodNotAllowedTrace, hc1, hc2, hc3, hc4, hm]
    · simp [ServerAgent.onRequestBegin, ServerAgent.dispatch_restartAppGroup _ _ _ _ h3,
        ServerAgent.catchInRequestBegin, ServerAgent.processPoolRestartAppGroup,
        ServerAgent.respondWith405,
        endRequestUnlessEnded, writeSimpleResponse, endRequest, St.emit, St.init,
        methodNotAllowedTrace, hc1, hc2, hc3, hc4, hm]
    · simp [ServerAgent.onRequestBegin, ServerAgent.dispatch_detachProcess _ _ _ _ h4,
        ServerAgent.catchInRequestBegin, ServerAgent.processPoolDetachProcess,
        ServerAgent.respondWith405,
        endRequestUnlessEnded, writeSimpleResponse, endRequest, St.emit, St.init,
        methodNotAllowedTrace, hc1, hc2, hc3, hc4, hm]
    · simp [ServerAgent.onRequestBegin, ServerAgent.dispatch_shutdown _ _ _ _ h5,
        ServerAgent.catchInRequestBegin, ServerAgent.processShutdown,
        ServerAgent.respondWith405,
        endRequestUnlessEnded, writeSimpleResponse, endRequest, St.emit, St.init,
        methodNotAllowedTrace, hm]
    · simp [ServerAgent.onRequestBegin, ServerAgent.dispatch_gc _ _ _ _ h6,
        ServerAgent.catchInRequestBegin, ServerAgent.processGc,
        ServerAgent.respondWith405,
        endRequestUnlessEnded, writeSimpleResponse, endRequest, St.emit, St.init,
        methodNotAllowedTrace, hm]
    · simp [ServerAgent.onRequestBegin, ServerAgent.dispatch_config _ _ _ _ h7,
        ServerAgent.catchInRequestBegin, ServerAgent.processConfig,
        ServerAgent.respondWith405,
        endRequestUnlessEnded, writeSimpleResponse, endRequest, St.emit, St.init,
        methodNotAllowedTrace, hm]
    · simp [ServerAgent.onRequestBegin, ServerAgent.dispatch_reinheritLogs _ _ _ _ h8,
        ServerAgent.catchInRequestBegin, ServerAgent.processReinheritLogs,
        ServerAgent.respondWith405,
        endRequestUnlessEnded, writeSimpleResponse, endRequest, St.emit, St.init,
        methodNotAllowedTrace, hm]
    · simp [ServerAgent.onRequestBegin, ServerAgent.dispatch_reopenLogs _ _ _ _ h9,
        ServerAgent.catchInRequestBegin, ServerAgent.processReopenLogs,
        ServerAgent.respondWith405,
        endRequestUnlessEnded, writeSimpleResponse, endRequest, St.emit, St.init,
        methodNotAllowedTrace, hm]
  · intro h hm hc
    simp only [LoggingAgent.allowedMethods] at h
    split_ifs at h with h1 h2 h3 h4 h5 <;>
      simp only [Option.some.injEq, reduceCtorEq] at h <;> subst h <;>
      simp only [List.mem_cons, List.mem_singleton, List.not_mem_nil, or_false, not_or] at hm <;>
      simp [LoggingAgent.onRequestBegin, LoggingAgent.dispatch, LoggingAgent.catchInRequestBegin,
        LoggingAgent.processShutdown,
        LoggingAgent.processConfig, LoggingAgent.processReinheritLogs,
        LoggingAgent.processReopenLogs, LoggingAgent.processStatusTxt,
        LoggingAgent.respondWith405,
        endRequestUnlessEnded, writeSimpleResponse, endRequest, St.emit, St.init,
        methodNotAllowedTrace, *]

/-- Witness of C4 (amended): GET /shutdown.json on the helper agent, DELETE
/status.txt on the logging agent, with every capability. -/
theorem wrong_method_with_full_access_answers_405_witness :
    (((ServerAgent.onRequestBegin (ServerAgent.sampleServer Authorization.full)
          (sampleEnv sampleWatchdog) (sampleRequest HttpMethod.HTTP_GET "/shutdown.json")
          (St.init 0 "" "" false)).trace = methodNotAllowedTrace ∨
        (ServerAgent.onRequestBegin (ServerAgent.sampleServer Authorization.full)
          (sampleEnv sampleWatchdog) (sampleRequest HttpMethod.HTTP_GET "/shutdown.json")
          (St.init 0 "" "" false)).trace = Event.authorize :: methodNotAllowedTrace) ∧
      (ServerAgent.onRequestBegin (ServerAgent.sampleServer Authorization.full)
        (sampleEnv sampleWatchdog) (sampleRequest HttpMethod.HTTP_GET "/shutdown.json")
        (St.init 0 "" "" false)).ended = true) ∧
    ((LoggingAgent.onRequestBegin (LoggingAgent.sampleServer Authorization.full)
        (sampleEnv sampleWatchdog) (sampleRequest HttpMethod.HTTP_DELETE "/status.txt")
        (St.init 0 "" "" false)).trace = methodNotAllowedTrace ∧
      (LoggingAgent.onRequestBegin (LoggingAgent.sampleServer Authorization.full)
        (sampleEnv sampleWatchdog) (sampleRequest HttpMethod.HTTP_DELETE "/status.txt")
        (St.init 0 "" "" false)).ended = true) :=
  ⟨(wrong_method_with_full_access_answers_405 (ServerAgent.sampleServer Authorization.full)
      (LoggingAgent.sampleServer Authorization.full) (sampleEnv sampleWatchdog)
      (sampleRequest HttpMethod.HTTP_GET "/shutdown.json") [HttpMethod.HTTP_PUT]
      0 "" "" false).1 (by decide) (by decide) (by decide),
   (wrong_method_with_full_access_answers_405 (ServerAgent.sampleServer Authorization.full)
      (LoggingAgent.sampleServer Authorization.full) (sampleEnv sampleWatchdog)
      (sampleRequest HttpMethod.HTTP_DELETE "/status.txt") [HttpMethod.HTTP_GET]
      0 "" "" false).2 (by decide) (by decide) (by decide)⟩

/-- Counterexample to C5: GET /pool/restart_app_group.json (a POST route) without
any capability is answered with 401, not 405: the authorization is tested first. -/
theorem wrong_method_without_capability_answers_401 :
    (ServerAgent.onRequestBegin (ServerAgent.sampleServer Authorization.none)
      (sampleEnv sampleWatchdog)
      (sampleRequest HttpMethod.HTTP_GET "/pool/restart_app_group.json")
      (St.init 0 "" "" false)).trace = Event.authorize :: unauthorizedTrace ∧
    statuses (ServerAgent.onRequestBegin (ServerAgent.sampleServer Authorization.none)
      (sampleEnv sampleWatchdog)
      (sampleRequest HttpMethod.HTTP_GET "/pool/restart_app_group.json")
      (St.init 0 "" "" false)).trace ≠ [405] := by
  constructor
  · rfl
  · decide

/-- C5 (amended). With a method the handler does not let through: on the routes
whose handler tests the method first (`/shutdown.json`, `/gc.json`,
`/config.json`, `/reinherit_logs.json`, `/reopen_logs.json` of the helper agent
and every method-restricting route of the logging agent) the answer is 405
whatever the credentials, and `authorize` is not even called; on
`/server/<token>.json`, `/pool/restart_app_group.json` and
`/pool/detach_process.json` the authorization is tested first, so the answer is
401 when the capability is missing and 405 when it is present. -/
theorem wrong_method_versus_authorization
    (srvH : ServerAgent.AdminServer) (srvL : LoggingAgent.AdminServer) (env : Env)
    (req : Request) (ms : List HttpMethod) (capability : Authorization → Bool)
    (logLevel : Int) (logFile fdLogFile : String) (hasFd : Bool) :
    (ServerAgent.allowedMethods req.getPathWithoutQueryString = some ms →
      req.method ∉ ms →
      req.getPathWithoutQueryString ∈ ServerAgent.methodTestedFirst →
      (ServerAgent.onRequestBegin srvH env req
        (St.init logLevel logFile fdLogFile hasFd)).trace = methodNotAllowedTrace) ∧
    (ServerAgent.allowedMethods req.getPathWithoutQueryString = some ms →
      req.method ∉ ms →
      ServerAgent.capabilityTestedFirst req.getPathWithoutQueryString = some capability →
      (ServerAgent.onRequestBegin srvH env req
        (St.init logLevel logFile fdLogFile hasFd)).trace
        = Event.authorize ::
            (if capability (srvH.authorize req) then methodNotAllowedTrace
             else unauthorizedTrace)) ∧
    (LoggingAgent.allowedMethods req.path = some ms →
      req.method ∉ ms →
      (LoggingAgent.onRequestBegin srvL env req
        (St.init logLevel logFile fdLogFile hasFd)).trace = methodNotAllowedTrace) := by
  refine ⟨?_, ?_, ?_⟩
  · intro h hm hp
    simp only [ServerAgent.methodTestedFirst, List.mem_cons, List.mem_singleton,
      List.not_mem_nil, or_false] at hp
    rcases hp with hp | hp | hp | hp | hp <;>
      simp only [ServerAgent.allowedMethods, hp, String.reduceEq, if_false, if_true,
        (by decide : regex_match "/shutdown.json" = false),
        (by decide : regex_match "/gc.json" = false),
        (by decide : regex_match "/config.json" = false),
        (by decide : regex_match "/reinherit_logs.json" = false),
        (by decide : regex_match "/reopen_logs.json" = false),
        Bool.false_eq_true, Option.some.injEq] at h <;>
      subst h <;>
      simp only [List.mem_cons, List.mem_singleton, List.not_mem_nil, or_false, not_or] at hm
    · simp [ServerAgent.onRequestBegin, ServerAgent.dispatch_shutdown _ _ _ _ hp,
        ServerAgent.catchInRequestBegin, ServerAgent.processShutdown,
        ServerAgent.respondWith405,
        endRequestUnlessEnded, writeSimpleResponse, endRequest, St.emit, St.init,
        methodNotAllowedTrace, hm]
    · simp [ServerAgent.onRequestBegin, ServerAgent.dispatch_gc _ _ _ _ hp,
        ServerAgent.catchInRequestBegin, ServerAgent.processGc,
        ServerAgent.respondWith405,
        endRequestUnlessEnded, writeSimpleResponse, endRequest, St.emit, St.init,
        methodNotAllowedTrace, hm]
    · simp [ServerAgent.onRequestBegin, ServerAgent.dispatch_config _ _ _ _ hp,
        ServerAgent.catchInRequestBegin, ServerAgent.processConfig,
        ServerAgent.respondWith405,
        endRequestUnlessEnded, writeSimpleResponse, endRequest, St.emit, St.init,
        methodNotAllowedTrace, hm]
    · simp [ServerAgent.onRequestBegin, ServerAgent.dispatch_reinheritLogs _ _ _ _ hp,
        ServerAgent.catchInRequestBegin, ServerAgent.processReinheritLogs,
        ServerAgent.respondWith405,
        endRequestUnlessEnded, writeSimpleResponse, endRequest, St.emit, St.init,
        methodNotAllowedTrace, hm]
    · simp [ServerAgent.onRequestBegin, ServerAgent.dispatch_reopenLogs _ _ _ _ hp,
        ServerAgent.catchInRequestBegin, ServerAgent.processReopenLogs,
        ServerAgent.respondWith405,
        endRequestUnlessEnded, writeSimpleResponse, endRequest, St.emit, St.init,
        methodNotAllowedTrace, hm]
  · intro h hm hcap
    simp only [ServerAgent.capabilityTestedFirst] at hcap
    split_ifs at hcap with h1 h2 h3 h4 <;>
      simp only [Option.some.injEq, reduceCtorEq] at hcap <;> subst hcap
    · rw [ServerAgent.allowedMethods, if_neg h1, if_pos h2] at h
      simp only [Option.some.injEq] at h
      subst h
      simp only [List.mem_cons, List.mem_singleton, List.not_mem_nil, or_false] at hm
      by_cases hc : (srvH.authorize req).canAdminister = true <;>
        simp [ServerAgent.onRequestBegin, ServerAgent.dispatch_serverConnection _ _ _ _ h2,
          ServerAgent.catchInRequestBegin, ServerAgent.processServerConnectionOperation,
          ServerAgent.authorizeAdminOperation, ServerAgent.respondWith405,
          ServerAgent.respondWith401, unauthorizedTrace,
          endRequestUnlessEnded, writeSimpleResponse, endRequest, St.emit, St.init,
          methodNotAllowedTrace, hc, hm]
    · rw [ServerAgent.allowedMethods, if_neg h1, if_neg h2, if_pos h3] at h
      simp only [Option.some.injEq] at h
      subst h
      simp only [List.mem_cons, List.mem_singleton, List.not_mem_nil, or_false] at hm
      by_cases hc : (srvH.authorize req).canModifyPool = true <;>
        simp [ServerAgent.onRequestBegin, ServerAgent.dispatch_restartAppGroup _ _ _ _ h3,
          ServerAgent.catchInRequestBegin, ServerAgent.processPoolRestartAppGroup,
          ServerAgent.respondWith405,
          ServerAgent.respondWith401, unauthorizedTrace,
          endRequestUnlessEnded, writeSimpleResponse, endRequest, St.emit, St.init,
          methodNotAllowedTrace, hc, hm]
    · rw [ServerAgent.allowedMethods, if_neg h1, if_neg h2, if_neg h3, if_pos h4] at h
      simp only [Option.some.injEq] at h
      subst h
      simp only [List.mem_cons, List.mem_singleton, List.not_mem_nil, or_false] at hm
      by_cases hc : (srvH.authorize req).canModifyPool = true <;>
        simp [ServerAgent.onRequestBegin, ServerAgent.dispatch_detachProcess _ _ _ _ h4,
          ServerAgent.catchInRequestBegin, ServerAgent.processPoolDetachProcess,
          ServerAgent.respondWith405,
          ServerAgent.respondWith401, unauthorizedTrace,
          endRequestUnlessEnded, writeSimpleResponse, endRequest, St.emit, St.init,
          methodNotAllowedTrace, hc, hm]
  · intro h hm
    simp only [LoggingAgent.allowedMethods] at h
    split_ifs at h with h1 h2 h3 h4 h5 <;>
      simp only [Option.some.injEq, reduceCtorEq] at h <;> subst h <;>
      simp only [List.mem_cons, List.mem_singleton, List.not_mem_nil, or_false, not_or] at hm <;>
      simp [LoggingAgent.onRequestBegin, LoggingAgent.dispatch, LoggingAgent.catchInRequestBegin,
        LoggingAgent.processShutdown,
        LoggingAgent.processConfig, LoggingAgent.processReinheritLogs,
        LoggingAgent.processReopenLogs, LoggingAgent.processStatusTxt,
        LoggingAgent.respondWith405,
        endRequestUnlessEnded, writeSimpleResponse, endRequest, St.emit, St.init,
        methodNotAllowedTrace, *]

/-- Witness of C5 (amended): GET /gc.json and GET /pool/detach_process.json on the
helper agent, PUT /status.txt on the logging agent, all without any capability. -/
theorem wrong_method_versus_authorization_witness :
    (ServerAgent.onRequestBegin (ServerAgent.sampleServer Authorization.none)
        (sampleEnv sampleWatchdog) (sampleRequest HttpMethod.HTTP_GET "/gc.json")
        (St.init 0 "" "" false)).trace = methodNotAllowedTrace ∧
    (ServerAgent.onRequestBegin (ServerAgent.sampleServer Authorization.none)
        (sampleEnv sampleWatchdog)
        (sampleRequest HttpMethod.HTTP_GET "/pool/detach_process.json")
        (St.init 0 "" "" false)).trace
      = Event.authorize ::
          (if (fun auth : Authorization => auth.canModifyPool)
              ((ServerAgent.sampleServer Authorization.none).authorize
                (sampleRequest HttpMethod.HTTP_GET "/pool/detach_process.json"))
           then methodNotAllowedTrace else unauthorizedTrace) ∧
    (LoggingAgent.onRequestBegin (LoggingAgent.sampleServer Authorization.none)
        (sampleEnv sampleWatchdog) (sampleRequest HttpMethod.HTTP_PUT "/status.txt")
        (St.init 0 "" "" false)).trace = methodNotAllowedTrace :=
  ⟨(wrong_method_versus_authorization (ServerAgent.sampleServer Authorization.none)
      (LoggingAgent.sampleServer Authorization.none) (sampleEnv sampleWatchdog)
      (sampleRequest HttpMethod.HTTP_GET "/gc.json") [HttpMethod.HTTP_PUT]
      (fun auth => auth.canModifyPool) 0 "" "" false).1 (by decide) (by decide) (by decide),
   (wrong_method_versus_authorization (ServerAgent.sampleServer Authorization.none)
      (LoggingAgent.sampleServer Authorization.none) (sampleEnv sampleWatchdog)
      (sampleRequest HttpMethod.HTTP_GET "/pool/detach_process.json") [HttpMethod.HTTP_POST]
      (fun auth => auth.canModifyPool) 0 "" "" false).2.1 (by decide) (by decide) rfl,
   (wrong_method_versus_authorization (ServerAgent.sampleServer Authorization.none)
      (LoggingAgent.sampleServer Authorization.none) (sampleEnv sampleWatchdog)
      (sampleRequest HttpMethod.HTTP_PUT "/status.txt") [HttpMethod.HTTP_GET]
      (fun auth => auth.canModifyPool) 0 "" "" false).2.2 (by decide) (by decide)⟩

/-- C1, evaluated at GET /config.json without any capability (log level 3, log
file /var/log/passenger.log): after the 401 answer both admin servers go on,
because the `if` that answers 401 has no `return`. The helper agent reads the
log file names, runs `getRequestHandlerConfig` on the first worker with
`runSync`, reads the log level and writes a second, 200 response; the logging
agent does the same without the worker call. -/
theorem config_get_unauthorized_runs_handler :
    (ServerAgent.onRequestBegin (ServerAgent.sampleServer Authorization.none)
      (sampleEnv sampleWatchdog) (sampleRequest HttpMethod.HTTP_GET "/config.json")
      (St.init 3 "/var/log/passenger.log" "" false)).trace =
      [Event.authorize,
       Event.writeSimpleResponse 401
         [("Cache-Control", "no-cache, no-store, must-revalidate"),
          ("WWW-Authenticate", "Basic realm=\"admin\"")]
         (Body.text "Unauthorized"),
       Event.endRequest,
       Event.getLogFile,
       Event.getFileDescriptorLogFile,
       Event.runSync 0 Command.getRequestHandlerConfig,
       Event.getLogLevel,
       Event.writeSimpleResponse 200 [("Content-Type", "application/json")]
         (Body.styled (Json.obj
           [("log_level", Json.int 3), ("log_file", Json.str "/var/log/passenger.log")]))] ∧
    (LoggingAgent.onRequestBegin (LoggingAgent.sampleServer Authorization.none)
      (sampleEnv sampleWatchdog) (sampleRequest HttpMethod.HTTP_GET "/config.json")
      (St.init 3 "/var/log/passenger.log" "" false)).trace =
      [Event.authorize,
       Event.writeSimpleResponse 401
         [("Cache-Control", "no-cache, no-store, must-revalidate"),
          ("WWW-Authenticate", "Basic realm=\"admin\"")]
         (Body.text "Unauthorized"),
       Event.endRequest,
       Event.getLogFile,
       Event.getFileDescriptorLogFile,
       Event.getLogLevel,
       Event.writeSimpleResponse 200 [("Content-Type", "application/json")]
         (Body.styled (Json.obj
           [("log_level", Json.int 3), ("log_file", Json.str "/var/log/passenger.log")]))] ∧
    (ServerAgent.onRequestBegin (ServerAgent.sampleServer Authorization.none)
      (sampleEnv sampleWatchdog) (sampleRequest HttpMethod.HTTP_GET "/config.json")
      (St.init 3 "/var/log/passenger.log" "" false)).trace.any Event.isPrivileged = true ∧
    (LoggingAgent.onRequestBegin (LoggingAgent.sampleServer Authorization.none)
      (sampleEnv sampleWatchdog) (sampleRequest HttpMethod.HTTP_GET "/config.json")
      (St.init 3 "/var/log/passenger.log" "" false)).trace.any Event.isPrivileged = true :=
  ⟨rfl, rfl, by decide, by decide⟩

/-- C2, evaluated at GET /config.json with an authorization that has read-pool and
modify-pool but not inspect-state (log level 5, no log file): the responses
written are the 401 followed by a 200 whose body is the configuration
document, in the helper agent and in the logging agent. -/
theorem config_get_unauthorized_responses :
    responses (ServerAgent.onRequestBegin
      (ServerAgent.sampleServer
        { uid := 501, apiKey := "", canReadPool := true, canModifyPool := true,
          canInspectState := false, canAdminister := false })
      (sampleEnv sampleWatchdog) (sampleRequest HttpMethod.HTTP_GET "/config.json")
      (St.init 5 "" "" false)).trace =
      [(401,
        [("Cache-Control", "no-cache, no-store, must-revalidate"),
         ("WWW-Authenticate", "Basic realm=\"admin\"")],
        Body.text "Unauthorized"),
       (200, [("Content-Type", "application/json")],
        Body.styled (Json.obj [("log_level", Json.int 5)]))] ∧
    responses (LoggingAgent.onRequestBegin
      (LoggingAgent.sampleServer
        { uid := 501, apiKey := "", canReadPool := true, canModifyPool := true,
          canInspectState := false, canAdminister := false })
      (sampleEnv sampleWatchdog) (sampleRequest HttpMethod.HTTP_GET "/config.json")
      (St.init 5 "" "" false)).trace =
      [(401,
        [("Cache-Control", "no-cache, no-store, must-revalidate"),
         ("WWW-Authenticate", "Basic realm=\"admin\"")],
        Body.text "Unauthorized"),
       (200, [("Content-Type", "application/json")],
        Body.styled (Json.obj [("log_level", Json.int 5)]))] :=
  ⟨rfl, rfl⟩

/-- C7, evaluated at DELETE /server/4294967297-x.json with the admin capability
and one worker: the leading number 4294967297 lies outside [1, 1], yet
`stringToUint` reduces it to 1, so a disconnect command for client
`4294967297-x` is submitted to the first worker and the answer is 200, not 400. -/
theorem server_connection_index_wraps :
    extractThreadNumberFromClientName "4294967297-x" = 1 ∧
    (ServerAgent.onRequestBegin (ServerAgent.sampleServer Authorization.full)
      (sampleEnv sampleWatchdog)
      (sampleRequest HttpMethod.HTTP_DELETE "/server/4294967297-x.json")
      (St.init 0 "" "" false)).trace =
      [Event.authorize,
       Event.runLater 0 (Command.disconnectClient "4294967297-x"),
       Event.writeSimpleResponse 200 [("Content-Type", "application/json")]
         (Body.text "\x7b \"status\": \"ok\" \x7d"),
       Event.endRequest] :=
  ⟨by decide, rfl⟩

/-! ### The token of `/server/<token>.json` -/

theorem serverConnectionPathCapture_pathOf (token : List Char) (h : token ≠ []) :
    serverConnectionPathCapture (serverConnectionPathOf token) = some (String.mk token) := by
  have hp : "/server/".data = ['/', 's', 'e', 'r', 'v', 'e', 'r', '/'] := by decide
  have hs : ".json".data = ['.', 'j', 's', 'o', 'n'] := by decide
  have hlen : 1 ≤ token.length := List.length_pos.mpr h
  have hsuf : ['.', 'j', 's', 'o', 'n'].isSuffixOf (token ++ ['.', 'j', 's', 'o', 'n']) = true := by
    rw [List.isSuffixOf_iff_suffix]
    exact List.suffix_append _ _
  simp only [serverConnectionPathCapture, serverConnectionPathOf, hp, hs, List.cons_append,
    List.nil_append, List.isPrefixOf, List.drop_succ_cons, List.drop_zero, beq_self_eq_true,
    Bool.and_self, Bool.true_and, hsuf, List.length_append, List.length_cons, List.length_nil]
  have h6 : decide (6 ≤ token.length + (0 + 1 + 1 + 1 + 1 + 1)) = true := by
    simp only [decide_eq_true_eq]; omega
  have h5 : token.length + (0 + 1 + 1 + 1 + 1 + 1) - 5 = token.length := by omega
  simp only [h6, if_true, h5]
  rw [List.take_left' rfl]

theorem takeWhile_isDigit_tokenOf (digits rest : List Char)
    (hd : ∀ c ∈ digits, isDigit c = true) :
    (tokenOf digits rest).takeWhile isDigit = digits ∧
    (tokenOf digits rest).dropWhile isDigit = '-' :: rest := by
  induction digits with
  | nil =>
    have : isDigit '-' = false := by decide
    simp [tokenOf, List.takeWhile, List.dropWhile, this]
  | cons c cs ih =>
    have hc : isDigit c = true := hd c (List.mem_cons_self _ _)
    have ih2 := ih (fun x hx => hd x (List.mem_cons_of_mem _ hx))
    simp only [tokenOf] at ih2
    simp [tokenOf, List.takeWhile, List.dropWhile, hc, ih2.1, ih2.2]

theorem foldl_digits_mod (digits : List Char) (a : Nat) :
    digits.foldl (fun result c => (result * 10 + (c.toNat - '0'.toNat)) % 2 ^ 32) (a % 2 ^ 32)
      = (digits.foldl (fun n c => 10 * n + (c.toNat - '0'.toNat)) a) % 2 ^ 32 := by
  induction digits generalizing a with
  | nil => simp
  | cons c cs ih =>
    simp only [List.foldl_cons]
    have : (a % 2 ^ 32 * 10 + (c.toNat - '0'.toNat)) % 2 ^ 32
        = (10 * a + (c.toNat - '0'.toNat)) % 2 ^ 32 := by
      omega
    rw [this, ih]

theorem stringToUint_digits (digits : List Char) (hd : ∀ c ∈ digits, isDigit c = true) :
    stringToUint (String.mk digits) = decimalValue digits % 2 ^ 32 := by
  have h1 : digits.dropWhile (fun c => c == ' ') = digits := by
    cases digits with
    | nil => rfl
    | cons c cs =>
      have hc : isDigit c = true := hd c (List.mem_cons_self _ _)
      have : (c == ' ') = false := by
        by_contra hne
        simp only [Bool.not_eq_false, beq_iff_eq] at hne
        subst hne
        exact absurd hc (by decide)
      simp [List.dropWhile, this]
  have h2 : digits.takeWhile isDigit = digits := by
    rw [List.takeWhile_eq_self_iff]
    exact hd
  have h3 := foldl_digits_mod digits 0
  simp only [Nat.zero_mod] at h3
  simp only [stringToUint, h1, h2, decimalValue]
  exact h3

theorem extractThreadNumber_tokenOf (digits rest : List Char) (hne : digits ≠ [])
    (hd : ∀ c ∈ digits, isDigit c = true) :
    extractThreadNumberFromClientName (String.mk (tokenOf digits rest))
      = uintToInt (decimalValue digits % 2 ^ 32) := by
  obtain ⟨ht, hdrop⟩ := takeWhile_isDigit_tokenOf digits rest hd
  simp only [extractThreadNumberFromClientName, ht, hdrop, List.head?_cons,
    stringToUint_digits digits hd]
  simp [hne]

/-- C8. For a DELETE on `/server/<token>.json` by a request with the admin
capability, where the token is a nonempty run of digits, a hyphen and anything,
the run of digits writes the number `k`, and `1 ≤ k ≤ N` for the `N` registered
workers (`N` within the range of the C++ `int` that holds the thread number):
the handler submits exactly one command, with `runLater`, to the worker at list
position `k - 1`, namely the disconnect of the client named by the whole token,
and then writes the 200 response `{ "status": "ok" }` and ends the request. -/
theorem server_connection_disconnects_worker
    (srv : ServerAgent.AdminServer) (env : Env) (req : Request) (digits rest : List Char)
    (logLevel : Int) (logFile fdLogFile : String) (hasFd : Bool)
    (hpath : req.getPathWithoutQueryString = serverConnectionPathOf (tokenOf digits rest))
    (hne : digits ≠ []) (hd : ∀ c ∈ digits, isDigit c = true)
    (hmethod : req.method = HttpMethod.HTTP_DELETE)
    (hauth : (srv.authorize req).canAdminister = true)
    (hlow : 1 ≤ decimalValue digits)
    (hhigh : decimalValue digits ≤ srv.requestHandlers.length)
    (hN : srv.requestHandlers.length < 2 ^ 31) :
    (ServerAgent.onRequestBegin srv env req (St.init logLevel logFile fdLogFile hasFd)).trace =
      [Event.authorize,
       Event.runLater (decimalValue digits - 1)
         (Command.disconnectClient (String.mk (tokenOf digits rest))),
       Event.writeSimpleResponse 200 [("Content-Type", "application/json")]
         (Body.text "\x7b \"status\": \"ok\" \x7d"),
       Event.endRequest] := by
  have htok : tokenOf digits rest ≠ [] := by simp [tokenOf]
  have hcap := serverConnectionPathCapture_pathOf (tokenOf digits rest) htok
  have hre : regex_match req.getPathWithoutQueryString = true := by
    simp [regex_match, hpath, hcap]
  have hk : decimalValue digits % 2 ^ 32 = decimalValue digits := by
    apply Nat.mod_eq_of_lt; omega
  have hnum := extractThreadNumber_tokenOf digits rest hne hd
  rw [hk] at hnum
  have hint : uintToInt (decimalValue digits) = (decimalValue digits : Int) := by
    have : decimalValue digits < 2 ^ 31 := by omega
    simp only [uintToInt, this, if_true]
  rw [hint] at hnum
  have hcond : ¬ ((decimalValue digits : Int) < 1 ∨
      ((decimalValue digits : Int)).toNat > srv.requestHandlers.length) := by
    simp only [Int.toNat_ofNat]
    omega
  simp only [ServerAgent.onRequestBegin, ServerAgent.dispatch_serverConnection _ _ _ _ hre,
    ServerAgent.processServerConnectionOperation, ServerAgent.authorizeAdminOperation, hauth,
    hmethod, hpath, hcap, hnum, hcond]
  simp [ServerAgent.catchInRequestBegin, endRequestUnlessEnded, writeSimpleResponse,
    endRequest, St.emit, St.init, jsonHeaders, statusOk]

/-- Witness of C8: DELETE /server/1-abc.json with every capability and one worker. -/
theorem server_connection_disconnects_worker_witness :
    (ServerAgent.onRequestBegin (ServerAgent.sampleServer Authorization.full)
      (sampleEnv sampleWatchdog) (sampleRequest HttpMethod.HTTP_DELETE "/server/1-abc.json")
      (St.init 0 "" "" false)).trace =
      [Event.authorize,
       Event.runLater (decimalValue ['1'] - 1)
         (Command.disconnectClient (String.mk (tokenOf ['1'] ['a', 'b', 'c']))),
       Event.writeSimpleResponse 200 [("Content-Type", "application/json")]
         (Body.text "\x7b \"status\": \"ok\" \x7d"),
       Event.endRequest] :=
  server_connection_disconnects_worker (ServerAgent.sampleServer Authorization.full)
    (sampleEnv sampleWatchdog) (sampleRequest HttpMethod.HTTP_DELETE "/server/1-abc.json")
    ['1'] ['a', 'b', 'c'] 0 "" "" false (by decide) (by decide) (by decide) rfl rfl
    (by decide) (by decide) (by decide)

/-! ### Response discipline of the handlers -/

theorem responses_append (t u : List Event) : responses (t ++ u) = responses t ++ responses u := by
  simp [responses, List.filterMap_append]

theorem parsedBodies_append (t u : List Event) :
    parsedBodies (t ++ u) = parsedBodies t ++ parsedBodies u := by
  simp [parsedBodies, List.filterMap_append]

theorem silent_response (e : Event) (h : e.isSilent = true) : responses [e] = [] := by
  cases e <;> simp_all [Event.isSilent, responses, Event.response?]

theorem silent_parsedBody (e : Event) (h : e.isSilent = true) : parsedBodies [e] = [] := by
  cases e <;> simp_all [Event.isSilent, parsedBodies, Event.parsedBody?]

theorem silent_isCatch (e : Event) (h : e.isSilent = true) : e.isCatch = false := by
  cases e <;> simp_all [Event.isSilent, Event.isCatch]

theorem quietly_self (s : St) : Quietly s s ↔ s.Pending := by
  simp [Quietly]

theorem quietly_emit (s s' : St) (e : Event) (h : e.isSilent = true) :
    Quietly s (s'.emit e) ↔ Quietly s s' := by
  simp [Quietly, St.Pending, St.emit, responses_append, parsedBodies_append,
    silent_response e h, silent_parsedBody e h, silent_isCatch e h]

theorem quietly_setLogLevel (s s' : St) (level : Int) :
    Quietly s (setLogLevel s' level) ↔ Quietly s s' := by
  simp [Quietly, St.Pending, setLogLevel, St.emit, responses_append, parsedBodies_append,
    responses, parsedBodies, Event.response?, Event.parsedBody?, Event.isCatch]

theorem quietly_setLogFile (s s' : St) (path : String) :
    Quietly s (setLogFile s' path) ↔ Quietly s s' := by
  simp [Quietly, St.Pending, setLogFile, St.emit, responses_append, parsedBodies_append,
    responses, parsedBodies, Event.response?, Event.parsedBody?, Event.isCatch]

theorem quietly_setFileDescriptorLogFile (s s' : St) (path : String) :
    Quietly s (setFileDescriptorLogFile s' path) ↔ Quietly s s' := by
  simp [Quietly, St.Pending, setFileDescriptorLogFile, St.emit, responses_append,
    parsedBodies_append, responses, parsedBodies, Event.response?, Event.parsedBody?,
    Event.isCatch]

theorem quietly_setLogFileWithFd (s s' : St) (path : String) (fd : Int) :
    Quietly s (setLogFileWithFd s' path fd) ↔ Quietly s s' := by
  simp [Quietly, St.Pending, setLogFileWithFd, St.emit, responses_append, parsedBodies_append,
    responses, parsedBodies, Event.response?, Event.parsedBody?, Event.isCatch]

theorem quietly_authorization (s s' : St) (auth : Authorization) :
    Quietly s { s' with authorization := auth } ↔ Quietly s s' := by
  simp [Quietly, St.Pending]

theorem quietly_jsonBody (s s' : St) (json : Json) :
    Quietly s { s' with jsonBody := json } ↔ Quietly s s' := by
  simp [Quietly, St.Pending]

theorem quietly_runLaterOnAll (s : St) (hs : List RequestHandler) (i : Nat) (cmd : Command)
    (s' : St) : Quietly s (ServerAgent.runLaterOnAll hs i cmd s') ↔ Quietly s s' := by
  induction hs generalizing i s' with
  | nil => simp [ServerAgent.runLaterOnAll]
  | cons rh rest ih =>
    simp only [ServerAgent.runLaterOnAll]
    rw [ih, quietly_emit _ _ (Event.runLater i cmd) rfl]

theorem quietly_processServerStatusLoop (s : St) (hs : List RequestHandler) (i : Nat)
    (doc : List (String × Json)) (s' : St) :
    Quietly s (ServerAgent.processServerStatusLoop hs i doc s').2 ↔ Quietly s s' := by
  induction hs generalizing i doc s' with
  | nil => simp [ServerAgent.processServerStatusLoop]
  | cons rh rest ih =>
    simp only [ServerAgent.processServerStatusLoop]
    rw [ih, quietly_emit _ _ (Event.runSync i Command.inspectRequestHandlerState) rfl]

theorem quietly_readHeaderLines (s : St) (lines : List String) (logFilePath : String)
    (s' : St) :
    Quietly s (ServerAgent.readHeaderLines lines logFilePath s').2 ↔ Quietly s s' := by
  induction lines generalizing logFilePath s' with
  | nil => simp [ServerAgent.readHeaderLines, quietly_emit _ _ Event.readLine rfl]
  | cons l rest ih =>
    simp only [ServerAgent.readHeaderLines]
    split_ifs <;> simp [ih, quietly_emit _ _ Event.readLine rfl]

theorem quietly_logging_readHeaderLines (s : St) (lines : List String) (logFilePath : String)
    (s' : St) :
    Quietly s (LoggingAgent.readHeaderLines lines logFilePath s').2 ↔ Quietly s s' := by
  induction lines generalizing logFilePath s' with
  | nil => simp [LoggingAgent.readHeaderLines, quietly_emit _ _ Event.readLine rfl]
  | cons l rest ih =>
    simp only [LoggingAgent.readHeaderLines]
    split_ifs <;> simp [ih, quietly_emit _ _ Event.readLine rfl]

theorem responses_write (code : Nat) (headers : HeaderTable) (body : Body) :
    responses [Event.writeSimpleResponse code headers body] = [(code, headers, body)] := rfl

theorem responses_bad (body : String) :
    responses [Event.endAsBadRequest body] = [(400, [], Body.text body)] := rfl

/-- A response written on a quietly reached state answers the request. -/
theorem finished_respond (s s' : St) (code : Nat) (headers : HeaderTable) (body : Body)
    (h : Quietly s s') :
    Finished s (endRequestUnlessEnded (writeSimpleResponse s' code headers body)) := by
  obtain ⟨⟨h1, h2, h3, h4, h5⟩, h6, h7⟩ := h
  simp [Finished, St.Answered, St.Aborted, endRequestUnlessEnded,
    writeSimpleResponse, endRequest, St.emit, responses_append, parsedBodies_append,
    Event.isCatch, h1, h2, h3, h4, h5, h6, h7]
  exact ⟨rfl, rfl⟩

/-- The 400 of `endAsBadRequest` on a quietly reached state answers the request. -/
theorem finished_endAsBadRequest (s s' : St) (body : String) (h : Quietly s s') :
    Finished s (endAsBadRequest s' body) := by
  obtain ⟨⟨h1, h2, h3, h4, h5⟩, h6, h7⟩ := h
  simp [Finished, St.Answered, St.Aborted, endAsBadRequest, St.emit,
    responses_append, parsedBodies_append, responses_bad, Event.isCatch,
    h1, h2, h3, h4, h5, h6, h7]
  rfl

/-- An exception thrown on a quietly reached state leaves no response behind. -/
theorem finished_throw (s s' : St) (e : Exn) (h : Quietly s s') :
    Finished s (s'.throw e) := by
  obtain ⟨⟨h1, h2, h3, h4, h5⟩, h6, h7⟩ := h
  simp [Finished, St.Answered, St.Aborted, St.throw, h1, h3, h4, h5, h6, h7]

/-- The header phase of a mutating endpoint lets the request through. -/
theorem handled_continue (s : St) (auth : Authorization) (h : s.Pending) :
    Handled s { s.emit Event.authorize with authorization := auth } ∧
    Handled s (s.emit Event.authorize) := by
  have hq : Quietly s (s.emit Event.authorize) := by
    simp [quietly_emit, quietly_self, Event.isSilent, h]
  refine ⟨Or.inr ⟨?_, ?_⟩, Or.inr ⟨hq, ?_⟩⟩
  · exact (quietly_authorization _ _ _).mpr hq
  · simp [St.emit]
  · simp [St.emit]

theorem ServerAgent.respondWith404_handled (s s' : St) (h : Quietly s s') :
    Handled s (ServerAgent.respondWith404 s') := by
  simp only [ServerAgent.respondWith404]
  exact Or.inl (finished_respond _ _ _ _ _ h)

theorem ServerAgent.processServerStatus_handled (srv : ServerAgent.AdminServer)
    (req : Request) (s : St) (h : s.Pending) :
    Handled s (ServerAgent.processServerStatus srv req s) := by
  simp only [ServerAgent.processServerStatus, ServerAgent.respondWith401]
  repeat' split
  all_goals
    exact Or.inl (finished_respond _ _ _ _ _ (by
      simp [quietly_self, quietly_emit, quietly_processServerStatusLoop, Event.isSilent, h]))

theorem ServerAgent.processServerConnectionOperation_handled (srv : ServerAgent.AdminServer)
    (req : Request) (s : St) (h : s.Pending) :
    Handled s (ServerAgent.processServerConnectionOperation srv req s) := by
  simp only [ServerAgent.processServerConnectionOperation, ServerAgent.respondWith405,
    ServerAgent.respondWith401]
  repeat' split
  all_goals
    first
    | exact Or.inl (finished_respond _ _ _ _ _ (by
        simp [quietly_self, quietly_emit, Event.isSilent, h]))
    | exact Or.inl (finished_endAsBadRequest _ _ _ (by
        simp [quietly_self, quietly_emit, Event.isSilent, h]))

theorem ServerAgent.processPoolStatusXml_handled (srv : ServerAgent.AdminServer)
    (req : Request) (s : St) (h : s.Pending) :
    Handled s (ServerAgent.processPoolStatusXml srv req s) := by
  simp only [ServerAgent.processPoolStatusXml, ServerAgent.respondWith401]
  repeat' split
  all_goals
    exact Or.inl (finished_respond _ _ _ _ _ (by
      simp [quietly_self, quietly_emit, Event.isSilent, h]))

theorem ServerAgent.processPoolStatusTxt_handled (srv : ServerAgent.AdminServer)
    (req : Request) (s : St) (h : s.Pending) :
    Handled s (ServerAgent.processPoolStatusTxt srv req s) := by
  simp only [ServerAgent.processPoolStatusTxt, ServerAgent.respondWith401]
  repeat' split
  all_goals
    exact Or.inl (finished_respond _ _ _ _ _ (by
      simp [quietly_self, quietly_emit, Event.isSilent, h]))

theorem ServerAgent.processPoolRestartAppGroup_handled (srv : ServerAgent.AdminServer)
    (req : Request) (s : St) (h : s.Pending) :
    Handled s (ServerAgent.processPoolRestartAppGroup srv req s) := by
  simp only [ServerAgent.processPoolRestartAppGroup, ServerAgent.respondWith405,
    ServerAgent.respondWith401, ServerAgent.respondWith413]
  repeat' split
  all_goals
    first
    | exact Or.inl (finished_respond _ _ _ _ _ (by
        simp [quietly_self, quietly_emit, Event.isSilent, h]))
    | exact Or.inl (finished_endAsBadRequest _ _ _ (by
        simp [quietly_self, quietly_emit, Event.isSilent, h]))
    | exact (handled_continue s _ h).1

theorem ServerAgent.processPoolDetachProcess_handled (srv : ServerAgent.AdminServer)
    (req : Request) (s : St) (h : s.Pending) :
    Handled s (ServerAgent.processPoolDetachProcess srv req s) := by
  simp only [ServerAgent.processPoolDetachProcess, ServerAgent.respondWith405,
    ServerAgent.respondWith401, ServerAgent.respondWith413]
  repeat' split
  all_goals
    first
    | exact Or.inl (finished_respond _ _ _ _ _ (by
        simp [quietly_self, quietly_emit, Event.isSilent, h]))
    | exact Or.inl (finished_endAsBadRequest _ _ _ (by
        simp [quietly_self, quietly_emit, Event.isSilent, h]))
    | exact (handled_continue s _ h).1

theorem ServerAgent.processBacktraces_handled (srv : ServerAgent.AdminServer) (env : Env)
    (req : Request) (s : St) (h : s.Pending) :
    Handled s (ServerAgent.processBacktraces srv env req s) := by
  simp only [ServerAgent.processBacktraces, ServerAgent.respondWith401]
  repeat' split
  all_goals
    exact Or.inl (finished_respond _ _ _ _ _ (by
      simp [quietly_self, quietly_emit, Event.isSilent, h]))

theorem ServerAgent.processPing_handled (srv : ServerAgent.AdminServer)
    (req : Request) (s : St) (h : s.Pending) :
    Handled s (ServerAgent.processPing srv req s) := by
  simp only [ServerAgent.processPing, ServerAgent.respondWith401]
  repeat' split
  all_goals
    exact Or.inl (finished_respond _ _ _ _ _ (by
      simp [quietly_self, quietly_emit, Event.isSilent, h]))

theorem ServerAgent.processShutdown_handled (srv : ServerAgent.AdminServer)
    (req : Request) (s : St) (h : s.Pending) :
    Handled s (ServerAgent.processShutdown srv req s) := by
  simp only [ServerAgent.processShutdown, ServerAgent.respondWith405,
    ServerAgent.respondWith401]
  repeat' split
  all_goals
    exact Or.inl (finished_respond _ _ _ _ _ (by
      simp [quietly_self, quietly_emit, Event.isSilent, h]))

theorem ServerAgent.processGc_handled (srv : ServerAgent.AdminServer)
    (req : Request) (s : St) (h : s.Pending) :
    Handled s (ServerAgent.processGc srv req s) := by
  simp only [ServerAgent.processGc, ServerAgent.respondWith405,
    ServerAgent.respondWith401]
  repeat' split
  all_goals
    exact Or.inl (finished_respond _ _ _ _ _ (by
      simp [quietly_self, quietly_emit, quietly_runLaterOnAll, Event.isSilent, h]))

theorem ServerAgent.processConfig_handled (srv : ServerAgent.AdminServer)
    (req : Request) (s : St) (h : s.Pending)
    (hok : req.method = HttpMethod.HTTP_GET →
      ServerAgent.authorizeStateInspectionOperation srv req = true) :
    Handled s (ServerAgent.processConfig srv req s) := by
  by_cases hm : req.method = HttpMethod.HTTP_GET
  · simp only [ServerAgent.processConfig, hm, hok hm, if_true, Bool.not_true,
      Bool.false_eq_true, if_false]
    split
    · exact Or.inl (finished_throw _ _ _ (by simp [quietly_self, quietly_emit, Event.isSilent, h]))
    · exact Or.inl (finished_respond _ _ _ _ _ (by
        simp [quietly_self, quietly_emit, Event.isSilent, h]))
  · simp only [ServerAgent.processConfig, hm, if_false, ServerAgent.respondWith405,
      ServerAgent.respondWith401]
    repeat' split
    all_goals
      first
      | exact Or.inl (finished_respond _ _ _ _ _ (by
          simp [quietly_self, quietly_emit, Event.isSilent, h]))
      | exact Or.inl (finished_endAsBadRequest _ _ _ (by
          simp [quietly_self, quietly_emit, Event.isSilent, h]))
      | exact (handled_continue s Authorization.none h).2

theorem ServerAgent.processReinheritLogsExchange_finished (env : Env) (s s' : St)
    (h : Quietly s s') :
    Finished s (ServerAgent.processReinheritLogsExchange env s') := by
  simp only [ServerAgent.processReinheritLogsExchange]
  split
  · exact (finished_respond _ _ _ _ _ (by
      simp [quietly_emit, Event.isSilent, h]))
  · have hq := (quietly_readHeaderLines s env.watchdog.lines.tail ""
      (s'.emit Event.readLine)).mpr (by simp [quietly_emit, Event.isSilent, h])
    rcases hr : ServerAgent.readHeaderLines env.watchdog.lines.tail ""
      (s'.emit Event.readLine) with ⟨_ | p, s2⟩
    · rw [hr] at hq
      exact (finished_respond _ _ _ _ _ (by
        simp [quietly_emit, Event.isSilent, hq]))
    · rw [hr] at hq
      simp only []
      repeat' split
      all_goals
        first
        | exact (finished_respond _ _ _ _ _ (by
            simp [quietly_emit, quietly_setLogFileWithFd, Event.isSilent, hq]))
        | exact (finished_throw _ _ _ (by
            simp [quietly_emit, Event.isSilent, hq]))

theorem ServerAgent.processReinheritLogs_handled (srv : ServerAgent.AdminServer) (env : Env)
    (req : Request) (s : St) (h : s.Pending) :
    Handled s (ServerAgent.processReinheritLogs srv env req s) := by
  simp only [ServerAgent.processReinheritLogs, ServerAgent.respondWith405,
    ServerAgent.respondWith401]
  repeat' split
  all_goals
    first
    | exact Or.inl (finished_respond _ _ _ _ _ (by
        simp [quietly_self, quietly_emit, Event.isSilent, h]))
    | exact Or.inl (finished_throw _ _ _ (by
        simp [quietly_self, quietly_emit, Event.isSilent, h]))
    | exact Or.inl (ServerAgent.processReinheritLogsExchange_finished _ _ _ (by
        simp [quietly_self, quietly_emit, Event.isSilent, h]))

theorem ServerAgent.processReopenLogs_handled (srv : ServerAgent.AdminServer) (env : Env)
    (req : Request) (s : St) (h : s.Pending) :
    Handled s (ServerAgent.processReopenLogs srv env req s) := by
  simp only [ServerAgent.processReopenLogs, ServerAgent.respondWith405,
    ServerAgent.respondWith401]
  repeat' split
  all_goals
    exact Or.inl (finished_respond _ _ _ _ _ (by
      simp [quietly_self, quietly_emit, quietly_setLogFile,
        quietly_setFileDescriptorLogFile, Event.isSilent, h]))

theorem ServerAgent.processPoolRestartAppGroupBodyRestart_finished
    (srv : ServerAgent.AdminServer) (env : Env) (s s' : St) (method : RestartMethod)
    (h : Quietly s s') :
    Finished s (ServerAgent.processPoolRestartAppGroupBodyRestart srv env s' method) := by
  simp only [ServerAgent.processPoolRestartAppGroupBodyRestart, ServerAgent.respondWith401]
  repeat' split
  all_goals
    first
    | exact finished_respond _ _ _ _ _ (by
        simp [quietly_emit, Event.isSilent, h])
    | exact finished_throw _ _ _ (by
        simp [quietly_emit, Event.isSilent, h])

theorem ServerAgent.processPoolRestartAppGroupBody_finished
    (srv : ServerAgent.AdminServer) (env : Env) (s s' : St) (h : Quietly s s') :
    Finished s (ServerAgent.processPoolRestartAppGroupBody srv env s') := by
  simp only [ServerAgent.processPoolRestartAppGroupBody]
  repeat' split
  all_goals
    first
    | exact finished_endAsBadRequest _ _ _ h
    | exact finished_throw _ _ _ h
    | exact ServerAgent.processPoolRestartAppGroupBodyRestart_finished _ _ _ _ _ h

theorem ServerAgent.processPoolDetachProcessBody_finished
    (srv : ServerAgent.AdminServer) (env : Env) (s s' : St) (h : Quietly s s') :
    Finished s (ServerAgent.processPoolDetachProcessBody srv env s') := by
  simp only [ServerAgent.processPoolDetachProcessBody, ServerAgent.respondWith401]
  repeat' split
  all_goals
    first
    | exact finished_respond _ _ _ _ _ (by
        simp [quietly_emit, Event.isSilent, h])
    | exact finished_endAsBadRequest _ _ _ h
    | exact finished_throw _ _ _ (by
        simp [quietly_emit, Event.isSilent, h])

theorem ServerAgent.processConfigBodyFinish_finished
    (srv : ServerAgent.AdminServer) (headers : HeaderTable) (s s' : St) (h : Quietly s s') :
    Finished s (ServerAgent.processConfigBodyFinish srv headers s') := by
  simp only [ServerAgent.processConfigBodyFinish]
  exact finished_respond _ _ _ _ _ (by simp [quietly_runLaterOnAll, h])

theorem ServerAgent.processConfigBodyLogFile_finished
    (srv : ServerAgent.AdminServer) (env : Env) (headers : HeaderTable) (s s' : St)
    (h : Quietly s s') :
    Finished s (ServerAgent.processConfigBodyLogFile srv env headers s') := by
  simp only [ServerAgent.processConfigBodyLogFile]
  repeat' split
  all_goals
    first
    | exact finished_respond _ _ _ _ _ (by
        simp [quietly_emit, Event.isSilent, h])
    | exact finished_throw _ _ _ h
    | exact ServerAgent.processConfigBodyFinish_finished _ _ _ _ (by
        simp [quietly_emit, quietly_setLogFile, Event.isSilent, h])

theorem ServerAgent.processConfigBody_finished
    (srv : ServerAgent.AdminServer) (env : Env) (s s' : St) (h : Quietly s s') :
    Finished s (ServerAgent.processConfigBody srv env s') := by
  simp only [ServerAgent.processConfigBody]
  repeat' split
  all_goals
    first
    | exact finished_throw _ _ _ h
    | exact ServerAgent.processConfigBodyLogFile_finished _ _ _ _ _ (by
        simp [quietly_setLogLevel, h])

/-- Every handler selected by `onRequestBegin` of the helper agent, on a pending
request other than the GET /config.json without inspect-state capability. -/
theorem ServerAgent.dispatch_handled (srv : ServerAgent.AdminServer) (env : Env)
    (req : Request) (s : St) (h : s.Pending)
    (hok : ServerAgent.configGetUnauthorized srv req = false) :
    Handled s (ServerAgent.dispatch srv env req s) := by
  rcases ServerAgent.dispatch_cases srv env req s with
    ⟨_, e⟩ | ⟨_, e⟩ | ⟨_, e⟩ | ⟨_, e⟩ | ⟨_, e⟩ | ⟨_, e⟩ | ⟨_, e⟩ | ⟨_, e⟩ | ⟨_, e⟩ | ⟨_, e⟩ |
    ⟨hp, e⟩ | ⟨_, e⟩ | ⟨_, e⟩ | ⟨_, e⟩ <;> rw [e]
  · exact ServerAgent.processServerStatus_handled srv req s h
  · exact ServerAgent.processServerConnectionOperation_handled srv req s h
  · exact ServerAgent.processPoolStatusXml_handled srv req s h
  · exact ServerAgent.processPoolStatusTxt_handled srv req s h
  · exact ServerAgent.processPoolRestartAppGroup_handled srv req s h
  · exact ServerAgent.processPoolDetachProcess_handled srv req s h
  · exact ServerAgent.processBacktraces_handled srv env req s h
  · exact ServerAgent.processPing_handled srv req s h
  · exact ServerAgent.processShutdown_handled srv req s h
  · exact ServerAgent.processGc_handled srv req s h
  · refine ServerAgent.processConfig_handled srv req s h ?_
    intro hm
    simpa [ServerAgent.configGetUnauthorized, hp, hm] using hok
  · exact ServerAgent.processReinheritLogs_handled srv env req s h
  · exact ServerAgent.processReopenLogs_handled srv env req s h
  · exact ServerAgent.respondWith404_handled s s ((quietly_self s).mpr h)

/-- The `catch` block of `onRequestBegin` on a finished request: an exception it
catches ends the request without any response. -/
theorem ServerAgent.catchInRequestBegin_finished (s s' : St) (h : Finished s s') :
    Finished s (ServerAgent.catchInRequestBegin s') := by
  rcases hth : s'.thrown with _ | e
  · rw [ServerAgent.catchInRequestBegin_of_not_thrown s' hth]
    exact h
  · obtain ⟨hb, hp, hcls⟩ := h
    by_cases ht : e.isTracable = true
    · have hab : s'.Aborted := by
        rcases hcls with hc | hc
        · exact absurd hc.2.1 (by simp [hth])
        · exact hc
      have hend : s'.ended = false := by
        rcases hab.2 with hc2 | hc2
        · exact absurd hc2.2.1 (by simp [hth])
        · exact hc2.1
      simp [Finished, ServerAgent.catchInRequestBegin, hth, ht, hend, endRequest, St.emit,
        St.Answered, St.Aborted, responses_append, parsedBodies_append, hab.1,
        hb, hp, Event.isCatch]
      exact ⟨rfl, rfl⟩
    · simp only [ServerAgent.catchInRequestBegin, hth, ht]
      exact ⟨hb, hp, hcls⟩

theorem ServerAgent.catchInRequestBegin_handled (s s' : St) (h : Handled s s') :
    Handled s (ServerAgent.catchInRequestBegin s') := by
  rcases h with h | h
  · exact Or.inl (ServerAgent.catchInRequestBegin_finished s s' h)
  · rw [ServerAgent.catchInRequestBegin_of_not_thrown s' h.1.1.2.1]
    exact Or.inr h

theorem ServerAgent.onRequestBegin_handled (srv : ServerAgent.AdminServer) (env : Env)
    (req : Request) (s : St) (h : s.Pending)
    (hok : ServerAgent.configGetUnauthorized srv req = false) :
    Handled s (ServerAgent.onRequestBegin srv env req s) :=
  ServerAgent.catchInRequestBegin_handled s _ (ServerAgent.dispatch_handled srv env req s h hok)

/-! ### The body phase -/

/-- The `catch` block of `onRequestBody` on a finished request: an exception it
catches ends the request without any response. -/
theorem ServerAgent.catchInRequestBody_finished (s s' : St) (h : Finished s s') :
    Finished s (ServerAgent.catchInRequestBody s') := by
  rcases hth : s'.thrown with _ | e
  · simp only [ServerAgent.catchInRequestBody, hth]
    exact h
  · obtain ⟨hb, hp, hcls⟩ := h
    by_cases ht : e.isTracable = true
    · have hab : s'.Aborted := by
        rcases hcls with hc | hc
        · exact absurd hc.2.1 (by simp [hth])
        · exact hc
      have hend : s'.ended = false := by
        rcases hab.2 with hc2 | hc2
        · exact absurd hc2.2.1 (by simp [hth])
        · exact hc2.1
      simp [Finished, ServerAgent.catchInRequestBody, hth, ht, hend, endRequest, St.emit,
        endRequestUnlessEnded,
        St.Answered, St.Aborted, responses_append, parsedBodies_append, hab.1,
        hb, hp, Event.isCatch]
      exact ⟨rfl, rfl⟩
    · simp only [ServerAgent.catchInRequestBody, hth, ht]
      exact ⟨hb, hp, hcls⟩

theorem ServerAgent.dispatchBody_finished (srv : ServerAgent.AdminServer) (env : Env)
    (req : Request) (s s' : St) (h : Quietly s s') :
    Finished s (ServerAgent.dispatchBody srv env req s') := by
  simp only [ServerAgent.dispatchBody]
  repeat' split
  · exact ServerAgent.processPoolRestartAppGroupBody_finished srv env s s' h
  · exact ServerAgent.processPoolDetachProcessBody_finished srv env s s' h
  · exact ServerAgent.processConfigBody_finished srv env s s' h
  · exact finished_throw _ _ _ (by simp [quietly_emit, Event.isSilent, h])

/-- A response written on a pending request: the request is answered, and the
trace grows by the response and the end of the request. -/
theorem respond_on_pending (s : St) (code : Nat) (headers : HeaderTable) (body : Body)
    (h : s.Pending) :
    (endRequestUnlessEnded (writeSimpleResponse s code headers body)).Answered ∧
    (endRequestUnlessEnded (writeSimpleResponse s code headers body)).trace
      = s.trace ++ [Event.writeSimpleResponse code headers body, Event.endRequest] ∧
    (endRequestUnlessEnded (writeSimpleResponse s code headers body)).body = s.body := by
  obtain ⟨h1, h2, h3, h4, h5⟩ := h
  refine ⟨?_, ?_, ?_⟩
  · simp [endRequestUnlessEnded, writeSimpleResponse, endRequest, St.emit, St.Answered,
      responses_append, h1, h2, h3, h4, h5, Event.isCatch]
    rfl
  · simp [endRequestUnlessEnded, writeSimpleResponse, endRequest, St.emit, h1]
  · simp [endRequestUnlessEnded, writeSimpleResponse, endRequest, St.emit, h1]

theorem pending_with_body (s : St) (body : String) (h : s.Pending) :
    St.Pending { s with body := body } := h

theorem pending_emit_jsonParse (s : St) (json : Json) (h : s.Pending) :
    St.Pending { s.emit (Event.jsonParse s.body) with jsonBody := json } := by
  obtain ⟨h1, h2, h3, h4, h5⟩ := h
  simp [St.Pending, St.emit, responses_append, h1, h2, h3, h4, h5, Event.isCatch]
  rfl

theorem pending_emit_jsonParse_plain (s : St) (h : s.Pending) :
    St.Pending (s.emit (Event.jsonParse s.body)) := by
  obtain ⟨h1, h2, h3, h4, h5⟩ := h
  simp [St.Pending, St.emit, responses_append, h1, h2, h3, h4, h5, Event.isCatch]
  rfl

theorem disconnect_on_pending (s : St) (h : s.Pending) :
    (disconnect s).Aborted ∧ (disconnect s).ended = true ∧
    (disconnect s).trace = s.trace ++ [Event.disconnect] ∧ (disconnect s).body = s.body := by
  obtain ⟨h1, h2, h3, h4, h5⟩ := h
  refine ⟨?_, ?_, ?_, ?_⟩
  · simp [disconnect, St.emit, St.Aborted, responses_append, h2, h4]
    rfl
  · simp [disconnect, St.emit]
  · simp [disconnect, St.emit]
  · simp [disconnect, St.emit]

theorem ServerAgent.onRequestBody_step (srv : ServerAgent.AdminServer) (env : Env)
    (req : Request) (buffer : String) (errcode : Int) (s : St) (h : s.Pending) :
    BodyStep env buffer
      (ServerAgent.requestBodyExceedsLimit req { s with body := s.body ++ buffer }
        ServerAgent.defaultLimit)
      s (ServerAgent.onRequestBody srv env req buffer errcode s) := by
  by_cases hb : buffer.length > 0
  · by_cases hx : ServerAgent.requestBodyExceedsLimit req { s with body := s.body ++ buffer }
        ServerAgent.defaultLimit = true
    · have hres : ServerAgent.onRequestBody srv env req buffer errcode s
          = ServerAgent.respondWith413 { s with body := s.body ++ buffer } := by
        simp only [ServerAgent.onRequestBody, hb, if_true, hx]
      obtain ⟨r1, r2, r3⟩ := respond_on_pending { s with body := s.body ++ buffer } 413
        [("Cache-Control", "no-cache, no-store, must-revalidate")]
        (Body.text "Request body too large") (pending_with_body s _ h)
      rw [hres]
      exact Or.inr (Or.inl ⟨hb, hx, r1, r2, r3⟩)
    · have hx2 : ServerAgent.requestBodyExceedsLimit req { s with body := s.body ++ buffer }
          ServerAgent.defaultLimit = false := by simpa using hx
      have hres : ServerAgent.onRequestBody srv env req buffer errcode s
          = { s with body := s.body ++ buffer } := by
        simp only [ServerAgent.onRequestBody, hb, if_true, hx2, Bool.false_eq_true, if_false]
      rw [hres]
      exact Or.inl ⟨hb, hx2, pending_with_body s _ h, rfl, rfl⟩
  · by_cases he : errcode = 0
    · rcases hj : env.jsonParse s.body with message | json
      · have hres : ServerAgent.onRequestBody srv env req buffer errcode s
            = ServerAgent.respondWith422 (s.emit (Event.jsonParse s.body)) message := by
          simp only [ServerAgent.onRequestBody, hb, if_false, he, if_true]
          have : (s.emit (Event.jsonParse s.body)).body = s.body := rfl
          rw [this, hj]
        obtain ⟨r1, r2, r3⟩ := respond_on_pending (s.emit (Event.jsonParse s.body)) 422
          [("Cache-Control", "no-cache, no-store, must-revalidate"),
           ("Content-Type", "text/plain; charset=utf-8")]
          (Body.text message) (pending_emit_jsonParse_plain s h)
        rw [hres]
        refine Or.inr (Or.inr (Or.inl ⟨message, hj, r1, ?_, r3⟩))
        rw [ServerAgent.respondWith422, r2]
        simp [St.emit, unprocessableTrace]
      · have hres : ServerAgent.onRequestBody srv env req buffer errcode s
            = ServerAgent.catchInRequestBody (ServerAgent.dispatchBody srv env req
                { s.emit (Event.jsonParse s.body) with jsonBody := json }) := by
          simp only [ServerAgent.onRequestBody, hb, if_false, he, if_true]
          have : (s.emit (Event.jsonParse s.body)).body = s.body := rfl
          rw [this, hj]
        have hq : Quietly { s.emit (Event.jsonParse s.body) with jsonBody := json }
            { s.emit (Event.jsonParse s.body) with jsonBody := json } :=
          (quietly_self _).mpr (pending_emit_jsonParse s json h)
        obtain ⟨hf1, hf2, hf3⟩ := ServerAgent.catchInRequestBody_finished _ _
          (ServerAgent.dispatchBody_finished srv env req _ _ hq)
        rw [hres]
        refine Or.inr (Or.inr (Or.inr (Or.inl ⟨json, hj, hf3, ?_, hf1⟩)))
        rw [hf2]
        simp [St.emit, parsedBodies_append]
        rfl
    · have hres : ServerAgent.onRequestBody srv env req buffer errcode s = disconnect s := by
        simp only [ServerAgent.onRequestBody, hb, if_false, he]
      rw [hres]
      exact Or.inr (Or.inr (Or.inr (Or.inr (disconnect_on_pending s h))))

theorem quiet_facts (t : List Event) (h : t.all Event.isAuthorize = true) :
    responses t = [] ∧ parsedBodies t = [] ∧ t.all (fun e => !e.isPrivileged) = true := by
  induction t with
  | nil => exact ⟨rfl, rfl, rfl⟩
  | cons e rest ih =>
    simp only [List.all_cons, Bool.and_eq_true] at h
    obtain ⟨he, hrest⟩ := h
    obtain ⟨i1, i2, i3⟩ := ih hrest
    cases e <;> simp [Event.isAuthorize] at he
    refine ⟨?_, ?_, ?_⟩
    · simpa [responses, Event.response?] using i1
    · simpa [parsedBodies, Event.parsedBody?] using i2
    · simpa [Event.isPrivileged] using i3

theorem statuses_append (t u : List Event) : statuses (t ++ u) = statuses t ++ statuses u := by
  simp [statuses, responses_append]

theorem statuses_quiet (t : List Event) (h : t.all Event.isAuthorize = true) :
    statuses t = [] := by
  simp [statuses, (quiet_facts t h).1]

/-- A settled request that is not pending is closed for the body phase. -/
theorem closed_of_answered_or_aborted (s : St) (h : s.Answered ∨ s.Aborted) :
    s.ended = true ∨ s.thrown ≠ Option.none := by
  rcases h with h | h
  · exact Or.inl h.1
  · rcases h.2 with h2 | h2
    · exact Or.inl h2.1
    · exact Or.inr h2.2

theorem openQuiet_of_closed (s : St) (h : s.ended = true ∨ s.thrown ≠ Option.none) :
    s.OpenQuiet := by
  intro h1 h2
  rcases h with h | h
  · rw [h1] at h; exact absurd h (by decide)
  · exact absurd h2 h

/-- After one body event on a request that awaits its body, the request is
settled, and if it is still open it still awaits its body. -/
theorem step_settled (env : Env) (buffer : String) (exceeds : Bool) (s s' : St)
    (h : s.AwaitingBody) (hs : BodyStep env buffer exceeds s s') :
    s'.Settled ∧ s'.OpenQuiet := by
  rcases hs with ⟨_, _, hp, ht, _⟩ | ⟨_, _, ha, _, _⟩ | ⟨_, _, ha, _, _⟩ | ⟨_, _, ha, _, _⟩ |
    ⟨ha, _, _, _⟩
  · exact ⟨Or.inl hp, fun _ _ => ⟨hp, by rw [ht]; exact h.2⟩⟩
  · exact ⟨Or.inr (Or.inl ha), openQuiet_of_closed _ (Or.inl ha.1)⟩
  · exact ⟨Or.inr (Or.inl ha), openQuiet_of_closed _ (Or.inl ha.1)⟩
  · exact ⟨Or.inr ha, openQuiet_of_closed _ (closed_of_answered_or_aborted _ ha)⟩
  · exact ⟨Or.inr (Or.inr ha), openQuiet_of_closed _
      (closed_of_answered_or_aborted _ (Or.inr ha))⟩

/-- After one body event on a request that awaits its body, a body that the
parser was given and rejected has been answered with 422 and nothing else. -/
theorem step_rejects (env : Env) (buffer : String) (exceeds : Bool) (s s' : St)
    (h : s.AwaitingBody) (hs : BodyStep env buffer exceeds s s') :
    RejectsInvalidJson env s' := by
  obtain ⟨q1, q2, q3⟩ := quiet_facts s.trace h.2
  intro b hb message hmsg
  rcases hs with ⟨_, _, _, ht, _⟩ | ⟨_, _, _, ht, _⟩ | ⟨m, hm, ha, ht, _⟩ |
    ⟨json, hj, _, hpb, _⟩ | ⟨_, _, ht, _⟩
  · rw [ht, q2] at hb
    exact absurd hb (List.not_mem_nil _)
  · rw [ht, parsedBodies_append, q2] at hb
    exact absurd hb (by simp [payloadTooLargeTrace, parsedBodies, Event.parsedBody?])
  · refine ⟨?_, ?_, ha.1⟩
    · rw [ht, statuses_append, statuses_quiet _ h.2]
      rfl
    · rw [ht, List.all_append, q3]
      rfl
  · rw [hpb, q2] at hb
    simp only [List.nil_append, List.mem_singleton] at hb
    rw [hb, hj] at hmsg
    exact absurd hmsg (by simp)
  · rw [ht, parsedBodies_append, q2] at hb
    exact absurd hb (by simp [parsedBodies, Event.parsedBody?])

theorem ServerAgent.deliverBody_closed (srv : ServerAgent.AdminServer) (env : Env)
    (req : Request) (events : List (String × Int)) (s : St)
    (h : s.ended = true ∨ s.thrown ≠ Option.none) :
    ServerAgent.deliverBody srv env req events s = s := by
  cases events with
  | nil => rfl
  | cons ev rest =>
    have : (s.ended || s.thrown.isSome) = true := by
      rcases h with h | h
      · simp [h]
      · cases hth : s.thrown with
        | none => exact absurd hth h
        | some e => simp
    simp only [ServerAgent.deliverBody, this, if_true]

theorem ServerAgent.deliverBody_open (srv : ServerAgent.AdminServer) (env : Env)
    (req : Request) (ev : String × Int) (rest : List (String × Int)) (s : St)
    (h1 : s.ended = false) (h2 : s.thrown = Option.none) :
    ServerAgent.deliverBody srv env req (ev :: rest) s
      = ServerAgent.deliverBody srv env req rest
          (ServerAgent.onRequestBody srv env req ev.1 ev.2 s) := by
  simp [ServerAgent.deliverBody, h1, h2]

theorem closed_or_open (s : St) :
    (s.ended = true ∨ s.thrown ≠ Option.none) ∨ (s.ended = false ∧ s.thrown = Option.none) := by
  cases he : s.ended with
  | true => exact Or.inl (Or.inl rfl)
  | false =>
    cases ht : s.thrown with
    | none => exact Or.inr ⟨rfl, rfl⟩
    | some e => exact Or.inl (Or.inr (by simp))

/-- The body phase of the helper agent answers a rejected body with 422. -/
theorem ServerAgent.deliverBody_rejects (srv : ServerAgent.AdminServer) (env : Env)
    (req : Request) (events : List (String × Int)) (s : St)
    (h : RejectsInvalidJson env s) (hq : s.OpenQuiet) :
    RejectsInvalidJson env (ServerAgent.deliverBody srv env req events s) := by
  induction events generalizing s with
  | nil => exact h
  | cons ev rest ih =>
    rcases closed_or_open s with hc | ⟨h1, h2⟩
    · rw [ServerAgent.deliverBody_closed srv env req _ s hc]
      exact h
    · rw [ServerAgent.deliverBody_open srv env req ev rest s h1 h2]
      have ha := hq h1 h2
      have hstep := ServerAgent.onRequestBody_step srv env req ev.1 ev.2 s ha.1
      exact ih _ (step_rejects env ev.1 _ s _ ha hstep) (step_settled env ev.1 _ s _ ha hstep).2

/-! ### The handlers of the logging agent -/

theorem LoggingAgent.logging_processPing_handled (srv : LoggingAgent.AdminServer)
    (req : Request) (s : St) (h : s.Pending) :
    Handled s (LoggingAgent.processPing srv req s) := by
  simp only [LoggingAgent.processPing, LoggingAgent.respondWith401]
  repeat' split
  all_goals
    exact Or.inl (finished_respond _ _ _ _ _ (by
      simp [quietly_self, quietly_emit, Event.isSilent, h]))

theorem LoggingAgent.logging_processShutdown_handled (srv : LoggingAgent.AdminServer)
    (req : Request) (s : St) (h : s.Pending) :
    Handled s (LoggingAgent.processShutdown srv req s) := by
  simp only [LoggingAgent.processShutdown, LoggingAgent.respondWith405,
    LoggingAgent.respondWith401]
  repeat' split
  all_goals
    exact Or.inl (finished_respond _ _ _ _ _ (by
      simp [quietly_self, quietly_emit, Event.isSilent, h]))

theorem LoggingAgent.logging_processConfig_handled (srv : LoggingAgent.AdminServer)
    (req : Request) (s : St) (h : s.Pending)
    (hok : req.method = HttpMethod.HTTP_GET →
      LoggingAgent.authorizeStateInspectionOperation srv req = true) :
    Handled s (LoggingAgent.processConfig srv req s) := by
  by_cases hm : req.method = HttpMethod.HTTP_GET
  · simp only [LoggingAgent.processConfig, hm, hok hm, if_true, Bool.not_true,
      Bool.false_eq_true, if_false]
    exact Or.inl (finished_respond _ _ _ _ _ (by
      simp [quietly_self, quietly_emit, Event.isSilent, h]))
  · simp only [LoggingAgent.processConfig, hm, if_false, LoggingAgent.respondWith405,
      LoggingAgent.respondWith401]
    repeat' split
    all_goals
      first
      | exact Or.inl (finished_respond _ _ _ _ _ (by
          simp [quietly_self, quietly_emit, Event.isSilent, h]))
      | exact Or.inl (finished_endAsBadRequest _ _ _ (by
          simp [quietly_self, quietly_emit, Event.isSilent, h]))
      | exact (handled_continue s Authorization.none h).2

theorem LoggingAgent.logging_processReinheritLogsExchange_finished (env : Env) (s s' : St)
    (h : Quietly s s') :
    Finished s (LoggingAgent.processReinheritLogsExchange env s') := by
  simp only [LoggingAgent.processReinheritLogsExchange]
  split
  · exact (finished_respond _ _ _ _ _ (by
      simp [quietly_emit, Event.isSilent, h]))
  · have hq := (quietly_logging_readHeaderLines s env.watchdog.lines.tail ""
      (s'.emit Event.readLine)).mpr (by simp [quietly_emit, Event.isSilent, h])
    rcases hr : LoggingAgent.readHeaderLines env.watchdog.lines.tail ""
      (s'.emit Event.readLine) with ⟨_ | p, s2⟩
    · rw [hr] at hq
      exact (finished_respond _ _ _ _ _ (by
        simp [quietly_emit, Event.isSilent, hq]))
    · rw [hr] at hq
      simp only []
      repeat' split
      all_goals
        first
        | exact (finished_respond _ _ _ _ _ (by
            simp [quietly_emit, quietly_setLogFileWithFd, Event.isSilent, hq]))
        | exact (finished_throw _ _ _ (by
            simp [quietly_emit, Event.isSilent, hq]))

theorem LoggingAgent.logging_processReinheritLogs_handled (srv : LoggingAgent.AdminServer)
    (env : Env) (req : Request) (s : St) (h : s.Pending) :
    Handled s (LoggingAgent.processReinheritLogs srv env req s) := by
  simp only [LoggingAgent.processReinheritLogs, LoggingAgent.respondWith405,
    LoggingAgent.respondWith401]
  repeat' split
  all_goals
    first
    | exact Or.inl (finished_respond _ _ _ _ _ (by
        simp [quietly_self, quietly_emit, Event.isSilent, h]))
    | exact Or.inl (finished_throw _ _ _ (by
        simp [quietly_self, quietly_emit, Event.isSilent, h]))
    | exact Or.inl (LoggingAgent.logging_processReinheritLogsExchange_finished _ _ _ (by
        simp [quietly_self, quietly_emit, Event.isSilent, h]))

theorem LoggingAgent.logging_processReopenLogs_handled (srv : LoggingAgent.AdminServer)
    (env : Env) (req : Request) (s : St) (h : s.Pending) :
    Handled s (LoggingAgent.processReopenLogs srv env req s) := by
  simp only [LoggingAgent.processReopenLogs, LoggingAgent.respondWith405,
    LoggingAgent.respondWith401]
  repeat' split
  all_goals
    exact Or.inl (finished_respond _ _ _ _ _ (by
      simp [quietly_self, quietly_emit, quietly_setLogFile,
        quietly_setFileDescriptorLogFile, Event.isSilent, h]))

theorem LoggingAgent.logging_processStatusTxt_handled (srv : LoggingAgent.AdminServer)
    (req : Request) (s : St) (h : s.Pending) :
    Handled s (LoggingAgent.processStatusTxt srv req s) := by
  simp only [LoggingAgent.processStatusTxt, LoggingAgent.respondWith405,
    LoggingAgent.respondWith401]
  repeat' split
  all_goals
    exact Or.inl (finished_respond _ _ _ _ _ (by
      simp [quietly_self, quietly_emit, Event.isSilent, h]))

theorem LoggingAgent.logging_processConfigBodyLogFile_finished (env : Env)
    (headers : HeaderTable) (s s' : St) (h : Quietly s s') :
    Finished s (LoggingAgent.processConfigBodyLogFile env headers s') := by
  simp only [LoggingAgent.processConfigBodyLogFile]
  repeat' split
  all_goals
    first
    | exact finished_respond _ _ _ _ _ (by
        simp [quietly_emit, quietly_setLogFile, Event.isSilent, h])
    | exact finished_throw _ _ _ h

theorem LoggingAgent.logging_processConfigBody_finished (env : Env) (s s' : St)
    (h : Quietly s s') :
    Finished s (LoggingAgent.processConfigBody env s') := by
  simp only [LoggingAgent.processConfigBody]
  repeat' split
  all_goals
    first
    | exact finished_throw _ _ _ h
    | exact LoggingAgent.logging_processConfigBodyLogFile_finished _ _ _ _ (by
        simp [quietly_setLogLevel, h])

/-- Every handler selected by `onRequestBegin` of the logging agent, on a pending
request other than the GET /config.json without inspect-state capability. -/
theorem LoggingAgent.logging_dispatch_handled (srv : LoggingAgent.AdminServer) (env : Env)
    (req : Request) (s : St) (h : s.Pending)
    (hok : LoggingAgent.configGetUnauthorized srv req = false) :
    Handled s (LoggingAgent.dispatch srv env req s) := by
  rcases LoggingAgent.logging_dispatch_cases srv env req s with
    ⟨_, e⟩ | ⟨_, e⟩ | ⟨hp, e⟩ | ⟨_, e⟩ | ⟨_, e⟩ | ⟨_, e⟩ | ⟨_, e⟩ <;> rw [e]
  · exact LoggingAgent.logging_processPing_handled srv req s h
  · exact LoggingAgent.logging_processShutdown_handled srv req s h
  · refine LoggingAgent.logging_processConfig_handled srv req s h ?_
    intro hm
    simpa [LoggingAgent.configGetUnauthorized, hp, hm] using hok
  · exact LoggingAgent.logging_processReinheritLogs_handled srv env req s h
  · exact LoggingAgent.logging_processReopenLogs_handled srv env req s h
  · exact LoggingAgent.logging_processStatusTxt_handled srv req s h
  · simp only [LoggingAgent.respondWith404]
    exact Or.inl (finished_respond _ _ _ _ _ ((quietly_self s).mpr h))

theorem LoggingAgent.logging_catchInRequestBegin_handled (s s' : St) (h : Handled s s') :
    Handled s (LoggingAgent.catchInRequestBegin s') := by
  have e : LoggingAgent.catchInRequestBegin s' = ServerAgent.catchInRequestBegin s' := rfl
  rw [e]
  exact ServerAgent.catchInRequestBegin_handled s s' h

theorem LoggingAgent.logging_onRequestBegin_handled (srv : LoggingAgent.AdminServer)
    (env : Env) (req : Request) (s : St) (h : s.Pending)
    (hok : LoggingAgent.configGetUnauthorized srv req = false) :
    Handled s (LoggingAgent.onRequestBegin srv env req s) :=
  LoggingAgent.logging_catchInRequestBegin_handled s _
    (LoggingAgent.logging_dispatch_handled srv env req s h hok)

theorem LoggingAgent.logging_onRequestBody_step (env : Env)
    (buffer : String) (errcode : Int) (s : St) (h : s.Pending) :
    BodyStep env buffer false s (LoggingAgent.onRequestBody env buffer errcode s) := by
  by_cases hb : buffer.length > 0
  · have hres : LoggingAgent.onRequestBody env buffer errcode s
        = { s with body := s.body ++ buffer } := by
      simp only [LoggingAgent.onRequestBody, hb, if_true]
    rw [hres]
    exact Or.inl ⟨hb, rfl, pending_with_body s _ h, rfl, rfl⟩
  · by_cases he : errcode = 0
    · rcases hj : env.jsonParse s.body with message | json
      · have hres : LoggingAgent.onRequestBody env buffer errcode s
            = LoggingAgent.respondWith422 (s.emit (Event.jsonParse s.body)) message := by
          simp only [LoggingAgent.onRequestBody, hb, if_false, he, if_true]
          have : (s.emit (Event.jsonParse s.body)).body = s.body := rfl
          rw [this, hj]
        obtain ⟨r1, r2, r3⟩ := respond_on_pending (s.emit (Event.jsonParse s.body)) 422
          [("Cache-Control", "no-cache, no-store, must-revalidate"),
           ("Content-Type", "text/plain; charset=utf-8")]
          (Body.text message) (pending_emit_jsonParse_plain s h)
        rw [hres]
        refine Or.inr (Or.inr (Or.inl ⟨message, hj, r1, ?_, r3⟩))
        rw [LoggingAgent.respondWith422, r2]
        simp [St.emit, unprocessableTrace]
      · have hres : LoggingAgent.onRequestBody env buffer errcode s
            = LoggingAgent.processConfigBody env
                { s.emit (Event.jsonParse s.body) with jsonBody := json } := by
          simp only [LoggingAgent.onRequestBody, hb, if_false, he, if_true]
          have : (s.emit (Event.jsonParse s.body)).body = s.body := rfl
          rw [this, hj]
        have hq : Quietly { s.emit (Event.jsonParse s.body) with jsonBody := json }
            { s.emit (Event.jsonParse s.body) with jsonBody := json } :=
          (quietly_self _).mpr (pending_emit_jsonParse s json h)
        obtain ⟨hf1, hf2, hf3⟩ := LoggingAgent.logging_processConfigBody_finished env _ _ hq
        rw [hres]
        refine Or.inr (Or.inr (Or.inr (Or.inl ⟨json, hj, hf3, ?_, hf1⟩)))
        rw [hf2]
        simp [St.emit, parsedBodies_append]
        rfl
    · have hres : LoggingAgent.onRequestBody env buffer errcode s = disconnect s := by
        simp only [LoggingAgent.onRequestBody, hb, if_false, he]
      rw [hres]
      exact Or.inr (Or.inr (Or.inr (Or.inr (disconnect_on_pending s h))))

theorem LoggingAgent.logging_deliverBody_closed (env : Env)
    (events : List (String × Int)) (s : St)
    (h : s.ended = true ∨ s.thrown ≠ Option.none) :
    LoggingAgent.deliverBody env events s = s := by
  cases events with
  | nil => rfl
  | cons ev rest =>
    have : (s.ended || s.thrown.isSome) = true := by
      rcases h with h | h
      · simp [h]
      · cases hth : s.thrown with
        | none => exact absurd hth h
        | some e => simp
    simp only [LoggingAgent.deliverBody, this, if_true]

theorem LoggingAgent.logging_deliverBody_open (env : Env)
    (ev : String × Int) (rest : List (String × Int)) (s : St)
    (h1 : s.ended = false) (h2 : s.thrown = Option.none) :
    LoggingAgent.deliverBody env (ev :: rest) s
      = LoggingAgent.deliverBody env rest (LoggingAgent.onRequestBody env ev.1 ev.2 s) := by
  simp [LoggingAgent.deliverBody, h1, h2]

/-- The body phase of the logging agent answers a rejected body with 422. -/
theorem LoggingAgent.logging_deliverBody_rejects (env : Env)
    (events : List (String × Int)) (s : St)
    (h : RejectsInvalidJson env s) (hq : s.OpenQuiet) :
    RejectsInvalidJson env (LoggingAgent.deliverBody env events s) := by
  induction events generalizing s with
  | nil => exact h
  | cons ev rest ih =>
    rcases closed_or_open s with hc | ⟨h1, h2⟩
    · rw [LoggingAgent.logging_deliverBody_closed env _ s hc]
      exact h
    · rw [LoggingAgent.logging_deliverBody_open env ev rest s h1 h2]
      have ha := hq h1 h2
      have hstep := LoggingAgent.logging_onRequestBody_step env ev.1 ev.2 s ha.1
      exact ih _ (step_rejects env ev.1 _ s _ ha hstep) (step_settled env ev.1 _ s _ ha hstep).2

/-! ### Whole requests -/

theorem pending_init (logLevel : Int) (logFile fdLogFile : String) (hasFd : Bool) :
    (St.init logLevel logFile fdLogFile hasFd).Pending :=
  ⟨rfl, rfl, rfl, rfl, rfl⟩

/-- What the header phase leaves behind when it has handled a fresh request. -/
theorem header_of_handled (logLevel : Int) (logFile fdLogFile : String) (hasFd : Bool)
    (s' : St) (h : Handled (St.init logLevel logFile fdLogFile hasFd) s') :
    s'.Settled ∧ s'.OpenQuiet ∧ parsedBodies s'.trace = [] ∧ s'.body = "" := by
  rcases h with ⟨hb, hp, hc⟩ | ⟨⟨hpend, hb, hp⟩, ht⟩
  · exact ⟨Or.inr hc, openQuiet_of_closed _ (closed_of_answered_or_aborted _ hc), hp, hb⟩
  · refine ⟨Or.inl hpend, fun _ _ => ⟨hpend, ?_⟩, hp, hb⟩
    rw [ht]
    rfl

/-- On the GET /config.json without inspect-state capability the helper agent
ends the request in the header phase and never calls the JSON parser. -/
theorem ServerAgent.onRequestBegin_slip (srv : ServerAgent.AdminServer) (env : Env)
    (req : Request) (logLevel : Int) (logFile fdLogFile : String) (hasFd : Bool)
    (h : ServerAgent.configGetUnauthorized srv req = true) :
    (ServerAgent.onRequestBegin srv env req (St.init logLevel logFile fdLogFile hasFd)).ended
      = true ∧
    parsedBodies (ServerAgent.onRequestBegin srv env req
      (St.init logLevel logFile fdLogFile hasFd)).trace = [] ∧
    (ServerAgent.onRequestBegin srv env req
      (St.init logLevel logFile fdLogFile hasFd)).body = "" := by
  simp only [ServerAgent.configGetUnauthorized, Bool.and_eq_true, decide_eq_true_eq,
    Bool.not_eq_true'] at h
  obtain ⟨⟨hp, hm⟩, ha⟩ := h
  rw [ServerAgent.onRequestBegin, ServerAgent.dispatch_config srv env req _ hp]
  cases hh : srv.requestHandlers.head? with
  | none =>
    simp [ServerAgent.processConfig, hm, ha, hh, ServerAgent.respondWith401,
      endRequestUnlessEnded, writeSimpleResponse, endRequest, St.emit, St.init, St.throw,
      ServerAgent.catchInRequestBegin, Exn.isTracable, parsedBodies, Event.parsedBody?]
  | some rh =>
    simp [ServerAgent.processConfig, hm, ha, hh, ServerAgent.respondWith401,
      endRequestUnlessEnded, writeSimpleResponse, endRequest, St.emit, St.init,
      ServerAgent.catchInRequestBegin, parsedBodies, Event.parsedBody?]

/-- On the GET /config.json without inspect-state capability the logging agent
ends the request in the header phase and never calls the JSON parser. -/
theorem LoggingAgent.logging_onRequestBegin_slip (srv : LoggingAgent.AdminServer) (env : Env)
    (req : Request) (logLevel : Int) (logFile fdLogFile : String) (hasFd : Bool)
    (h : LoggingAgent.configGetUnauthorized srv req = true) :
    (LoggingAgent.onRequestBegin srv env req (St.init logLevel logFile fdLogFile hasFd)).ended
      = true ∧
    parsedBodies (LoggingAgent.onRequestBegin srv env req
      (St.init logLevel logFile fdLogFile hasFd)).trace = [] ∧
    (LoggingAgent.onRequestBegin srv env req
      (St.init logLevel logFile fdLogFile hasFd)).body = "" := by
  simp only [LoggingAgent.configGetUnauthorized, Bool.and_eq_true, decide_eq_true_eq,
    Bool.not_eq_true'] at h
  obtain ⟨⟨hp, hm⟩, ha⟩ := h
  simp [LoggingAgent.onRequestBegin, LoggingAgent.dispatch, hp, LoggingAgent.processConfig,
    hm, ha, LoggingAgent.respondWith401,
    endRequestUnlessEnded, writeSimpleResponse, endRequest, St.emit, St.init,
    LoggingAgent.catchInRequestBegin, parsedBodies, Event.parsedBody?]

/-- After the header phase of the helper agent, for every request: the parser
has not been called, nothing is buffered, and an open request awaits its body. -/
theorem ServerAgent.onRequestBegin_summary (srv : ServerAgent.AdminServer) (env : Env)
    (req : Request) (logLevel : Int) (logFile fdLogFile : String) (hasFd : Bool) :
    (ServerAgent.onRequestBegin srv env req
      (St.init logLevel logFile fdLogFile hasFd)).OpenQuiet ∧
    parsedBodies (ServerAgent.onRequestBegin srv env req
      (St.init logLevel logFile fdLogFile hasFd)).trace = [] ∧
    (ServerAgent.onRequestBegin srv env req
      (St.init logLevel logFile fdLogFile hasFd)).body = "" := by
  cases hs : ServerAgent.configGetUnauthorized srv req with
  | true =>
    obtain ⟨h1, h2, h3⟩ := ServerAgent.onRequestBegin_slip srv env req logLevel logFile
      fdLogFile hasFd hs
    exact ⟨openQuiet_of_closed _ (Or.inl h1), h2, h3⟩
  | false =>
    exact (header_of_handled logLevel logFile fdLogFile hasFd _
      (ServerAgent.onRequestBegin_handled srv env req _ (pending_init _ _ _ _) hs)).2

/-- After the header phase of the logging agent, for every request: the parser
has not been called, nothing is buffered, and an open request awaits its body. -/
theorem LoggingAgent.logging_onRequestBegin_summary (srv : LoggingAgent.AdminServer)
    (env : Env) (req : Request) (logLevel : Int) (logFile fdLogFile : String) (hasFd : Bool) :
    (LoggingAgent.onRequestBegin srv env req
      (St.init logLevel logFile fdLogFile hasFd)).OpenQuiet ∧
    parsedBodies (LoggingAgent.onRequestBegin srv env req
      (St.init logLevel logFile fdLogFile hasFd)).trace = [] ∧
    (LoggingAgent.onRequestBegin srv env req
      (St.init logLevel logFile fdLogFile hasFd)).body = "" := by
  cases hs : LoggingAgent.configGetUnauthorized srv req with
  | true =>
    obtain ⟨h1, h2, h3⟩ := LoggingAgent.logging_onRequestBegin_slip srv env req logLevel
      logFile fdLogFile hasFd hs
    exact ⟨openQuiet_of_closed _ (Or.inl h1), h2, h3⟩
  | false =>
    exact (header_of_handled logLevel logFile fdLogFile hasFd _
      (LoggingAgent.logging_onRequestBegin_handled srv env req _ (pending_init _ _ _ _) hs)).2

theorem rejects_of_no_parse (env : Env) (s : St) (h : parsedBodies s.trace = []) :
    RejectsInvalidJson env s := by
  intro b hb
  rw [h] at hb
  exact absurd hb (List.not_mem_nil _)

/-- In both admin servers, whenever the buffered body of a request is handed to
the JSON parser and the parser rejects it, the request is answered with 422 and
ended, and no privileged call has been made for it. -/
theorem rejected_body_answers_422
    (srvH : ServerAgent.AdminServer) (srvL : LoggingAgent.AdminServer) (env : Env)
    (req : Request) (events : List (String × Int))
    (logLevel : Int) (logFile fdLogFile : String) (hasFd : Bool)
    (body message : String) (hparse : env.jsonParse body = Except.error message) :
    (body ∈ parsedBodies (ServerAgent.processRequest srvH env req events
        (St.init logLevel logFile fdLogFile hasFd)).trace →
      statuses (ServerAgent.processRequest srvH env req events
        (St.init logLevel logFile fdLogFile hasFd)).trace = [422] ∧
      (ServerAgent.processRequest srvH env req events
        (St.init logLevel logFile fdLogFile hasFd)).trace.all
          (fun e => !e.isPrivileged) = true ∧
      (ServerAgent.processRequest srvH env req events
        (St.init logLevel logFile fdLogFile hasFd)).ended = true) ∧
    (body ∈ parsedBodies (LoggingAgent.processRequest srvL env req events
        (St.init logLevel logFile fdLogFile hasFd)).trace →
      statuses (LoggingAgent.processRequest srvL env req events
        (St.init logLevel logFile fdLogFile hasFd)).trace = [422] ∧
      (LoggingAgent.processRequest srvL env req events
        (St.init logLevel logFile fdLogFile hasFd)).trace.all
          (fun e => !e.isPrivileged) = true ∧
      (LoggingAgent.processRequest srvL env req events
        (St.init logLevel logFile fdLogFile hasFd)).ended = true) := by
  constructor
  · intro hb
    obtain ⟨h1, h2, _⟩ := ServerAgent.onRequestBegin_summary srvH env req logLevel logFile
      fdLogFile hasFd
    exact ServerAgent.deliverBody_rejects srvH env req events _ (rejects_of_no_parse env _ h2)
      h1 body hb message hparse
  · intro hb
    obtain ⟨h1, h2, _⟩ := LoggingAgent.logging_onRequestBegin_summary srvL env req logLevel
      logFile fdLogFile hasFd
    exact LoggingAgent.logging_deliverBody_rejects env events _ (rejects_of_no_parse env _ h2)
      h1 body hb message hparse

theorem dataLength_cons (ev : String × Int) (rest : List (String × Int)) :
    dataLength (ev :: rest) = ev.1.length + dataLength rest := by
  simp [dataLength]

/-- When the size check of the helper agent lets the appended body through, the
body is within the limit, provided it is chunked or bounded by its declared
content length `bound`. -/
theorem ServerAgent.within_limit_of_not_exceeds (req : Request) (s : St) (bound : Nat)
    (hx : ServerAgent.requestBodyExceedsLimit req s ServerAgent.defaultLimit = false)
    (hsize : req.bodyType = BodyType.RBT_CHUNKED ∨
      (req.bodyType = BodyType.RBT_CONTENT_LENGTH ∧ bound ≤ req.contentLength))
    (hbound : req.bodyType = BodyType.RBT_CONTENT_LENGTH → s.body.length ≤ bound) :
    s.body.length ≤ ServerAgent.defaultLimit := by
  rcases hsize with hc | ⟨hc, hle⟩
  · simp [ServerAgent.requestBodyExceedsLimit, hc] at hx
    exact hx
  · simp [ServerAgent.requestBodyExceedsLimit, hc] at hx
    have := hbound hc
    omega

/-- The body phase of the helper agent enforces the ceiling on a request that
awaits its body with a buffered body within the limit, when the body is
chunked or the declared content length bounds the bytes still to come. -/
theorem ServerAgent.deliverBody_ceiling (srv : ServerAgent.AdminServer) (env : Env)
    (req : Request) (events : List (String × Int)) (s : St)
    (ha : s.AwaitingBody) (hb : s.body.length ≤ ServerAgent.defaultLimit)
    (hsize : req.bodyType = BodyType.RBT_CHUNKED ∨
      (req.bodyType = BodyType.RBT_CONTENT_LENGTH ∧
        s.body.length + dataLength events ≤ req.contentLength)) :
    EnforcesCeiling ServerAgent.defaultLimit
      (ServerAgent.deliverBody srv env req events s) := by
  induction events generalizing s with
  | nil =>
    obtain ⟨q1, q2, q3⟩ := quiet_facts s.trace ha.2
    refine ⟨?_, ?_⟩
    · intro b hbm
      simp only [ServerAgent.deliverBody] at hbm
      rw [q2] at hbm
      exact absurd hbm (List.not_mem_nil _)
    · intro hbig
      simp only [ServerAgent.deliverBody] at hbig
      omega
  | cons ev rest ih =>
    obtain ⟨q1, q2, q3⟩ := quiet_facts s.trace ha.2
    rw [ServerAgent.deliverBody_open srv env req ev rest s ha.1.1 ha.1.2.1]
    have hstep := ServerAgent.onRequestBody_step srv env req ev.1 ev.2 s ha.1
    rcases hstep with ⟨hpos, hx, hp, ht, hbody⟩ | ⟨_, _, hans, ht, hbody⟩ |
      ⟨m, _, hans, ht, hbody⟩ | ⟨json, _, hcls, hpb, hbody⟩ | ⟨hab, hend, ht, hbody⟩
    · have hlen : (ServerAgent.onRequestBody srv env req ev.1 ev.2 s).body.length
          = s.body.length + ev.1.length := by
        rw [hbody, String.length_append]
      have hsize2 : req.bodyType = BodyType.RBT_CHUNKED ∨
          (req.bodyType = BodyType.RBT_CONTENT_LENGTH ∧
            s.body.length + ev.1.length ≤ req.contentLength) := by
        rcases hsize with hc | ⟨hc, hle⟩
        · exact Or.inl hc
        · refine Or.inr ⟨hc, ?_⟩
          rw [dataLength_cons] at hle
          omega
      have hwithin := ServerAgent.within_limit_of_not_exceeds req
        { s with body := s.body ++ ev.1 } (s.body.length + ev.1.length) hx hsize2
        (fun _ => by simp [String.length_append])
      have hwithin2 : (s.body ++ ev.1).length ≤ ServerAgent.defaultLimit := hwithin
      refine ih _ ⟨hp, by rw [ht]; exact ha.2⟩ (by rw [hbody]; exact hwithin2) ?_
      rcases hsize with hc | ⟨hc, hle⟩
      · exact Or.inl hc
      · refine Or.inr ⟨hc, ?_⟩
        rw [dataLength_cons] at hle
        rw [hlen]
        omega
    · rw [ServerAgent.deliverBody_closed srv env req rest _ (Or.inl hans.1)]
      refine ⟨?_, fun _ => ⟨?_, ?_, ?_, hans.1⟩⟩
      · intro b hbm
        rw [ht, parsedBodies_append, q2] at hbm
        exact absurd hbm (by simp [payloadTooLargeTrace, parsedBodies, Event.parsedBody?])
      · rw [ht, statuses_append, statuses_quiet _ ha.2]
        rfl
      · rw [ht, parsedBodies_append, q2]
        rfl
      · rw [ht, List.all_append, q3]
        rfl
    · rw [ServerAgent.deliverBody_closed srv env req rest _ (Or.inl hans.1)]
      refine ⟨?_, ?_⟩
      · intro b hbm
        rw [ht, parsedBodies_append, q2] at hbm
        simp [unprocessableTrace, parsedBodies, Event.parsedBody?] at hbm
        rw [hbm]
        exact hb
      · intro hbig
        rw [hbody] at hbig
        omega
    · rw [ServerAgent.deliverBody_closed srv env req rest _
        (closed_of_answered_or_aborted _ hcls)]
      refine ⟨?_, ?_⟩
      · intro b hbm
        rw [hpb, q2] at hbm
        simp only [List.nil_append, List.mem_singleton] at hbm
        rw [hbm]
        exact hb
      · intro hbig
        rw [hbody] at hbig
        omega
    · rw [ServerAgent.deliverBody_closed srv env req rest _ (Or.inl hend)]
      refine ⟨?_, ?_⟩
      · intro b hbm
        rw [ht, parsedBodies_append, q2] at hbm
        exact absurd hbm (by simp [parsedBodies, Event.parsedBody?])
      · intro hbig
        rw [hbody] at hbig
        omega

theorem oversizedBody_length : oversizedBody.length = 131073 := by
  rw [oversizedBody, String.length_mk, List.length_replicate]

theorem oversizedBody_rejected (watchdog : Watchdog) :
    (sampleEnv watchdog).jsonParse oversizedBody = Except.error "Syntax error" := by
  have hne : oversizedBody ≠ "\x7b\x7d" := by
    intro h
    have h2 := congrArg String.length h
    rw [oversizedBody_length] at h2
    exact absurd h2 (by decide)
  simp [sampleEnv, hne]

/-- Counterexample to C9: the logging agent has no ceiling. A PUT /config.json
with the admin capability and one chunk of 131073 bytes is not answered with
413: the whole body is buffered and handed to the JSON parser. -/
theorem logging_agent_has_no_body_ceiling :
    131072 < oversizedBody.length ∧
    (LoggingAgent.processRequest (LoggingAgent.sampleServer Authorization.full)
      (sampleEnv sampleWatchdog) (sampleChunkedRequest HttpMethod.HTTP_PUT "/config.json")
      [(oversizedBody, 0), ("", 0)] (St.init 0 "" "" false)).trace =
      [Event.authorize,
       Event.jsonParse oversizedBody,
       Event.writeSimpleResponse 422
         [("Cache-Control", "no-cache, no-store, must-revalidate"),
          ("Content-Type", "text/plain; charset=utf-8")]
         (Body.text "Syntax error"),
       Event.endRequest] := by
  refine ⟨by rw [oversizedBody_length]; decide, ?_⟩
  have hpos : oversizedBody.length > 0 := by rw [oversizedBody_length]; decide
  have hrej := oversizedBody_rejected sampleWatchdog
  have hbegin : LoggingAgent.onRequestBegin (LoggingAgent.sampleServer Authorization.full)
      (sampleEnv sampleWatchdog) (sampleChunkedRequest HttpMethod.HTTP_PUT "/config.json")
      (St.init 0 "" "" false) = (St.init 0 "" "" false).emit Event.authorize := rfl
  have hdata : LoggingAgent.onRequestBody (sampleEnv sampleWatchdog) oversizedBody 0
      ((St.init 0 "" "" false).emit Event.authorize)
      = { (St.init 0 "" "" false).emit Event.authorize with body := oversizedBody } := by
    simp only [LoggingAgent.onRequestBody, hpos, if_true]
    rfl
  have heof : LoggingAgent.onRequestBody (sampleEnv sampleWatchdog) "" 0
      { (St.init 0 "" "" false).emit Event.authorize with body := oversizedBody }
      = LoggingAgent.respondWith422
          ({ (St.init 0 "" "" false).emit Event.authorize with body := oversizedBody }.emit
            (Event.jsonParse oversizedBody)) "Syntax error" := by
    have h0 : ¬ ("".length > 0) := by decide
    simp only [LoggingAgent.onRequestBody, h0, if_false, if_true]
    have hb : ({ (St.init 0 "" "" false).emit Event.authorize with
        body := oversizedBody }.emit (Event.jsonParse oversizedBody)).body = oversizedBody := rfl
    rw [hb, hrej]
  rw [LoggingAgent.processRequest, hbegin,
    LoggingAgent.logging_deliverBody_open _ _ _ _ rfl rfl, hdata,
    LoggingAgent.logging_deliverBody_open _ _ _ _ rfl rfl, heof]
  rfl

/-- C9 (amended). In the helper agent's admin server, for a request whose body is
chunked, or whose declared content length bounds the body bytes delivered:
the JSON parser is only ever given a buffered body of at most 131072 bytes,
and once the buffered body exceeds 131072 bytes the request has been answered
with 413 and ended, the JSON parser has not been called, and no privileged
call (pool call, worker command, logging change) has been made. The logging
agent enforces no ceiling. -/
theorem helper_agent_enforces_body_ceiling
    (srv : ServerAgent.AdminServer) (env : Env) (req : Request)
    (events : List (String × Int))
    (logLevel : Int) (logFile fdLogFile : String) (hasFd : Bool)
    (hsize : req.bodyType = BodyType.RBT_CHUNKED ∨
      (req.bodyType = BodyType.RBT_CONTENT_LENGTH ∧ dataLength events ≤ req.contentLength)) :
    (∀ body ∈ parsedBodies (ServerAgent.processRequest srv env req events
        (St.init logLevel logFile fdLogFile hasFd)).trace, body.length ≤ 131072) ∧
    (131072 < (ServerAgent.processRequest srv env req events
        (St.init logLevel logFile fdLogFile hasFd)).body.length →
      statuses (ServerAgent.processRequest srv env req events
        (St.init logLevel logFile fdLogFile hasFd)).trace = [413] ∧
      parsedBodies (ServerAgent.processRequest srv env req events
        (St.init logLevel logFile fdLogFile hasFd)).trace = [] ∧
      (ServerAgent.processRequest srv env req events
        (St.init logLevel logFile fdLogFile hasFd)).trace.all
          (fun e => !e.isPrivileged) = true ∧
      (ServerAgent.processRequest srv env req events
        (St.init logLevel logFile fdLogFile hasFd)).ended = true) := by
  obtain ⟨h1, h2, h3⟩ := ServerAgent.onRequestBegin_summary srv env req logLevel logFile
    fdLogFile hasFd
  have hlimit : ServerAgent.defaultLimit = 131072 := by decide
  rw [← hlimit]
  rcases closed_or_open (ServerAgent.onRequestBegin srv env req
    (St.init logLevel logFile fdLogFile hasFd)) with hc | ⟨ho1, ho2⟩
  · rw [ServerAgent.processRequest, ServerAgent.deliverBody_closed srv env req events _ hc]
    refine ⟨?_, ?_⟩
    · intro b hb
      rw [h2] at hb
      exact absurd hb (List.not_mem_nil _)
    · intro hbig
      rw [h3] at hbig
      exact absurd hbig (by decide)
  · refine ServerAgent.deliverBody_ceiling srv env req events _ (h1 ho1 ho2) ?_ ?_
    · rw [h3]; decide
    · rcases hsize with hs | ⟨hs, hle⟩
      · exact Or.inl hs
      · refine Or.inr ⟨hs, ?_⟩
        rw [h3]
        simpa using hle

theorem ServerAgent.onRequestBody_exceeds (srv : ServerAgent.AdminServer) (env : Env)
    (req : Request) (buffer : String) (errcode : Int) (s : St) (hpos : buffer.length > 0)
    (hx : ServerAgent.requestBodyExceedsLimit req { s with body := s.body ++ buffer }
      ServerAgent.defaultLimit = true) :
    ServerAgent.onRequestBody srv env req buffer errcode s
      = ServerAgent.respondWith413 { s with body := s.body ++ buffer } := by
  simp only [ServerAgent.onRequestBody, hpos, if_true, hx]

/-- The run of the helper agent on a POST /pool/restart_app_group.json with one
chunk of 131073 bytes buffers that chunk. -/
theorem oversized_run_body :
    (ServerAgent.processRequest (ServerAgent.sampleServer Authorization.full)
      (sampleEnv sampleWatchdog)
      (sampleChunkedRequest HttpMethod.HTTP_POST "/pool/restart_app_group.json")
      [(oversizedBody, 0), ("", 0)] (St.init 0 "" "" false)).body = oversizedBody := by
  have hpos : oversizedBody.length > 0 := by rw [oversizedBody_length]; decide
  have hx : ServerAgent.requestBodyExceedsLimit
      (sampleChunkedRequest HttpMethod.HTTP_POST "/pool/restart_app_group.json")
      { ServerAgent.onRequestBegin (ServerAgent.sampleServer Authorization.full)
          (sampleEnv sampleWatchdog)
          (sampleChunkedRequest HttpMethod.HTTP_POST "/pool/restart_app_group.json")
          (St.init 0 "" "" false) with
        body := (ServerAgent.onRequestBegin (ServerAgent.sampleServer Authorization.full)
          (sampleEnv sampleWatchdog)
          (sampleChunkedRequest HttpMethod.HTTP_POST "/pool/restart_app_group.json")
          (St.init 0 "" "" false)).body ++ oversizedBody }
      ServerAgent.defaultLimit = true := by
    simp only [ServerAgent.requestBodyExceedsLimit, String.length_append, oversizedBody_length]
    decide
  rw [ServerAgent.processRequest,
    ServerAgent.deliverBody_open _ _ _ _ _ _ rfl rfl,
    ServerAgent.onRequestBody_exceeds _ _ _ _ _ _ hpos hx,
    ServerAgent.deliverBody_closed _ _ _ _ _ (Or.inl rfl)]
  rfl

/-- Witness of C9 (amended) on the helper agent: the empty JSON object sent to
POST /pool/detach_process.json reaches the parser and is within the ceiling; a
chunk of 131073 bytes sent to POST /pool/restart_app_group.json is answered
with 413 and reaches neither the parser nor the pool. -/
theorem helper_agent_enforces_body_ceiling_witness :
    ("\x7b\x7d").length ≤ 131072 ∧
    (statuses (ServerAgent.processRequest (ServerAgent.sampleServer Authorization.full)
        (sampleEnv sampleWatchdog)
        (sampleChunkedRequest HttpMethod.HTTP_POST "/pool/restart_app_group.json")
        [(oversizedBody, 0), ("", 0)] (St.init 0 "" "" false)).trace = [413] ∧
      parsedBodies (ServerAgent.processRequest (ServerAgent.sampleServer Authorization.full)
        (sampleEnv sampleWatchdog)
        (sampleChunkedRequest HttpMethod.HTTP_POST "/pool/restart_app_group.json")
        [(oversizedBody, 0), ("", 0)] (St.init 0 "" "" false)).trace = [] ∧
      (ServerAgent.processRequest (ServerAgent.sampleServer Authorization.full)
        (sampleEnv sampleWatchdog)
        (sampleChunkedRequest HttpMethod.HTTP_POST "/pool/restart_app_group.json")
        [(oversizedBody, 0), ("", 0)] (St.init 0 "" "" false)).trace.all
          (fun e => !e.isPrivileged) = true ∧
      (ServerAgent.processRequest (ServerAgent.sampleServer Authorization.full)
        (sampleEnv sampleWatchdog)
        (sampleChunkedRequest HttpMethod.HTTP_POST "/pool/restart_app_group.json")
        [(oversizedBody, 0), ("", 0)] (St.init 0 "" "" false)).ended = true) :=
  ⟨(helper_agent_enforces_body_ceiling (ServerAgent.sampleServer Authorization.full)
      (sampleEnv sampleWatchdog)
      (sampleChunkedRequest HttpMethod.HTTP_POST "/pool/detach_process.json")
      [("\x7b\x7d", 0), ("", 0)] 0 "" "" false (Or.inl rfl)).1 "\x7b\x7d" (by decide),
   (helper_agent_enforces_body_ceiling (ServerAgent.sampleServer Authorization.full)
      (sampleEnv sampleWatchdog)
      (sampleChunkedRequest HttpMethod.HTTP_POST "/pool/restart_app_group.json")
      [(oversizedBody, 0), ("", 0)] 0 "" "" false (Or.inl rfl)).2
      (by rw [oversized_run_body, oversizedBody_length]; decide)⟩

/-! ### Complete bodies -/

theorem ServerAgent.exceeds_congr (req : Request) (s s' : St) (h : s.body = s'.body) :
    ServerAgent.requestBodyExceedsLimit req s ServerAgent.defaultLimit
      = ServerAgent.requestBodyExceedsLimit req s' ServerAgent.defaultLimit := by
  simp [ServerAgent.requestBodyExceedsLimit, h]

theorem ServerAgent.within_of_le (req : Request) (a b : String) (hle : a.length ≤ b.length)
    (h : ServerAgent.bodyWithinCeiling req b = true) :
    ServerAgent.bodyWithinCeiling req a = true := by
  simp only [ServerAgent.bodyWithinCeiling, ServerAgent.requestBodyExceedsLimit,
    Bool.not_eq_true', Bool.or_eq_false_iff, Bool.and_eq_false_imp, beq_iff_eq,
    decide_eq_false_iff_not] at h ⊢
  refine ⟨h.1, fun hc => ?_⟩
  have := h.2 hc
  omega

theorem length_le_buffered (body : String) (chunks : List String) :
    body.length ≤ (buffered body chunks).length := by
  induction chunks generalizing body with
  | nil => exact Nat.le_refl _
  | cons c rest ih =>
    have := ih (body ++ c)
    simp only [buffered, List.foldl_cons] at this ⊢
    rw [String.length_append] at this
    omega

/-- The header phase of the helper agent on a request it lets through: only
`authorize` is called and the request awaits its body. -/
theorem ServerAgent.onRequestBegin_accepts (srv : ServerAgent.AdminServer) (env : Env)
    (req : Request) (logLevel : Int) (logFile fdLogFile : String) (hasFd : Bool)
    (h : ServerAgent.acceptsBody srv req = true) :
    (ServerAgent.onRequestBegin srv env req (St.init logLevel logFile fdLogFile hasFd)).Pending ∧
    (ServerAgent.onRequestBegin srv env req (St.init logLevel logFile fdLogFile hasFd)).trace
      = [Event.authorize] ∧
    (ServerAgent.onRequestBegin srv env req (St.init logLevel logFile fdLogFile hasFd)).body
      = "" := by
  have hpend : ∀ auth : Authorization,
      St.Pending { (St.init logLevel logFile fdLogFile hasFd).emit Event.authorize with
        authorization := auth } := fun _ => ⟨rfl, rfl, rfl, rfl, rfl⟩
  have hpend2 : St.Pending ((St.init logLevel logFile fdLogFile hasFd).emit Event.authorize) :=
    ⟨rfl, rfl, rfl, rfl, rfl⟩
  simp only [ServerAgent.acceptsBody] at h
  split_ifs at h with h1 h2
  · simp only [Bool.and_eq_true, decide_eq_true_eq, ServerAgent.bodyWithinCeiling,
      Bool.not_eq_true'] at h
    obtain ⟨⟨⟨hc, hm⟩, hb⟩, hx⟩ := h
    have hx2 : ServerAgent.requestBodyExceedsLimit req
        ((St.init logLevel logFile fdLogFile hasFd).emit Event.authorize)
        ServerAgent.defaultLimit = false := by
      rw [← hx]
      exact ServerAgent.exceeds_congr req _ _ rfl
    have hres : ServerAgent.onRequestBegin srv env req
        (St.init logLevel logFile fdLogFile hasFd)
        = { (St.init logLevel logFile fdLogFile hasFd).emit Event.authorize with
            authorization := srv.authorize req } := by
      rcases h1 with h1 | h1
      · rw [ServerAgent.onRequestBegin, ServerAgent.dispatch_restartAppGroup srv env req _ h1]
        simp only [ServerAgent.processPoolRestartAppGroup, hc, hm, hb, hx2, Bool.not_true,
          Bool.false_eq_true, if_false, ne_eq, not_true_eq_false]
        rfl
      · rw [ServerAgent.onRequestBegin, ServerAgent.dispatch_detachProcess srv env req _ h1]
        simp only [ServerAgent.processPoolDetachProcess, hc, hm, hb, hx2, Bool.not_true,
          Bool.false_eq_true, if_false, ne_eq, not_true_eq_false]
        rfl
    rw [hres]
    exact ⟨hpend _, rfl, rfl⟩
  · simp only [Bool.and_eq_true, decide_eq_true_eq] at h
    obtain ⟨⟨hm, hc⟩, hb⟩ := h
    have hres : ServerAgent.onRequestBegin srv env req
        (St.init logLevel logFile fdLogFile hasFd)
        = (St.init logLevel logFile fdLogFile hasFd).emit Event.authorize := by
      rw [ServerAgent.onRequestBegin, ServerAgent.dispatch_config srv env req _ h2]
      simp only [ServerAgent.processConfig, hm, hc, hb, reduceCtorEq, if_false, if_true,
        Bool.not_true, Bool.false_eq_true]
      rfl
    rw [hres]
    exact ⟨hpend2, rfl, rfl⟩

/-- The header phase of the logging agent on a request it lets through. -/
theorem LoggingAgent.logging_onRequestBegin_accepts (srv : LoggingAgent.AdminServer)
    (env : Env) (req : Request) (logLevel : Int) (logFile fdLogFile : String) (hasFd : Bool)
    (h : LoggingAgent.acceptsBody srv req = true) :
    (LoggingAgent.onRequestBegin srv env req (St.init logLevel logFile fdLogFile hasFd)).Pending ∧
    (LoggingAgent.onRequestBegin srv env req (St.init logLevel logFile fdLogFile hasFd)).trace
      = [Event.authorize] ∧
    (LoggingAgent.onRequestBegin srv env req (St.init logLevel logFile fdLogFile hasFd)).body
      = "" := by
  simp only [LoggingAgent.acceptsBody, Bool.and_eq_true, decide_eq_true_eq] at h
  obtain ⟨⟨⟨hp, hm⟩, hc⟩, hb⟩ := h
  have hres : LoggingAgent.onRequestBegin srv env req
      (St.init logLevel logFile fdLogFile hasFd)
      = (St.init logLevel logFile fdLogFile hasFd).emit Event.authorize := by
    simp only [LoggingAgent.onRequestBegin, LoggingAgent.dispatch, hp, String.reduceEq,
      if_false, if_true, LoggingAgent.processConfig, hm, hc, hb, reduceCtorEq,
      Bool.not_true, Bool.false_eq_true]
    rfl
  rw [hres]
  exact ⟨⟨rfl, rfl, rfl, rfl, rfl⟩, rfl, rfl⟩

/-- The helper agent buffers the chunks of a body that stays within the ceiling. -/
theorem ServerAgent.deliverBody_chunks (srv : ServerAgent.AdminServer) (env : Env)
    (req : Request) (chunks : List String) (rest : List (String × Int)) (s : St)
    (hp : s.Pending) (hpos : ∀ c ∈ chunks, 0 < c.length)
    (hw : ServerAgent.bodyWithinCeiling req (buffered s.body chunks) = true) :
    ServerAgent.deliverBody srv env req (chunks.map (fun c => (c, (0 : Int))) ++ rest) s
      = ServerAgent.deliverBody srv env req rest { s with body := buffered s.body chunks } := by
  induction chunks generalizing s with
  | nil => rfl
  | cons c cs ih =>
    have hc : 0 < c.length := hpos c (List.mem_cons_self _ _)
    have hw1 : ServerAgent.bodyWithinCeiling req (s.body ++ c) = true :=
      ServerAgent.within_of_le req _ _ (length_le_buffered (s.body ++ c) cs) hw
    have hx : ServerAgent.requestBodyExceedsLimit req { s with body := s.body ++ c }
        ServerAgent.defaultLimit = false := by
      simp only [ServerAgent.bodyWithinCeiling, Bool.not_eq_true'] at hw1
      rw [← hw1]
      exact ServerAgent.exceeds_congr req _ _ rfl
    have hstep : ServerAgent.onRequestBody srv env req c 0 s = { s with body := s.body ++ c } := by
      simp only [ServerAgent.onRequestBody, gt_iff_lt, hc, if_true, hx, Bool.false_eq_true,
        if_false]
    simp only [List.map_cons, List.cons_append]
    rw [ServerAgent.deliverBody_open srv env req _ _ s hp.1 hp.2.1]
    simp only [hstep]
    exact ih { s with body := s.body ++ c } (pending_with_body s _ hp)
      (fun x hx => hpos x (List.mem_cons_of_mem _ hx)) hw

/-- The logging agent buffers the chunks of a body, whatever their size. -/
theorem LoggingAgent.logging_deliverBody_chunks (env : Env)
    (chunks : List String) (rest : List (String × Int)) (s : St)
    (hp : s.Pending) (hpos : ∀ c ∈ chunks, 0 < c.length) :
    LoggingAgent.deliverBody env (chunks.map (fun c => (c, (0 : Int))) ++ rest) s
      = LoggingAgent.deliverBody env rest { s with body := buffered s.body chunks } := by
  induction chunks generalizing s with
  | nil => rfl
  | cons c cs ih =>
    have hc : 0 < c.length := hpos c (List.mem_cons_self _ _)
    have hstep : LoggingAgent.onRequestBody env c 0 s = { s with body := s.body ++ c } := by
      simp only [LoggingAgent.onRequestBody, gt_iff_lt, hc, if_true]
    simp only [List.map_cons, List.cons_append]
    rw [LoggingAgent.logging_deliverBody_open env _ _ s hp.1 hp.2.1]
    simp only [hstep]
    exact ih { s with body := s.body ++ c } (pending_with_body s _ hp)
      (fun x hx => hpos x (List.mem_cons_of_mem _ hx))

theorem ServerAgent.onRequestBody_eof_rejected (srv : ServerAgent.AdminServer) (env : Env)
    (req : Request) (s : St) (message : String)
    (hj : env.jsonParse s.body = Except.error message) :
    ServerAgent.onRequestBody srv env req "" 0 s
      = ServerAgent.respondWith422 (s.emit (Event.jsonParse s.body)) message := by
  have h0 : ¬ ("".length > 0) := by decide
  simp only [ServerAgent.onRequestBody, h0, if_false, if_true]
  have : (s.emit (Event.jsonParse s.body)).body = s.body := rfl
  rw [this, hj]

theorem LoggingAgent.logging_onRequestBody_eof_rejected (env : Env) (s : St)
    (message : String) (hj : env.jsonParse s.body = Except.error message) :
    LoggingAgent.onRequestBody env "" 0 s
      = LoggingAgent.respondWith422 (s.emit (Event.jsonParse s.body)) message := by
  have h0 : ¬ ("".length > 0) := by decide
  simp only [LoggingAgent.onRequestBody, h0, if_false, if_true]
  have : (s.emit (Event.jsonParse s.body)).body = s.body := rfl
  rw [this, hj]

/-- C10. For every request that the header phase of an admin server lets through
to the body phase (POST /pool/restart_app_group.json and POST
/pool/detach_process.json with modify-pool, PUT /config.json with the admin
capability), whose body arrives in nonempty chunks and then ends (and, in the
helper agent, stays within the ceiling): when the JSON parser rejects the
buffered body, the calls made for the request are exactly `authorize`, the
parser call, the 422 response carrying the parser's message, and the end of the
request. No pool call, no command to a worker and no change of the logging
state happens. -/
theorem invalid_json_answers_422
    (srvH : ServerAgent.AdminServer) (srvL : LoggingAgent.AdminServer) (env : Env)
    (req : Request) (chunks : List String)
    (logLevel : Int) (logFile fdLogFile : String) (hasFd : Bool) (message : String)
    (hpos : ∀ c ∈ chunks, 0 < c.length)
    (hparse : env.jsonParse (buffered "" chunks) = Except.error message) :
    (ServerAgent.acceptsBody srvH req = true →
      ServerAgent.bodyWithinCeiling req (buffered "" chunks) = true →
      (ServerAgent.processRequest srvH env req (bodyEvents chunks)
        (St.init logLevel logFile fdLogFile hasFd)).trace
        = Event.authorize :: Event.jsonParse (buffered "" chunks) :: unprocessableTrace message ∧
      (ServerAgent.processRequest srvH env req (bodyEvents chunks)
        (St.init logLevel logFile fdLogFile hasFd)).ended = true ∧
      (ServerAgent.processRequest srvH env req (bodyEvents chunks)
        (St.init logLevel logFile fdLogFile hasFd)).logLevel = logLevel ∧
      (ServerAgent.processRequest srvH env req (bodyEvents chunks)
        (St.init logLevel logFile fdLogFile hasFd)).logFile = logFile) ∧
    (LoggingAgent.acceptsBody srvL req = true →
      (LoggingAgent.processRequest srvL env req (bodyEvents chunks)
        (St.init logLevel logFile fdLogFile hasFd)).trace
        = Event.authorize :: Event.jsonParse (buffered "" chunks) :: unprocessableTrace message ∧
      (LoggingAgent.processRequest srvL env req (bodyEvents chunks)
        (St.init logLevel logFile fdLogFile hasFd)).ended = true ∧
      (LoggingAgent.processRequest srvL env req (bodyEvents chunks)
        (St.init logLevel logFile fdLogFile hasFd)).logLevel = logLevel ∧
      (LoggingAgent.processRequest srvL env req (bodyEvents chunks)
        (St.init logLevel logFile fdLogFile hasFd)).logFile = logFile) := by
  constructor
  · intro hacc hw
    obtain ⟨hp, ht, hb⟩ := ServerAgent.onRequestBegin_accepts srvH env req logLevel logFile
      fdLogFile hasFd hacc
    have hlog : (ServerAgent.onRequestBegin srvH env req
        (St.init logLevel logFile fdLogFile hasFd)).logLevel = logLevel ∧
        (ServerAgent.onRequestBegin srvH env req
        (St.init logLevel logFile fdLogFile hasFd)).logFile = logFile := by
      simp only [ServerAgent.acceptsBody] at hacc
      split_ifs at hacc with h1 h2
      · simp only [Bool.and_eq_true, decide_eq_true_eq, ServerAgent.bodyWithinCeiling,
          Bool.not_eq_true'] at hacc
        obtain ⟨⟨⟨hc, hm⟩, hbd⟩, hx⟩ := hacc
        have hx2 : ServerAgent.requestBodyExceedsLimit req
            ((St.init logLevel logFile fdLogFile hasFd).emit Event.authorize)
            ServerAgent.defaultLimit = false := by
          rw [← hx]
          exact ServerAgent.exceeds_congr req _ _ rfl
        rcases h1 with h1 | h1
        · rw [ServerAgent.onRequestBegin, ServerAgent.dispatch_restartAppGroup srvH env req _ h1]
          simp only [ServerAgent.processPoolRestartAppGroup, hc, hm, hbd, hx2, Bool.not_true,
            Bool.false_eq_true, if_false, ne_eq, not_true_eq_false]
          exact ⟨rfl, rfl⟩
        · rw [ServerAgent.onRequestBegin, ServerAgent.dispatch_detachProcess srvH env req _ h1]
          simp only [ServerAgent.processPoolDetachProcess, hc, hm, hbd, hx2, Bool.not_true,
            Bool.false_eq_true, if_false, ne_eq, not_true_eq_false]
          exact ⟨rfl, rfl⟩
      · simp only [Bool.and_eq_true, decide_eq_true_eq] at hacc
        obtain ⟨⟨hm, hc⟩, hbd⟩ := hacc
        rw [ServerAgent.onRequestBegin, ServerAgent.dispatch_config srvH env req _ h2]
        simp only [ServerAgent.processConfig, hm, hc, hbd, reduceCtorEq, if_false, if_true,
          Bool.not_true, Bool.false_eq_true]
        exact ⟨rfl, rfl⟩
    have hw2 : ServerAgent.bodyWithinCeiling req (buffered (ServerAgent.onRequestBegin srvH env
        req (St.init logLevel logFile fdLogFile hasFd)).body chunks) = true := by
      rw [hb]; exact hw
    have hpend2 : St.Pending { ServerAgent.onRequestBegin srvH env req
        (St.init logLevel logFile fdLogFile hasFd) with body := buffered "" chunks } :=
      pending_with_body _ _ hp
    obtain ⟨r1, r2, r3⟩ := respond_on_pending
      (St.emit { ServerAgent.onRequestBegin srvH env req
        (St.init logLevel logFile fdLogFile hasFd) with body := buffered "" chunks }
        (Event.jsonParse (buffered "" chunks))) 422
      [("Cache-Control", "no-cache, no-store, must-revalidate"),
       ("Content-Type", "text/plain; charset=utf-8")]
      (Body.text message) (pending_emit_jsonParse_plain _ hpend2)
    rw [ServerAgent.processRequest, bodyEvents,
      ServerAgent.deliverBody_chunks srvH env req chunks _ _ hp hpos hw2, hb,
      ServerAgent.deliverBody_open srvH env req _ _ _ hpend2.1 hpend2.2.1,
      ServerAgent.onRequestBody_eof_rejected srvH env req _ message hparse,
      ServerAgent.respondWith422]
    simp only [ServerAgent.deliverBody]
    refine ⟨?_, r1.1, ?_, ?_⟩
    · rw [r2]
      simp [St.emit, ht, unprocessableTrace]
    · simp [endRequestUnlessEnded, writeSimpleResponse, endRequest, St.emit, hpend2.1, hlog.1]
    · simp [endRequestUnlessEnded, writeSimpleResponse, endRequest, St.emit, hpend2.1, hlog.2]
  · intro hacc
    obtain ⟨hp, ht, hb⟩ := LoggingAgent.logging_onRequestBegin_accepts srvL env req logLevel
      logFile fdLogFile hasFd hacc
    have hlog : (LoggingAgent.onRequestBegin srvL env req
        (St.init logLevel logFile fdLogFile hasFd)).logLevel = logLevel ∧
        (LoggingAgent.onRequestBegin srvL env req
        (St.init logLevel logFile fdLogFile hasFd)).logFile = logFile := by
      simp only [LoggingAgent.acceptsBody, Bool.and_eq_true, decide_eq_true_eq] at hacc
      obtain ⟨⟨⟨hpa, hm⟩, hc⟩, hbd⟩ := hacc
      simp only [LoggingAgent.onRequestBegin, LoggingAgent.dispatch, hpa, String.reduceEq,
        if_false, if_true, LoggingAgent.processConfig, hm, hc, hbd, reduceCtorEq,
        Bool.not_true, Bool.false_eq_true]
      exact ⟨rfl, rfl⟩
    have hpend2 : St.Pending { LoggingAgent.onRequestBegin srvL env req
        (St.init logLevel logFile fdLogFile hasFd) with body := buffered "" chunks } :=
      pending_with_body _ _ hp
    obtain ⟨r1, r2, r3⟩ := respond_on_pending
      (St.emit { LoggingAgent.onRequestBegin srvL env req
        (St.init logLevel logFile fdLogFile hasFd) with body := buffered "" chunks }
        (Event.jsonParse (buffered "" chunks))) 422
      [("Cache-Control", "no-cache, no-store, must-revalidate"),
       ("Content-Type", "text/plain; charset=utf-8")]
      (Body.text message) (pending_emit_jsonParse_plain _ hpend2)
    rw [LoggingAgent.processRequest, bodyEvents,
      LoggingAgent.logging_deliverBody_chunks env chunks _ _ hp hpos, hb,
      LoggingAgent.logging_deliverBody_open env _ _ _ hpend2.1 hpend2.2.1,
      LoggingAgent.logging_onRequestBody_eof_rejected env _ message hparse,
      LoggingAgent.respondWith422]
    simp only [LoggingAgent.deliverBody]
    refine ⟨?_, r1.1, ?_, ?_⟩
    · rw [r2]
      simp [St.emit, ht, unprocessableTrace]
    · simp [endRequestUnlessEnded, writeSimpleResponse, endRequest, St.emit, hpend2.1, hlog.1]
    · simp [endRequestUnlessEnded, writeSimpleResponse, endRequest, St.emit, hpend2.1, hlog.2]

/-- Witness of C10: the body `oops`, in the chunks `oo` and `ps`, sent to POST
/pool/restart_app_group.json of the helper agent and to PUT /config.json of the
logging agent. -/
theorem invalid_json_answers_422_witness :
    ((ServerAgent.processRequest (ServerAgent.sampleServer Authorization.full)
        (sampleEnv sampleWatchdog)
        (sampleChunkedRequest HttpMethod.HTTP_POST "/pool/restart_app_group.json")
        (bodyEvents ["oo", "ps"]) (St.init 0 "" "" false)).trace
        = Event.authorize :: Event.jsonParse (buffered "" ["oo", "ps"])
            :: unprocessableTrace "Syntax error" ∧
      (ServerAgent.processRequest (ServerAgent.sampleServer Authorization.full)
        (sampleEnv sampleWatchdog)
        (sampleChunkedRequest HttpMethod.HTTP_POST "/pool/restart_app_group.json")
        (bodyEvents ["oo", "ps"]) (St.init 0 "" "" false)).ended = true ∧
      (ServerAgent.processRequest (ServerAgent.sampleServer Authorization.full)
        (sampleEnv sampleWatchdog)
        (sampleChunkedRequest HttpMethod.HTTP_POST "/pool/restart_app_group.json")
        (bodyEvents ["oo", "ps"]) (St.init 0 "" "" false)).logLevel = 0 ∧
      (ServerAgent.processRequest (ServerAgent.sampleServer Authorization.full)
        (sampleEnv sampleWatchdog)
        (sampleChunkedRequest HttpMethod.HTTP_POST "/pool/restart_app_group.json")
        (bodyEvents ["oo", "ps"]) (St.init 0 "" "" false)).logFile = "") ∧
    ((LoggingAgent.processRequest (LoggingAgent.sampleServer Authorization.full)
        (sampleEnv sampleWatchdog) (sampleChunkedRequest HttpMethod.HTTP_PUT "/config.json")
        (bodyEvents ["oo", "ps"]) (St.init 0 "" "" false)).trace
        = Event.authorize :: Event.jsonParse (buffered "" ["oo", "ps"])
            :: unprocessableTrace "Syntax error" ∧
      (LoggingAgent.processRequest (LoggingAgent.sampleServer Authorization.full)
        (sampleEnv sampleWatchdog) (sampleChunkedRequest HttpMethod.HTTP_PUT "/config.json")
        (bodyEvents ["oo", "ps"]) (St.init 0 "" "" false)).ended = true ∧
      (LoggingAgent.processRequest (LoggingAgent.sampleServer Authorization.full)
        (sampleEnv sampleWatchdog) (sampleChunkedRequest HttpMethod.HTTP_PUT "/config.json")
        (bodyEvents ["oo", "ps"]) (St.init 0 "" "" false)).logLevel = 0 ∧
      (LoggingAgent.processRequest (LoggingAgent.sampleServer Authorization.full)
        (sampleEnv sampleWatchdog) (sampleChunkedRequest HttpMethod.HTTP_PUT "/config.json")
        (bodyEvents ["oo", "ps"]) (St.init 0 "" "" false)).logFile = "") :=
  ⟨(invalid_json_answers_422 (ServerAgent.sampleServer Authorization.full)
      (LoggingAgent.sampleServer Authorization.full) (sampleEnv sampleWatchdog)
      (sampleChunkedRequest HttpMethod.HTTP_POST "/pool/restart_app_group.json")
      ["oo", "ps"] 0 "" "" false "Syntax error" (by decide) rfl).1 (by decide) (by decide),
   (invalid_json_answers_422 (ServerAgent.sampleServer Authorization.full)
      (LoggingAgent.sampleServer Authorization.full) (sampleEnv sampleWatchdog)
      (sampleChunkedRequest HttpMethod.HTTP_PUT "/config.json")
      ["oo", "ps"] 0 "" "" false "Syntax error" (by decide) rfl).2 (by decide)⟩

/-! ### The log file handoff -/

theorem LoggingAgent.logging_readHeaderLines_eq (lines : List String) (logFilePath : String)
    (s : St) :
    LoggingAgent.readHeaderLines lines logFilePath s
      = ServerAgent.readHeaderLines lines logFilePath s := by
  induction lines generalizing logFilePath s with
  | nil => rfl
  | cons response rest ih =>
    simp only [LoggingAgent.readHeaderLines, ServerAgent.readHeaderLines, ih]

theorem LoggingAgent.logging_exchange_eq (env : Env) (s : St) :
    LoggingAgent.processReinheritLogsExchange env s
      = ServerAgent.processReinheritLogsExchange env s := by
  simp only [LoggingAgent.processReinheritLogsExchange, ServerAgent.processReinheritLogsExchange,
    LoggingAgent.logging_readHeaderLines_eq, LoggingAgent.reinheritHeaders,
    ServerAgent.reinheritHeaders]

theorem ServerAgent.readHeaderLines_snd (lines : List String) (logFilePath : String) (s : St) :
    ∃ k, (ServerAgent.readHeaderLines lines logFilePath s).2
      = { s with trace := s.trace ++ List.replicate (k + 1) Event.readLine } := by
  induction lines generalizing logFilePath s with
  | nil => exact ⟨0, rfl⟩
  | cons response rest ih =>
    simp only [ServerAgent.readHeaderLines]
    split_ifs
    · exact ⟨0, rfl⟩
    · exact ⟨0, rfl⟩
    · obtain ⟨k, hk⟩ := ih (eraseFront response "filename: ".length) (s.emit Event.readLine)
      exact ⟨k + 1, by rw [hk]; simp [St.emit, List.replicate_succ]⟩
    · obtain ⟨k, hk⟩ := ih logFilePath (s.emit Event.readLine)
      exact ⟨k + 1, by rw [hk]; simp [St.emit, List.replicate_succ]⟩

theorem isEmpty_eq (str : String) (h : str.isEmpty = true) : str = "" := by
  have hlen : str.length = 0 := by
    by_contra hc
    have : str.utf8ByteSize ≠ 0 := by
      cases str with
      | mk data => cases data with
        | nil => simp at hc
        | cons c cs =>
          simp only [String.utf8ByteSize, String.utf8ByteSize.go]
          have := Char.utf8Size_pos c
          omega
    apply this
    simpa [String.isEmpty, String.endPos, String.Pos.ext_iff] using h
  exact String.ext (List.eq_nil_of_length_eq_zero hlen)

theorem ServerAgent.readHeaderLines_eof (lines : List String) (logFilePath : String) (s : St)
    (h : (lines.takeWhile (fun l => l != "")).contains "\r\n" = false) :
    (ServerAgent.readHeaderLines lines logFilePath s).1 = Option.none := by
  induction lines generalizing logFilePath s with
  | nil => rfl
  | cons response rest ih =>
    simp only [ServerAgent.readHeaderLines]
    by_cases h1 : response.isEmpty = true
    · simp [h1]
    · have h1' : response ≠ "" := by
        intro hc; apply h1; rw [hc]; rfl
      have hne : (response != "") = true := by simpa using h1'
      rw [List.takeWhile_cons, if_pos hne] at h
      simp only [List.contains_cons, Bool.or_eq_false_iff] at h
      have h2 : response ≠ "\r\n" := by
        intro hc; rw [hc] at h; simp at h
      rw [if_neg h1, if_neg h2]
      split_ifs
      · exact ih _ _ h.2
      · exact ih _ _ h.2

theorem ServerAgent.readHeaderLines_uncaptured (lines : List String) (logFilePath : String)
    (s : St)
    (h : (lines.takeWhile (fun l => l != "")).contains "\r\n" = true)
    (hn : (lines.takeWhile (fun l => l != "\r\n")).all (fun l => !capturesFilename l) = true) :
    (ServerAgent.readHeaderLines lines logFilePath s).1 = some logFilePath := by
  induction lines generalizing logFilePath s with
  | nil => simp at h
  | cons response rest ih =>
    simp only [ServerAgent.readHeaderLines]
    by_cases h1 : response.isEmpty = true
    · have : response = "" := isEmpty_eq response h1
      rw [this] at h
      simp at h
    · rw [if_neg h1]
      by_cases h2 : response = "\r\n"
      · rw [if_pos h2]
      · rw [if_neg h2]
        have h1' : response ≠ "" := by
          intro hc; apply h1; rw [hc]; rfl
        have hne : (response != "") = true := by simpa using h1'
        have hne2 : (response != "\r\n") = true := by simpa using h2
        rw [List.takeWhile_cons, if_pos hne] at h
        rw [List.takeWhile_cons, if_pos hne2] at hn
        simp only [List.contains_cons, Bool.or_eq_true] at h
        simp only [List.all_cons, Bool.and_eq_true, Bool.not_eq_true', capturesFilename] at hn
        have hrest : (rest.takeWhile (fun l => l != "")).contains "\r\n" = true := by
          rcases h with h | h
          · exact absurd (by simpa using h) (Ne.symm h2)
          · exact h
        rw [if_neg (by simp [hn.1])]
        exact ih _ _ hrest hn.2

theorem ServerAgent.exchange_of_failure (env : Env) (s : St) (detail : String)
    (h : headerExchangeFailure env.watchdog.lines = some detail) :
    ∃ k, ServerAgent.processReinheritLogsExchange env s
      = endRequestUnlessEnded (writeSimpleResponse
          { s with trace := s.trace ++ List.replicate (k + 1) Event.readLine ++
              [Event.watchdogClose] }
          500 ServerAgent.reinheritHeaders (Body.text (inheritErrorBody detail))) := by
  simp only [headerExchangeFailure] at h
  split_ifs at h with h1 h2 h3
  · simp only [Option.some.injEq] at h
    subst h
    exact ⟨0, by simp only [ServerAgent.processReinheritLogsExchange, if_pos h1]; rfl⟩
  · simp only [Option.some.injEq] at h
    subst h
    obtain ⟨k, hk⟩ := ServerAgent.readHeaderLines_snd env.watchdog.lines.tail ""
      (s.emit Event.readLine)
    have h0 := ServerAgent.readHeaderLines_eof env.watchdog.lines.tail ""
      (s.emit Event.readLine) (by simpa using h2)
    refine ⟨k + 1, ?_⟩
    simp only [ServerAgent.processReinheritLogsExchange, if_neg h1]
    rw [show ServerAgent.readHeaderLines env.watchdog.lines.tail "" (s.emit Event.readLine)
      = (Option.none, _) from Prod.ext h0 hk]
    simp only [St.emit, List.append_assoc, List.singleton_append, ← List.replicate_succ]
    rfl
  · simp only [Option.some.injEq] at h
    subst h
    obtain ⟨k, hk⟩ := ServerAgent.readHeaderLines_snd env.watchdog.lines.tail ""
      (s.emit Event.readLine)
    have h0 := ServerAgent.readHeaderLines_uncaptured env.watchdog.lines.tail ""
      (s.emit Event.readLine) (by simpa using h2) h3
    refine ⟨k + 1, ?_⟩
    simp only [ServerAgent.processReinheritLogsExchange, if_neg h1]
    rw [show ServerAgent.readHeaderLines env.watchdog.lines.tail "" (s.emit Event.readLine)
      = (some "", _) from Prod.ext h0 hk]
    simp only [St.emit, List.append_assoc, List.singleton_append, ← List.replicate_succ]
    rfl

theorem ServerAgent.onRequestBegin_asksWatchdog (srv : ServerAgent.AdminServer) (env : Env)
    (req : Request) (s : St) (h : ServerAgent.asksWatchdog srv req = true)
    (hconnect : env.watchdog.connect = Option.none)
    (hwrite : env.watchdog.write = Option.none) :
    ServerAgent.onRequestBegin srv env req s
      = ServerAgent.catchInRequestBegin (ServerAgent.processReinheritLogsExchange env
          { s with trace := s.trace ++ handoffPrelude srv.instanceDir srv.fdPassingPassword }) := by
  simp only [ServerAgent.asksWatchdog, Bool.and_eq_true, decide_eq_true_eq,
    Bool.not_eq_true'] at h
  obtain ⟨⟨⟨⟨hp, hm⟩, ha⟩, hi⟩, hf⟩ := h
  rw [ServerAgent.onRequestBegin, ServerAgent.dispatch_reinheritLogs _ _ _ _ hp]
  simp [ServerAgent.processReinheritLogs, hm, ha, hi, hf, hconnect, hwrite, St.emit,
    handoffPrelude]

theorem LoggingAgent.logging_onRequestBegin_asksWatchdog (srv : LoggingAgent.AdminServer)
    (env : Env) (req : Request) (s : St) (h : LoggingAgent.asksWatchdog srv req = true)
    (hconnect : env.watchdog.connect = Option.none)
    (hwrite : env.watchdog.write = Option.none) :
    LoggingAgent.onRequestBegin srv env req s
      = ServerAgent.catchInRequestBegin (ServerAgent.processReinheritLogsExchange env
          { s with trace := s.trace ++ handoffPrelude srv.instanceDir srv.fdPassingPassword }) := by
  simp only [LoggingAgent.asksWatchdog, Bool.and_eq_true, decide_eq_true_eq,
    Bool.not_eq_true'] at h
  obtain ⟨⟨⟨⟨hp, hm⟩, ha⟩, hi⟩, hf⟩ := h
  have hc : ∀ t, LoggingAgent.catchInRequestBegin t = ServerAgent.catchInRequestBegin t :=
    fun t => rfl
  rw [LoggingAgent.onRequestBegin, hc]
  simp [LoggingAgent.dispatch, LoggingAgent.processReinheritLogs, hp, hm, ha, hi, hf, hconnect,
    hwrite, St.emit, handoffPrelude, LoggingAgent.logging_exchange_eq]

theorem failed_exchange_run (env : Env) (detail instanceDir fdPassingPassword : String)
    (logLevel : Int) (logFile fdLogFile : String) (hasFd : Bool)
    (h : headerExchangeFailure env.watchdog.lines = some detail) :
    ∃ k, ServerAgent.catchInRequestBegin (ServerAgent.processReinheritLogsExchange env
        { St.init logLevel logFile fdLogFile hasFd with
          trace := (St.init logLevel logFile fdLogFile hasFd).trace ++
            handoffPrelude instanceDir fdPassingPassword })
      = { St.init logLevel logFile fdLogFile hasFd with
          trace := handoffPrelude instanceDir fdPassingPassword ++
            List.replicate (k + 1) Event.readLine ++
            [Event.watchdogClose,
             Event.writeSimpleResponse 500 ServerAgent.reinheritHeaders
               (Body.text (inheritErrorBody detail)),
             Event.endRequest],
          ended := true } := by
  obtain ⟨k, hk⟩ := ServerAgent.exchange_of_failure env
    { St.init logLevel logFile fdLogFile hasFd with
      trace := (St.init logLevel logFile fdLogFile hasFd).trace ++
        handoffPrelude instanceDir fdPassingPassword } detail h
  refine ⟨k, ?_⟩
  rw [hk]
  simp [ServerAgent.catchInRequestBegin, endRequestUnlessEnded, writeSimpleResponse, endRequest,
    St.emit, St.init]

theorem responses_readLines (n : Nat) : responses (List.replicate n Event.readLine) = [] := by
  induction n with
  | zero => rfl
  | succ n ih => rw [List.replicate_succ, ← List.singleton_append, responses_append, ih]; rfl

theorem all_readLines (n : Nat) (p : Event → Bool) (h : p Event.readLine = true) :
    (List.replicate n Event.readLine).all p = true := by
  induction n with
  | zero => rfl
  | succ n ih => rw [List.replicate_succ, List.all_cons, h, ih]; rfl

theorem failed_exchange_facts (detail instanceDir fdPassingPassword : String) (k : Nat)
    (logLevel : Int) (logFile fdLogFile : String) (hasFd : Bool) (s : St)
    (hs : s = { St.init logLevel logFile fdLogFile hasFd with
          trace := handoffPrelude instanceDir fdPassingPassword ++
            List.replicate (k + 1) Event.readLine ++
            [Event.watchdogClose,
             Event.writeSimpleResponse 500 ServerAgent.reinheritHeaders
               (Body.text (inheritErrorBody detail)),
             Event.endRequest],
          ended := true }) :
    responses s.trace
        = [(500, ServerAgent.reinheritHeaders, Body.text (inheritErrorBody detail))] ∧
      s.trace.all (fun e => !e.isDescriptorTransfer) = true ∧
      s.SinkUntouched logFile fdLogFile hasFd ∧ s.ended = true := by
  subst hs
  refine ⟨?_, ?_, ⟨?_, rfl, rfl, rfl⟩, rfl⟩
  · simp only [responses_append, responses_readLines]
    rfl
  · rw [List.all_append, List.all_append,
      all_readLines _ (fun e => !e.isDescriptorTransfer) rfl]
    rfl
  · rw [List.all_append, List.all_append,
      all_readLines _ (fun e => !e.isLogSinkChange) rfl]
    rfl

/-- C11. `processReinheritLogs` of either agent, once the watchdog is connected
and the request written: when the reply fails the header exchange (the status
line is not exactly `HTTP/1.1 200 OK`, or the reply ends before the blank line,
or the blank line comes with no file name captured), the one response written is
500 with the code `INHERIT_ERROR`, no descriptor transfer is attempted, no call
sets the log file, the logging state is as before, and the request is ended. -/
theorem failed_header_exchange_answers_500
    (srvH : ServerAgent.AdminServer) (srvL : LoggingAgent.AdminServer) (env : Env)
    (req : Request) (detail : String)
    (logLevel : Int) (logFile fdLogFile : String) (hasFd : Bool)
    (hconnect : env.watchdog.connect = Option.none)
    (hwrite : env.watchdog.write = Option.none)
    (hfail : headerExchangeFailure env.watchdog.lines = some detail) :
    (ServerAgent.asksWatchdog srvH req = true →
      responses (ServerAgent.onRequestBegin srvH env req
          (St.init logLevel logFile fdLogFile hasFd)).trace
        = [(500, ServerAgent.reinheritHeaders, Body.text (inheritErrorBody detail))] ∧
      (ServerAgent.onRequestBegin srvH env req
          (St.init logLevel logFile fdLogFile hasFd)).trace.all
        (fun e => !e.isDescriptorTransfer) = true ∧
      (ServerAgent.onRequestBegin srvH env req
          (St.init logLevel logFile fdLogFile hasFd)).SinkUntouched logFile fdLogFile hasFd ∧
      (ServerAgent.onRequestBegin srvH env req
          (St.init logLevel logFile fdLogFile hasFd)).ended = true) ∧
    (LoggingAgent.asksWatchdog srvL req = true →
      responses (LoggingAgent.onRequestBegin srvL env req
          (St.init logLevel logFile fdLogFile hasFd)).trace
        = [(500, ServerAgent.reinheritHeaders, Body.text (inheritErrorBody detail))] ∧
      (LoggingAgent.onRequestBegin srvL env req
          (St.init logLevel logFile fdLogFile hasFd)).trace.all
        (fun e => !e.isDescriptorTransfer) = true ∧
      (LoggingAgent.onRequestBegin srvL env req
          (St.init logLevel logFile fdLogFile hasFd)).SinkUntouched logFile fdLogFile hasFd ∧
      (LoggingAgent.onRequestBegin srvL env req
          (St.init logLevel logFile fdLogFile hasFd)).ended = true) := by
  constructor
  · intro h
    obtain ⟨k, hk⟩ := failed_exchange_run env detail srvH.instanceDir srvH.fdPassingPassword
      logLevel logFile fdLogFile hasFd hfail
    rw [ServerAgent.onRequestBegin_asksWatchdog srvH env req _ h hconnect hwrite]
    exact failed_exchange_facts detail _ _ k logLevel logFile fdLogFile hasFd _ hk
  · intro h
    obtain ⟨k, hk⟩ := failed_exchange_run env detail srvL.instanceDir srvL.fdPassingPassword
      logLevel logFile fdLogFile hasFd hfail
    rw [LoggingAgent.logging_onRequestBegin_asksWatchdog srvL env req _ h hconnect hwrite]
    exact failed_exchange_facts detail _ _ k logLevel logFile fdLogFile hasFd _ hk

/-- Witness of C11: the watchdog answers `HTTP/1.1 404 Not Found` to an authorized
POST /reinherit_logs.json, on the helper agent. -/
theorem failed_header_exchange_answers_500_witness :
    responses (ServerAgent.onRequestBegin (ServerAgent.sampleServer Authorization.full)
        (sampleEnv notFoundWatchdog) (sampleRequest HttpMethod.HTTP_POST "/reinherit_logs.json")
        (St.init 0 "/var/log/old.log" "" false)).trace
      = [(500, ServerAgent.reinheritHeaders, Body.text (inheritErrorBody "non-200 response"))] ∧
    (ServerAgent.onRequestBegin (ServerAgent.sampleServer Authorization.full)
        (sampleEnv notFoundWatchdog) (sampleRequest HttpMethod.HTTP_POST "/reinherit_logs.json")
        (St.init 0 "/var/log/old.log" "" false)).trace.all
      (fun e => !e.isDescriptorTransfer) = true ∧
    (ServerAgent.onRequestBegin (ServerAgent.sampleServer Authorization.full)
        (sampleEnv notFoundWatchdog) (sampleRequest HttpMethod.HTTP_POST "/reinherit_logs.json")
        (St.init 0 "/var/log/old.log" "" false)).SinkUntouched "/var/log/old.log" "" false ∧
    (ServerAgent.onRequestBegin (ServerAgent.sampleServer Authorization.full)
        (sampleEnv notFoundWatchdog) (sampleRequest HttpMethod.HTTP_POST "/reinherit_logs.json")
        (St.init 0 "/var/log/old.log" "" false)).ended = true :=
  (failed_header_exchange_answers_500 (ServerAgent.sampleServer Authorization.full)
    (LoggingAgent.sampleServer Authorization.full) (sampleEnv notFoundWatchdog)
    (sampleRequest HttpMethod.HTTP_POST "/reinherit_logs.json") "non-200 response"
    0 "/var/log/old.log" "" false rfl rfl (by decide)).1 (by decide)

theorem ServerAgent.readHeaderLines_block (hdrs rest : List String) (logFilePath : String)
    (s : St) (hh : ∀ h ∈ hdrs, h.isEmpty = false ∧ h ≠ "\r\n") :
    ServerAgent.readHeaderLines (hdrs ++ "\r\n" :: rest) logFilePath s
      = (some (capturedPath hdrs logFilePath),
          { s with trace := s.trace ++ List.replicate (hdrs.length + 1) Event.readLine }) := by
  induction hdrs generalizing logFilePath s with
  | nil =>
    simp [ServerAgent.readHeaderLines, capturedPath, St.emit,
      (by decide : "\r\n".isEmpty = false)]
  | cons h hdrs ih =>
    have h1 := (hh h (List.mem_cons_self _ _)).1
    have h2 := (hh h (List.mem_cons_self _ _)).2
    have ih' := fun p t => ih p t (fun x hx => hh x (List.mem_cons_of_mem _ hx))
    rw [List.cons_append, ServerAgent.readHeaderLines]
    simp only [h1, Bool.false_eq_true, if_false, if_neg h2]
    by_cases hc : capturesFilename h = true
    · have hc' : (startsWith h "filename: " || startsWith h "Filename: ") = true := hc
      rw [if_pos hc', ih']
      simp [capturedPath, hc, St.emit, List.replicate_succ]
    · have hc' : ¬ (startsWith h "filename: " || startsWith h "Filename: ") = true := hc
      rw [if_neg hc', ih']
      simp [capturedPath, hc, St.emit, List.replicate_succ]

theorem ServerAgent.exchange_of_block (env : Env) (s : St) (hdrs rest : List String)
    (hl : env.watchdog.lines = "HTTP/1.1 200 OK\r\n" :: hdrs ++ "\r\n" :: rest)
    (hh : ∀ h ∈ hdrs, h.isEmpty = false ∧ h ≠ "\r\n") :
    ServerAgent.processReinheritLogsExchange env s
      = if (capturedPath hdrs "").isEmpty then
          endRequestUnlessEnded (writeSimpleResponse
            { s with trace := s.trace ++ List.replicate (hdrs.length + 2) Event.readLine ++
                [Event.watchdogClose] }
            500 ServerAgent.reinheritHeaders
            (Body.text (inheritErrorBody "no log filename received in response")))
        else
          match env.watchdog.transfer with
          | Except.error e =>
            { s with
              trace := s.trace ++ List.replicate (hdrs.length + 2) Event.readLine ++
                [Event.readFileDescriptorWithNegotiation 1000000],
              thrown := some e }
          | Except.ok fd =>
            endRequestUnlessEnded
              { s with
                trace := s.trace ++ List.replicate (hdrs.length + 2) Event.readLine ++
                  [Event.readFileDescriptorWithNegotiation 1000000,
                   Event.setLogFileWithFd (capturedPath hdrs "") fd,
                   Event.safelyClose fd, Event.watchdogClose,
                   Event.writeSimpleResponse 200 ServerAgent.reinheritHeaders
                     (Body.text (statusOk ++ "\n"))],
                logFile := capturedPath hdrs "" } := by
  have hd : env.watchdog.lines.headD "" = "HTTP/1.1 200 OK\r\n" := by rw [hl]; rfl
  have ht : env.watchdog.lines.tail = hdrs ++ "\r\n" :: rest := by rw [hl]; rfl
  simp only [ServerAgent.processReinheritLogsExchange, hd, ht, ne_eq, not_true_eq_false,
    if_false]
  rw [ServerAgent.readHeaderLines_block hdrs rest "" _ hh]
  simp only [St.emit, List.append_assoc, List.singleton_append, ← List.replicate_succ]
  split_ifs with hc
  · rfl
  · cases env.watchdog.transfer with
    | error e => simp [St.throw, St.emit, List.replicate_succ]
    | ok fd =>
      simp [setLogFileWithFd, writeSimpleResponse, St.emit, List.replicate_succ]

theorem isEmpty_false_of_length (str : String) (h : 0 < str.length) : str.isEmpty = false := by
  cases hE : str.isEmpty with
  | false => rfl
  | true =>
    rw [isEmpty_eq str hE] at h
    exact absurd h (by decide)

theorem filenameLine_facts (name P : String) (hn : name.length = 10) :
    (name ++ P ++ "\r\n").isEmpty = false ∧ name ++ P ++ "\r\n" ≠ "\r\n" ∧
      startsWith (name ++ P ++ "\r\n") name = true ∧
      eraseFront (name ++ P ++ "\r\n") "filename: ".length = P ++ "\r\n" := by
  refine ⟨?_, ?_, ?_, ?_⟩
  · apply isEmpty_false_of_length
    simp only [String.length_append]
    omega
  · intro hc
    have := congrArg String.length hc
    simp only [String.length_append, hn] at this
    have h2 : "\r\n".length = 2 := by decide
    omega
  · simp only [startsWith, String.data_append, List.append_assoc]
    exact List.isPrefixOf_iff_prefix.mpr (List.prefix_append _ _)
  · apply String.ext
    have h10 : "filename: ".length = 10 := by decide
    simp only [eraseFront, h10, String.data_append, List.append_assoc]
    exact List.drop_left' hn

theorem append_line_ending_ne (P : String) : P ++ "\r\n" ≠ P := by
  intro hc
  have := congrArg String.length hc
  simp only [String.length_append] at this
  have h2 : "\r\n".length = 2 := by decide
  omega

theorem capturedPath_filenameLine (P : String) :
    capturedPath ["filename: " ++ P ++ "\r\n"] "" = P ++ "\r\n" := by
  have h := filenameLine_facts "filename: " P (by decide)
  simp only [capturedPath, List.foldl_cons, List.foldl_nil, capturesFilename, h.2.2.1,
    Bool.true_or, if_true, h.2.2.2]

theorem handoff_run_filenameLine (P instanceDir fdPassingPassword : String) (d : Int)
    (logLevel : Int) (logFile fdLogFile : String) (hasFd : Bool) :
    ServerAgent.catchInRequestBegin (ServerAgent.processReinheritLogsExchange
        (sampleEnv (headerWatchdog ["filename: " ++ P ++ "\r\n"] d))
        { St.init logLevel logFile fdLogFile hasFd with
          trace := (St.init logLevel logFile fdLogFile hasFd).trace ++
            handoffPrelude instanceDir fdPassingPassword })
      = { St.init logLevel logFile fdLogFile hasFd with
          trace := handoffPrelude instanceDir fdPassingPassword ++
            handoffSuccess 3 (P ++ "\r\n") d,
          logFile := P ++ "\r\n", ended := true } := by
  have h := filenameLine_facts "filename: " P (by decide)
  have hne : (P ++ "\r\n").isEmpty = false := by
    apply isEmpty_false_of_length
    simp only [String.length_append]
    have h2 : "\r\n".length = 2 := by decide
    omega
  rw [ServerAgent.exchange_of_block _ _ ["filename: " ++ P ++ "\r\n"] [] rfl
    (by
      intro x hx
      rw [List.mem_singleton] at hx
      subst hx
      exact ⟨h.1, h.2.1⟩)]
  rw [capturedPath_filenameLine, hne]
  simp [sampleEnv, headerWatchdog, ServerAgent.catchInRequestBegin, endRequestUnlessEnded,
    endRequest, St.emit, St.init, handoffSuccess, List.replicate_succ]

/-- C12 (what the code does). An authorized POST /reinherit_logs.json to either
agent, the watchdog answering with the status line 200, the header line
`filename: P` ended by CR LF, the blank line and the descriptor `d`: the log sink
is installed exactly once with descriptor `d`, and the answer is 200 with status
ok, but the path installed is `P` followed by the CR LF that ends the header
line, never `P` itself. -/
theorem handoff_installs_path_with_line_ending (P : String) (d : Int) :
    (ServerAgent.onRequestBegin (ServerAgent.sampleServer Authorization.full)
        (sampleEnv (headerWatchdog ["filename: " ++ P ++ "\r\n"] d))
        (sampleRequest HttpMethod.HTTP_POST "/reinherit_logs.json")
        (St.init 0 "" "" false)).trace
      = handoffPrelude "/tmp/instance" "secret" ++ handoffSuccess 3 (P ++ "\r\n") d ∧
    (ServerAgent.onRequestBegin (ServerAgent.sampleServer Authorization.full)
        (sampleEnv (headerWatchdog ["filename: " ++ P ++ "\r\n"] d))
        (sampleRequest HttpMethod.HTTP_POST "/reinherit_logs.json")
        (St.init 0 "" "" false)).logFile = P ++ "\r\n" ∧
    (LoggingAgent.onRequestBegin (LoggingAgent.sampleServer Authorization.full)
        (sampleEnv (headerWatchdog ["filename: " ++ P ++ "\r\n"] d))
        (sampleRequest HttpMethod.HTTP_POST "/reinherit_logs.json")
        (St.init 0 "" "" false)).trace
      = handoffPrelude "/tmp/instance" "secret" ++ handoffSuccess 3 (P ++ "\r\n") d ∧
    (LoggingAgent.onRequestBegin (LoggingAgent.sampleServer Authorization.full)
        (sampleEnv (headerWatchdog ["filename: " ++ P ++ "\r\n"] d))
        (sampleRequest HttpMethod.HTTP_POST "/reinherit_logs.json")
        (St.init 0 "" "" false)).logFile = P ++ "\r\n" ∧
    P ++ "\r\n" ≠ P := by
  rw [ServerAgent.onRequestBegin_asksWatchdog _ _ _ _ (by decide) rfl rfl,
    LoggingAgent.logging_onRequestBegin_asksWatchdog _ _ _ _ (by decide) rfl rfl]
  have h := handoff_run_filenameLine P "/tmp/instance" "secret" d 0 "" "" false
  exact ⟨congrArg St.trace h, congrArg St.logFile h, congrArg St.trace h,
    congrArg St.logFile h, append_line_ending_ne P⟩

theorem gaveUpOn_of_thrown (e : Exn) (tr : List Event)
    (logLevel : Int) (logFile fdLogFile : String) (hasFd : Bool)
    (hr : responses tr = []) (hs : tr.all (fun e => !e.isLogSinkChange) = true) :
    (ServerAgent.catchInRequestBegin
      { St.init logLevel logFile fdLogFile hasFd with trace := tr, thrown := some e }).GaveUpOn
      e logFile fdLogFile hasFd := by
  cases ht : e.isTracable with
  | true =>
    have hres : ServerAgent.catchInRequestBegin
        { St.init logLevel logFile fdLogFile hasFd with trace := tr, thrown := some e }
        = { St.init logLevel logFile fdLogFile hasFd with
            trace := tr ++ [Event.SKC_ERROR] ++ [Event.endRequest], ended := true,
            wantKeepAlive := false } := by
      simp [ServerAgent.catchInRequestBegin, ht, endRequest, St.emit, St.init]
    rw [hres]
    refine ⟨?_, ⟨?_, rfl, rfl, rfl⟩, fun _ => ⟨rfl, rfl, rfl, ?_⟩, fun hc => ?_⟩
    · rw [responses_append, responses_append, hr]
      rfl
    · rw [List.all_append, List.all_append, hs]
      rfl
    · simp [Event.isCatch]
    · rw [ht] at hc
      cases hc
  | false =>
    have hres : ServerAgent.catchInRequestBegin
        { St.init logLevel logFile fdLogFile hasFd with trace := tr, thrown := some e }
        = { St.init logLevel logFile fdLogFile hasFd with trace := tr, thrown := some e } := by
      simp [ServerAgent.catchInRequestBegin, ht]
    rw [hres]
    refine ⟨hr, ⟨hs, rfl, rfl, rfl⟩, fun hc => ?_, fun _ => ⟨rfl, rfl⟩⟩
    rw [ht] at hc
    cases hc

theorem thrown_handoff_run (env : Env) (e : Exn) (instanceDir fdPassingPassword : String)
    (s : St) (h : env.watchdog.Throws e) :
    ∃ tr, responses tr = [] ∧ tr.all (fun e => !e.isLogSinkChange) = true ∧
      (match env.watchdog.connect with
        | some e =>
          ({ s with trace := s.trace ++ [Event.authorize,
              Event.connectToUnixServer (instanceDir ++ "/agents.s/watchdog")] } : St).throw e
        | Option.none =>
          match env.watchdog.write with
          | some e =>
            ({ s with trace := s.trace ++ handoffPrelude instanceDir fdPassingPassword }
              : St).throw e
          | Option.none => ServerAgent.processReinheritLogsExchange env
              { s with trace := s.trace ++ handoffPrelude instanceDir fdPassingPassword })
        = { s with trace := s.trace ++ tr, thrown := some e } := by
  rcases h with h | ⟨h1, h2⟩ | ⟨h1, h2, hdrs, rest, hl, hh, hc, ht⟩
  · exact ⟨[Event.authorize, Event.connectToUnixServer (instanceDir ++ "/agents.s/watchdog")],
      rfl, rfl, by rw [h]; rfl⟩
  · exact ⟨handoffPrelude instanceDir fdPassingPassword, rfl, rfl, by rw [h1, h2]; rfl⟩
  · refine ⟨handoffPrelude instanceDir fdPassingPassword ++
      List.replicate (hdrs.length + 2) Event.readLine ++
      [Event.readFileDescriptorWithNegotiation 1000000], ?_, ?_, ?_⟩
    · rw [responses_append, responses_append, responses_readLines]
      rfl
    · rw [List.all_append, List.all_append, all_readLines _ (fun e => !e.isLogSinkChange) rfl]
      rfl
    · rw [h1, h2]
      simp only []
      rw [ServerAgent.exchange_of_block env _ hdrs rest hl hh, hc, ht]
      simp

theorem ServerAgent.onRequestBegin_handoff (srv : ServerAgent.AdminServer) (env : Env)
    (req : Request) (s : St) (h : ServerAgent.asksWatchdog srv req = true) :
    ServerAgent.onRequestBegin srv env req s
      = ServerAgent.catchInRequestBegin
        (match env.watchdog.connect with
        | some e =>
          ({ s with trace := s.trace ++ [Event.authorize,
              Event.connectToUnixServer (srv.instanceDir ++ "/agents.s/watchdog")] } : St).throw e
        | Option.none =>
          match env.watchdog.write with
          | some e =>
            ({ s with trace := s.trace ++ handoffPrelude srv.instanceDir srv.fdPassingPassword }
              : St).throw e
          | Option.none => ServerAgent.processReinheritLogsExchange env
              { s with trace := s.trace ++ handoffPrelude srv.instanceDir srv.fdPassingPassword }) := by
  simp only [ServerAgent.asksWatchdog, Bool.and_eq_true, decide_eq_true_eq,
    Bool.not_eq_true'] at h
  obtain ⟨⟨⟨⟨hp, hm⟩, ha⟩, hi⟩, hf⟩ := h
  rw [ServerAgent.onRequestBegin, ServerAgent.dispatch_reinheritLogs _ _ _ _ hp]
  cases hc : env.watchdog.connect with
  | some e =>
    simp [ServerAgent.processReinheritLogs, hm, ha, hi, hf, hc, St.emit, St.throw]
  | none =>
    cases hw : env.watchdog.write with
    | some e =>
      simp [ServerAgent.processReinheritLogs, hm, ha, hi, hf, hc, hw, St.emit, St.throw,
        handoffPrelude]
    | none =>
      simp [ServerAgent.processReinheritLogs, hm, ha, hi, hf, hc, hw, St.emit, handoffPrelude]

theorem LoggingAgent.logging_onRequestBegin_handoff (srv : LoggingAgent.AdminServer) (env : Env)
    (req : Request) (s : St) (h : LoggingAgent.asksWatchdog srv req = true) :
    LoggingAgent.onRequestBegin srv env req s
      = ServerAgent.catchInRequestBegin
        (match env.watchdog.connect with
        | some e =>
          ({ s with trace := s.trace ++ [Event.authorize,
              Event.connectToUnixServer (srv.instanceDir ++ "/agents.s/watchdog")] } : St).throw e
        | Option.none =>
          match env.watchdog.write with
          | some e =>
            ({ s with trace := s.trace ++ handoffPrelude srv.instanceDir srv.fdPassingPassword }
              : St).throw e
          | Option.none => ServerAgent.processReinheritLogsExchange env
              { s with trace := s.trace ++ handoffPrelude srv.instanceDir srv.fdPassingPassword }) := by
  simp only [LoggingAgent.asksWatchdog, Bool.and_eq_true, decide_eq_true_eq,
    Bool.not_eq_true'] at h
  obtain ⟨⟨⟨⟨hp, hm⟩, ha⟩, hi⟩, hf⟩ := h
  have hcatch : ∀ t, LoggingAgent.catchInRequestBegin t = ServerAgent.catchInRequestBegin t :=
    fun t => rfl
  rw [LoggingAgent.onRequestBegin, hcatch]
  cases hc : env.watchdog.connect with
  | some e =>
    simp [LoggingAgent.dispatch, LoggingAgent.processReinheritLogs, hp, hm, ha, hi, hf, hc,
      St.emit, St.throw]
  | none =>
    cases hw : env.watchdog.write with
    | some e =>
      simp [LoggingAgent.dispatch, LoggingAgent.processReinheritLogs, hp, hm, ha, hi, hf, hc, hw,
        St.emit, St.throw, handoffPrelude]
    | none =>
      simp [LoggingAgent.dispatch, LoggingAgent.processReinheritLogs, hp, hm, ha, hi, hf, hc, hw,
        St.emit, handoffPrelude, LoggingAgent.logging_exchange_eq]

/-- Counterexample to C13: the watchdog answers with a file name and the
descriptor transfer then times out. The exception is caught by `onRequestBegin`,
which ends the request: no response at all is written, so no error status and
no error code reach the client. -/
theorem transfer_timeout_writes_no_response :
    (ServerAgent.onRequestBegin (ServerAgent.sampleServer Authorization.full)
        (sampleEnv stalledWatchdog) (sampleRequest HttpMethod.HTTP_POST "/reinherit_logs.json")
        (St.init 0 "" "" false)).trace
      = handoffPrelude "/tmp/instance" "secret" ++
          [Event.readLine, Event.readLine, Event.readLine,
           Event.readFileDescriptorWithNegotiation 1000000, Event.SKC_ERROR, Event.endRequest] ∧
    responses (ServerAgent.onRequestBegin (ServerAgent.sampleServer Authorization.full)
        (sampleEnv stalledWatchdog) (sampleRequest HttpMethod.HTTP_POST "/reinherit_logs.json")
        (St.init 0 "" "" false)).trace = [] ∧
    responses (LoggingAgent.onRequestBegin (LoggingAgent.sampleServer Authorization.full)
        (sampleEnv stalledWatchdog) (sampleRequest HttpMethod.HTTP_POST "/reinherit_logs.json")
        (St.init 0 "" "" false)).trace = [] := by
  refine ⟨?_, ?_, ?_⟩ <;> rfl

/-- C13 (amended). When the handoff of either agent fails because a collaborator
throws (connecting to the watchdog, writing the request, or receiving the
descriptor, which is given 1000000 microseconds), no response is written and the
log sink is left as it was: the `catch` block of `onRequestBegin` logs a
tracable exception and ends the request without keep-alive; any other exception
escapes. -/
theorem handoff_exception_writes_no_response
    (srvH : ServerAgent.AdminServer) (srvL : LoggingAgent.AdminServer) (env : Env)
    (req : Request) (e : Exn)
    (logLevel : Int) (logFile fdLogFile : String) (hasFd : Bool)
    (hthrow : env.watchdog.Throws e) :
    (ServerAgent.asksWatchdog srvH req = true →
      (ServerAgent.onRequestBegin srvH env req
        (St.init logLevel logFile fdLogFile hasFd)).GaveUpOn e logFile fdLogFile hasFd) ∧
    (LoggingAgent.asksWatchdog srvL req = true →
      (LoggingAgent.onRequestBegin srvL env req
        (St.init logLevel logFile fdLogFile hasFd)).GaveUpOn e logFile fdLogFile hasFd) := by
  constructor
  · intro h
    obtain ⟨tr, hr, hs, heq⟩ := thrown_handoff_run env e srvH.instanceDir
      srvH.fdPassingPassword (St.init logLevel logFile fdLogFile hasFd) hthrow
    rw [ServerAgent.onRequestBegin_handoff srvH env req _ h, heq]
    exact gaveUpOn_of_thrown e tr logLevel logFile fdLogFile hasFd hr hs
  · intro h
    obtain ⟨tr, hr, hs, heq⟩ := thrown_handoff_run env e srvL.instanceDir
      srvL.fdPassingPassword (St.init logLevel logFile fdLogFile hasFd) hthrow
    rw [LoggingAgent.logging_onRequestBegin_handoff srvL env req _ h, heq]
    exact gaveUpOn_of_thrown e tr logLevel logFile fdLogFile hasFd hr hs

/-- Witness of C13 (amended): the descriptor transfer times out on an authorized
POST /reinherit_logs.json to the logging agent. -/
theorem handoff_exception_writes_no_response_witness :
    (LoggingAgent.onRequestBegin (LoggingAgent.sampleServer Authorization.full)
      (sampleEnv stalledWatchdog) (sampleRequest HttpMethod.HTTP_POST "/reinherit_logs.json")
      (St.init 2 "/var/log/old.log" "" false)).GaveUpOn
      (Exn.tracable "Timeout receiving file descriptor") "/var/log/old.log" "" false :=
  (handoff_exception_writes_no_response (ServerAgent.sampleServer Authorization.full)
    (LoggingAgent.sampleServer Authorization.full) (sampleEnv stalledWatchdog)
    (sampleRequest HttpMethod.HTTP_POST "/reinherit_logs.json")
    (Exn.tracable "Timeout receiving file descriptor") 2 "/var/log/old.log" "" false
    (Or.inr (Or.inr ⟨rfl, rfl, ["filename: /var/log/passenger.log\r\n"], [], rfl,
      by decide, by decide, rfl⟩))).2 (by decide)

theorem single_header_run (env : Env) (h instanceDir fdPassingPassword : String) (d : Int)
    (logLevel : Int) (logFile fdLogFile : String) (hasFd : Bool)
    (hw : env.watchdog = headerWatchdog [h] d) (h1 : h.isEmpty = false) (h2 : h ≠ "\r\n") :
    ServerAgent.catchInRequestBegin (ServerAgent.processReinheritLogsExchange env
        { St.init logLevel logFile fdLogFile hasFd with
          trace := (St.init logLevel logFile fdLogFile hasFd).trace ++
            handoffPrelude instanceDir fdPassingPassword })
      = if (capturedPath [h] "").isEmpty then
          { St.init logLevel logFile fdLogFile hasFd with
            trace := handoffPrelude instanceDir fdPassingPassword ++
              handoffFailure 3 "no log filename received in response",
            ended := true }
        else
          { St.init logLevel logFile fdLogFile hasFd with
            trace := handoffPrelude instanceDir fdPassingPassword ++
              handoffSuccess 3 (capturedPath [h] "") d,
            logFile := capturedPath [h] "", ended := true } := by
  rw [ServerAgent.exchange_of_block env _ [h] [] (by rw [hw]; rfl)
    (by
      intro x hx
      rw [List.mem_singleton] at hx
      subst hx
      exact ⟨h1, h2⟩)]
  split_ifs with hc
  · simp [ServerAgent.catchInRequestBegin, endRequestUnlessEnded, writeSimpleResponse,
      endRequest, St.emit, St.init, handoffFailure, List.replicate_succ]
  · simp [hw, headerWatchdog, ServerAgent.catchInRequestBegin, endRequestUnlessEnded,
      endRequest, St.emit, St.init, handoffSuccess, List.replicate_succ]

theorem eraseFront_isEmpty (str : String) (n : Nat) (h : n < str.length) :
    (eraseFront str n).isEmpty = false := by
  apply isEmpty_false_of_length
  simp only [eraseFront, String.length, List.length_drop]
  simp only [String.length] at h
  omega

/-- Counterexample to C14: the only filename line of the reply is spelled
`FILENAME:`. The line is not recognised, and the handoff ends in the
missing-filename error. -/
theorem uppercase_filename_header_is_ignored :
    (ServerAgent.onRequestBegin (ServerAgent.sampleServer Authorization.full)
        (sampleEnv (headerWatchdog ["FILENAME: /var/log/passenger.log\r\n"] 7))
        (sampleRequest HttpMethod.HTTP_POST "/reinherit_logs.json")
        (St.init 0 "" "" false)).trace
      = handoffPrelude "/tmp/instance" "secret" ++
          handoffFailure 3 "no log filename received in response" ∧
    (LoggingAgent.onRequestBegin (LoggingAgent.sampleServer Authorization.full)
        (sampleEnv (headerWatchdog ["FILENAME: /var/log/passenger.log\r\n"] 7))
        (sampleRequest HttpMethod.HTTP_POST "/reinherit_logs.json")
        (St.init 0 "" "" false)).trace
      = handoffPrelude "/tmp/instance" "secret" ++
          handoffFailure 3 "no log filename received in response" := by
  constructor <;> rfl

theorem capturedPath_unrecognised (hdrs : List String) (logFilePath : String)
    (h : ∀ x ∈ hdrs, capturesFilename x = false) :
    capturedPath hdrs logFilePath = logFilePath := by
  induction hdrs generalizing logFilePath with
  | nil => rfl
  | cons x xs ih =>
    have hx : capturesFilename x = false := h x (List.mem_cons_self _ _)
    simp only [capturedPath, List.foldl_cons, hx, Bool.false_eq_true, if_false]
    exact ih logFilePath (fun y hy => h y (List.mem_cons_of_mem _ hy))

theorem capturedPath_recognised (hdrs : List String) (logFilePath : String)
    (h : ∃ x ∈ hdrs, capturesFilename x = true) :
    ∃ x ∈ hdrs, capturesFilename x = true ∧
      capturedPath hdrs logFilePath = eraseFront x "filename: ".length := by
  induction hdrs generalizing logFilePath with
  | nil =>
    obtain ⟨x, hx, _⟩ := h
    cases hx
  | cons x xs ih =>
    have hstep : ∀ p, capturedPath (x :: xs) p
        = capturedPath xs (if capturesFilename x then eraseFront x "filename: ".length
            else p) := fun p => rfl
    by_cases hxs : ∃ y ∈ xs, capturesFilename y = true
    · obtain ⟨y, hy, hc, he⟩ := ih
        (if capturesFilename x then eraseFront x "filename: ".length else logFilePath) hxs
      exact ⟨y, List.mem_cons_of_mem _ hy, hc, by rw [hstep, he]⟩
    · have hnone : ∀ y ∈ xs, capturesFilename y = false := by
        intro y hy
        cases hc : capturesFilename y with
        | false => rfl
        | true => exact absurd ⟨y, hy, hc⟩ hxs
      have hx : capturesFilename x = true := by
        obtain ⟨y, hy, hc⟩ := h
        rcases List.mem_cons.mp hy with hy | hy
        · rw [← hy]
          exact hc
        · rw [hnone y hy] at hc
          cases hc
      refine ⟨x, List.mem_cons_self _ _, hx, ?_⟩
      rw [hstep, capturedPath_unrecognised xs _ hnone, hx]
      rfl

theorem header_block_success (env : Env) (hdrs rest : List String)
    (instanceDir fdPassingPassword : String) (d : Int)
    (logLevel : Int) (logFile fdLogFile : String) (hasFd : Bool)
    (hl : env.watchdog.lines = "HTTP/1.1 200 OK\r\n" :: hdrs ++ "\r\n" :: rest)
    (hh : ∀ h ∈ hdrs, h.isEmpty = false ∧ h ≠ "\r\n")
    (hc : (capturedPath hdrs "").isEmpty = false)
    (ht : env.watchdog.transfer = Except.ok d) :
    ServerAgent.catchInRequestBegin (ServerAgent.processReinheritLogsExchange env
        { St.init logLevel logFile fdLogFile hasFd with
          trace := (St.init logLevel logFile fdLogFile hasFd).trace ++
            handoffPrelude instanceDir fdPassingPassword })
      = { St.init logLevel logFile fdLogFile hasFd with
          trace := handoffPrelude instanceDir fdPassingPassword ++
            handoffSuccess (hdrs.length + 2) (capturedPath hdrs "") d,
          logFile := capturedPath hdrs "", ended := true } := by
  rw [ServerAgent.exchange_of_block env _ hdrs rest hl hh, hc]
  simp [ht, ServerAgent.catchInRequestBegin, endRequestUnlessEnded,
    endRequest, St.emit, St.init, handoffSuccess]

theorem header_block_failure (env : Env) (hdrs rest : List String)
    (instanceDir fdPassingPassword : String)
    (logLevel : Int) (logFile fdLogFile : String) (hasFd : Bool)
    (hl : env.watchdog.lines = "HTTP/1.1 200 OK\r\n" :: hdrs ++ "\r\n" :: rest)
    (hh : ∀ h ∈ hdrs, h.isEmpty = false ∧ h ≠ "\r\n")
    (hc : (capturedPath hdrs "").isEmpty = true) :
    ServerAgent.catchInRequestBegin (ServerAgent.processReinheritLogsExchange env
        { St.init logLevel logFile fdLogFile hasFd with
          trace := (St.init logLevel logFile fdLogFile hasFd).trace ++
            handoffPrelude instanceDir fdPassingPassword })
      = { St.init logLevel logFile fdLogFile hasFd with
          trace := handoffPrelude instanceDir fdPassingPassword ++
            handoffFailure (hdrs.length + 2) "no log filename received in response",
          ended := true } := by
  rw [ServerAgent.exchange_of_block env _ hdrs rest hl hh, hc]
  simp [ServerAgent.catchInRequestBegin, endRequestUnlessEnded, writeSimpleResponse,
    endRequest, St.emit, St.init, handoffFailure]

theorem header_block_attempts_transfer (env : Env) (hdrs rest : List String)
    (instanceDir fdPassingPassword : String)
    (logLevel : Int) (logFile fdLogFile : String) (hasFd : Bool)
    (hl : env.watchdog.lines = "HTTP/1.1 200 OK\r\n" :: hdrs ++ "\r\n" :: rest)
    (hh : ∀ h ∈ hdrs, h.isEmpty = false ∧ h ≠ "\r\n")
    (hc : (capturedPath hdrs "").isEmpty = false) :
    Event.readFileDescriptorWithNegotiation 1000000 ∈
        (ServerAgent.catchInRequestBegin (ServerAgent.processReinheritLogsExchange env
          { St.init logLevel logFile fdLogFile hasFd with
            trace := (St.init logLevel logFile fdLogFile hasFd).trace ++
              handoffPrelude instanceDir fdPassingPassword })).trace ∧
      500 ∉ statuses (ServerAgent.catchInRequestBegin
        (ServerAgent.processReinheritLogsExchange env
          { St.init logLevel logFile fdLogFile hasFd with
            trace := (St.init logLevel logFile fdLogFile hasFd).trace ++
              handoffPrelude instanceDir fdPassingPassword })).trace := by
  have hst : ∀ n, statuses (handoffPrelude instanceDir fdPassingPassword ++
      List.replicate n Event.readLine) = [] := by
    intro n
    rw [statuses, responses_append, responses_readLines]
    rfl
  cases ht : env.watchdog.transfer with
  | ok d =>
    rw [header_block_success env hdrs rest _ _ d logLevel logFile fdLogFile hasFd hl hh hc ht]
    constructor
    · simp [handoffSuccess]
    · simp only [handoffSuccess, ← List.append_assoc]
      rw [statuses_append, hst]
      simp [statuses, responses, Event.response?]
  | error e =>
    rw [ServerAgent.exchange_of_block env _ hdrs rest hl hh, hc]
    simp only [Bool.false_eq_true, if_false, ht]
    cases hx : e.isTracable with
    | true =>
      have hres : ServerAgent.catchInRequestBegin
          { St.init logLevel logFile fdLogFile hasFd with
            trace := (St.init logLevel logFile fdLogFile hasFd).trace ++
              handoffPrelude instanceDir fdPassingPassword ++
              List.replicate (hdrs.length + 2) Event.readLine ++
              [Event.readFileDescriptorWithNegotiation 1000000],
            thrown := some e }
          = { St.init logLevel logFile fdLogFile hasFd with
              trace := handoffPrelude instanceDir fdPassingPassword ++
                List.replicate (hdrs.length + 2) Event.readLine ++
                [Event.readFileDescriptorWithNegotiation 1000000, Event.SKC_ERROR,
                 Event.endRequest],
              ended := true, wantKeepAlive := false } := by
        simp [ServerAgent.catchInRequestBegin, hx, endRequest, St.emit, St.init]
      rw [hres]
      constructor
      · simp
      · show 500 ∉ statuses _
        rw [statuses_append, hst]
        decide
    | false =>
      have hres : ServerAgent.catchInRequestBegin
          { St.init logLevel logFile fdLogFile hasFd with
            trace := (St.init logLevel logFile fdLogFile hasFd).trace ++
              handoffPrelude instanceDir fdPassingPassword ++
              List.replicate (hdrs.length + 2) Event.readLine ++
              [Event.readFileDescriptorWithNegotiation 1000000],
            thrown := some e }
          = { St.init logLevel logFile fdLogFile hasFd with
              trace := handoffPrelude instanceDir fdPassingPassword ++
                List.replicate (hdrs.length + 2) Event.readLine ++
                [Event.readFileDescriptorWithNegotiation 1000000],
              thrown := some e } := by
        simp [ServerAgent.catchInRequestBegin, hx, St.init]
      rw [hres]
      constructor
      · simp
      · show 500 ∉ statuses _
        rw [statuses_append, hst]
        decide

theorem filenameLine_value_nonempty (h : String)
    (hv : ∃ P : String, P.isEmpty = false ∧
      (h = "filename: " ++ P ++ "\r\n" ∨ h = "Filename: " ++ P ++ "\r\n")) :
    (eraseFront h "filename: ".length).isEmpty = false := by
  obtain ⟨P, _, hP⟩ := hv
  have hne : (P ++ "\r\n").isEmpty = false := by
    apply isEmpty_false_of_length
    simp only [String.length_append]
    have h2 : "\r\n".length = 2 := by decide
    omega
  rcases hP with hP | hP
  · rw [hP, (filenameLine_facts "filename: " P (by decide)).2.2.2]
    exact hne
  · rw [hP, (filenameLine_facts "Filename: " P (by decide)).2.2.2]
    exact hne

/-- C14 (amended). In the handoff of either agent a header line is taken as the
filename line exactly when it starts with `filename: ` or with `Filename: `, the
blank included. For every reply with the status line 200, any header lines and
the blank line: when some header line starts with one of the two, and each such
line carries a value that is not empty, the handoff does not end in the
missing-filename error: the descriptor transfer is attempted and no 500 is
answered; and when the transfer yields a descriptor, the log sink is installed
once with it and the answer is 200. When no header line starts with one of the
two (whatever other spelling of the name the lines use), the lines are skipped
and the answer is the missing-filename error. -/
theorem filename_header_two_spellings
    (srvH : ServerAgent.AdminServer) (srvL : LoggingAgent.AdminServer) (env : Env)
    (req : Request) (hdrs rest : List String) (d : Int)
    (logLevel : Int) (logFile fdLogFile : String) (hasFd : Bool)
    (hconnect : env.watchdog.connect = Option.none)
    (hwrite : env.watchdog.write = Option.none)
    (hl : env.watchdog.lines = "HTTP/1.1 200 OK\r\n" :: hdrs ++ "\r\n" :: rest)
    (hh : ∀ h ∈ hdrs, h.isEmpty = false ∧ h ≠ "\r\n") :
    (ServerAgent.asksWatchdog srvH req = true →
      ((∃ h ∈ hdrs, startsWith h "filename: " = true ∨ startsWith h "Filename: " = true) →
        (∀ h ∈ hdrs, startsWith h "filename: " = true ∨ startsWith h "Filename: " = true →
          ∃ P : String, P.isEmpty = false ∧
            (h = "filename: " ++ P ++ "\r\n" ∨ h = "Filename: " ++ P ++ "\r\n")) →
        (Event.readFileDescriptorWithNegotiation 1000000 ∈
            (ServerAgent.onRequestBegin srvH env req
              (St.init logLevel logFile fdLogFile hasFd)).trace ∧
          500 ∉ statuses (ServerAgent.onRequestBegin srvH env req
              (St.init logLevel logFile fdLogFile hasFd)).trace) ∧
        (env.watchdog.transfer = Except.ok d →
          ∃ path : String,
            (ServerAgent.onRequestBegin srvH env req
                (St.init logLevel logFile fdLogFile hasFd)).trace
              = handoffPrelude srvH.instanceDir srvH.fdPassingPassword ++
                  handoffSuccess (hdrs.length + 2) path d)) ∧
      ((∀ h ∈ hdrs, startsWith h "filename: " = false ∧ startsWith h "Filename: " = false) →
        (ServerAgent.onRequestBegin srvH env req
            (St.init logLevel logFile fdLogFile hasFd)).trace
          = handoffPrelude srvH.instanceDir srvH.fdPassingPassword ++
              handoffFailure (hdrs.length + 2) "no log filename received in response")) ∧
    (LoggingAgent.asksWatchdog srvL req = true →
      ((∃ h ∈ hdrs, startsWith h "filename: " = true ∨ startsWith h "Filename: " = true) →
        (∀ h ∈ hdrs, startsWith h "filename: " = true ∨ startsWith h "Filename: " = true →
          ∃ P : String, P.isEmpty = false ∧
            (h = "filename: " ++ P ++ "\r\n" ∨ h = "Filename: " ++ P ++ "\r\n")) →
        (Event.readFileDescriptorWithNegotiation 1000000 ∈
            (LoggingAgent.onRequestBegin srvL env req
              (St.init logLevel logFile fdLogFile hasFd)).trace ∧
          500 ∉ statuses (LoggingAgent.onRequestBegin srvL env req
              (St.init logLevel logFile fdLogFile hasFd)).trace) ∧
        (env.watchdog.transfer = Except.ok d →
          ∃ path : String,
            (LoggingAgent.onRequestBegin srvL env req
                (St.init logLevel logFile fdLogFile hasFd)).trace
              = handoffPrelude srvL.instanceDir srvL.fdPassingPassword ++
                  handoffSuccess (hdrs.length + 2) path d)) ∧
      ((∀ h ∈ hdrs, startsWith h "filename: " = false ∧ startsWith h "Filename: " = false) →
        (LoggingAgent.onRequestBegin srvL env req
            (St.init logLevel logFile fdLogFile hasFd)).trace
          = handoffPrelude srvL.instanceDir srvL.fdPassingPassword ++
              handoffFailure (hdrs.length + 2) "no log filename received in response")) := by
  have hcap : ∀ h : String, capturesFilename h = true
      ↔ (startsWith h "filename: " = true ∨ startsWith h "Filename: " = true) := by
    intro h
    simp [capturesFilename]
  have hyes : (∃ h ∈ hdrs, startsWith h "filename: " = true ∨ startsWith h "Filename: " = true) →
      (∀ h ∈ hdrs, startsWith h "filename: " = true ∨ startsWith h "Filename: " = true →
        ∃ P : String, P.isEmpty = false ∧
          (h = "filename: " ++ P ++ "\r\n" ∨ h = "Filename: " ++ P ++ "\r\n")) →
      (capturedPath hdrs "").isEmpty = false := by
    rintro ⟨h, hmem, hs⟩ hval
    obtain ⟨x, hx, hc, he⟩ := capturedPath_recognised hdrs "" ⟨h, hmem, (hcap h).mpr hs⟩
    rw [he]
    exact filenameLine_value_nonempty x (hval x hx ((hcap x).mp hc))
  have hno : (∀ h ∈ hdrs, startsWith h "filename: " = false ∧ startsWith h "Filename: " = false) →
      (capturedPath hdrs "").isEmpty = true := by
    intro hall
    rw [capturedPath_unrecognised hdrs "" (fun x hx => by
      simp [capturesFilename, (hall x hx).1, (hall x hx).2])]
    decide
  constructor
  · intro hask
    rw [ServerAgent.onRequestBegin_asksWatchdog srvH env req _ hask hconnect hwrite]
    constructor
    · intro hs hval
      refine ⟨header_block_attempts_transfer env hdrs rest _ _ logLevel logFile fdLogFile
        hasFd hl hh (hyes hs hval), ?_⟩
      intro ht
      rw [header_block_success env hdrs rest _ _ d logLevel logFile fdLogFile hasFd hl hh
        (hyes hs hval) ht]
      exact ⟨capturedPath hdrs "", rfl⟩
    · intro hall
      rw [header_block_failure env hdrs rest _ _ logLevel logFile fdLogFile hasFd hl hh
        (hno hall)]
  · intro hask
    rw [LoggingAgent.logging_onRequestBegin_asksWatchdog srvL env req _ hask hconnect hwrite]
    constructor
    · intro hs hval
      refine ⟨header_block_attempts_transfer env hdrs rest _ _ logLevel logFile fdLogFile
        hasFd hl hh (hyes hs hval), ?_⟩
      intro ht
      rw [header_block_success env hdrs rest _ _ d logLevel logFile fdLogFile hasFd hl hh
        (hyes hs hval) ht]
      exact ⟨capturedPath hdrs "", rfl⟩
    · intro hall
      rw [header_block_failure env hdrs rest _ _ logLevel logFile fdLogFile hasFd hl hh
        (hno hall)]

/-- Witness of C14 (amended): a reply with two header lines, the second of them
`Filename: /var/log/passenger.log`, on the helper agent, descriptor 7. -/
theorem filename_header_two_spellings_witness :
    ∃ path : String,
      (ServerAgent.onRequestBegin (ServerAgent.sampleServer Authorization.full)
          (sampleEnv (headerWatchdog
            ["Content-Type: text/plain\r\n", "Filename: /var/log/passenger.log\r\n"] 7))
          (sampleRequest HttpMethod.HTTP_POST "/reinherit_logs.json")
          (St.init 0 "" "" false)).trace
        = handoffPrelude "/tmp/instance" "secret" ++ handoffSuccess 4 path 7 :=
  (((filename_header_two_spellings (ServerAgent.sampleServer Authorization.full)
    (LoggingAgent.sampleServer Authorization.full)
    (sampleEnv (headerWatchdog
      ["Content-Type: text/plain\r\n", "Filename: /var/log/passenger.log\r\n"] 7))
    (sampleRequest HttpMethod.HTTP_POST "/reinherit_logs.json")
    ["Content-Type: text/plain\r\n", "Filename: /var/log/passenger.log\r\n"] [] 7
    0 "" "" false rfl rfl rfl (by decide)).1 (by decide)).1
    ⟨"Filename: /var/log/passenger.log\r\n", by decide, Or.inr (by decide)⟩
    (by
      intro h hmem hs
      rcases List.mem_cons.mp hmem with h1 | h1
      · rw [h1] at hs
        exact absurd hs (by decide)
      · rw [List.mem_singleton] at h1
        exact ⟨"/var/log/passenger.log", by decide, Or.inr h1⟩)).2
    rfl

/-! ### The aggregate state document -/

theorem digitChar_value (k : Nat) (h : k < 10) :
    (Nat.digitChar k).toNat - '0'.toNat = k := by
  interval_cases k <;> rfl

theorem decimalValue_toDigitsCore (fuel : Nat) :
    ∀ (n : Nat) (ds : List Char), n < fuel →
      (Nat.toDigitsCore 10 fuel n ds).foldl (fun a c => 10 * a + (c.toNat - '0'.toNat)) 0
        = ds.foldl (fun a c => 10 * a + (c.toNat - '0'.toNat)) n := by
  induction fuel with
  | zero => intro n ds h; omega
  | succ fuel ih =>
    intro n ds h
    simp only [Nat.toDigitsCore]
    split_ifs with h0
    · simp only [List.foldl_cons, Nat.mul_zero, Nat.zero_add]
      rw [digitChar_value _ (Nat.mod_lt _ (by decide))]
      have : n % 10 = n := by omega
      rw [this]
    · rw [ih (n / 10) _ (by omega)]
      simp only [List.foldl_cons]
      rw [digitChar_value _ (Nat.mod_lt _ (by decide))]
      have : 10 * (n / 10) + n % 10 = n := Nat.div_add_mod n 10
      rw [this]

theorem decimalValue_toString (n : Nat) : decimalValue (toString n).data = n := by
  show decimalValue (Nat.toDigits 10 n).asString.data = n
  simp only [List.asString, decimalValue, Nat.toDigits]
  rw [decimalValue_toDigitsCore (n + 1) n [] (by omega)]
  rfl

theorem toString_injective (i j : Nat) (h : toString i = toString j) : i = j := by
  have := congrArg (fun str => decimalValue str.data) h
  simpa [decimalValue_toString] using this

theorem append_left_cancel (a b c : String) (h : a ++ b = a ++ c) : b = c := by
  have := congrArg String.data h
  simp only [String.data_append, List.append_cancel_left_eq] at this
  exact String.ext this

theorem threadKey_injective (i j : Nat)
    (h : "thread" ++ toString (i + 1) = "thread" ++ toString (j + 1)) : i = j := by
  have := toString_injective _ _ (append_left_cancel _ _ _ h)
  omega

theorem threadKey_ne_threads (i : Nat) : "thread" ++ toString (i + 1) ≠ "threads" := by
  intro h
  have h1 : toString (i + 1) = "s" :=
    append_left_cancel "thread" _ _ (h.trans (by decide : "threads" = "thread" ++ "s"))
  have h2 := decimalValue_toString (i + 1)
  rw [h1] at h2
  have h3 : i + 1 = 67 := by rw [← h2]; rfl
  rw [h3] at h1
  exact absurd h1 (by decide)

theorem setMember_fresh (doc : List (String × Json)) (key : String) (value : Json)
    (h : key ∉ doc.map (fun kv => kv.1)) : setMember doc key value = doc ++ [(key, value)] := by
  have hany : doc.any (fun kv => kv.1 == key) = false := by
    rw [Bool.eq_false_iff]
    intro hc
    rw [List.any_eq_true] at hc
    obtain ⟨kv, hkv, hk⟩ := hc
    exact h (List.mem_map.mpr ⟨kv, hkv, by simpa using hk⟩)
  simp [setMember, hany]

theorem threadEntries_keys (hs : List RequestHandler) (i : Nat) :
    (threadEntries hs i).map (fun kv => kv.1)
      = (List.range hs.length).map (fun j => "thread" ++ toString (i + j + 1)) := by
  induction hs generalizing i with
  | nil => rfl
  | cons rh rest ih =>
    simp only [threadEntries, List.map_cons, List.length_cons, List.range_succ_eq_map,
      List.map_map, ih]
    refine congrArg₂ _ rfl (List.map_congr_left ?_)
    intro j _
    simp only [Function.comp, Nat.succ_eq_add_one]
    rw [show i + 1 + j + 1 = i + (j + 1) + 1 by omega]

theorem ServerAgent.processServerStatusLoop_eq (hs : List RequestHandler) (i : Nat)
    (doc : List (String × Json)) (s : St)
    (h : ∀ j, i ≤ j → "thread" ++ toString (j + 1) ∉ doc.map (fun kv => kv.1)) :
    ServerAgent.processServerStatusLoop hs i doc s
      = (doc ++ threadEntries hs i,
          { s with trace := s.trace ++ stateInspections hs.length i }) := by
  induction hs generalizing i doc s with
  | nil => simp [ServerAgent.processServerStatusLoop, threadEntries, stateInspections]
  | cons rh rest ih =>
    rw [ServerAgent.processServerStatusLoop, setMember_fresh _ _ _ (h i (Nat.le_refl i)), ih]
    · simp [threadEntries, stateInspections, St.emit]
    · intro j hj
      rw [List.map_append, List.mem_append]
      rintro (hc | hc)
      · exact h j (by omega) hc
      · simp only [List.map_cons, List.map_nil, List.mem_singleton] at hc
        have := threadKey_injective _ _ hc
        omega

theorem ServerAgent.processServerStatus_authorized (srv : ServerAgent.AdminServer)
    (req : Request) (s : St) (h : ServerAgent.authorizeStateInspectionOperation srv req = true)
    (he : s.ended = false) :
    ServerAgent.processServerStatus srv req s
      = { s with
          trace := s.trace ++ Event.authorize ::
            (stateInspections srv.requestHandlers.length 0 ++
              [Event.writeSimpleResponse 200 jsonHeaders
                 (Body.styled (Json.obj
                   (("threads", Json.int srv.requestHandlers.length) ::
                     threadEntries srv.requestHandlers 0))),
               Event.endRequest]),
          ended := true } := by
  have hdoc : setMember [] "threads" (Json.int srv.requestHandlers.length)
      = [("threads", Json.int srv.requestHandlers.length)] := rfl
  simp only [ServerAgent.processServerStatus, h, if_true, hdoc]
  rw [ServerAgent.processServerStatusLoop_eq]
  · simp [endRequestUnlessEnded, writeSimpleResponse, endRequest, St.emit, he]
  · intro j _
    simp only [List.map_cons, List.map_nil, List.mem_singleton]
    exact threadKey_ne_threads j

theorem stateInspections_eq_map (n i : Nat) :
    stateInspections n i
      = (List.range n).map (fun j => Event.runSync (i + j) Command.inspectRequestHandlerState) := by
  induction n generalizing i with
  | zero => rfl
  | succ n ih =>
    simp only [stateInspections, List.range_succ_eq_map, List.map_cons, List.map_map, ih,
      Nat.add_zero]
    refine congrArg₂ _ rfl (List.map_congr_left ?_)
    intro j _
    simp only [Function.comp, Nat.succ_eq_add_one]
    rw [show i + 1 + j = i + (j + 1) by omega]

theorem responses_stateInspections (n i : Nat) : responses (stateInspections n i) = [] := by
  induction n generalizing i with
  | zero => rfl
  | succ n ih =>
    rw [stateInspections, ← List.singleton_append, responses_append, ih]
    rfl

theorem ServerAgent.server_status_run (srv : ServerAgent.AdminServer) (env : Env)
    (req : Request) (logLevel : Int) (logFile fdLogFile : String) (hasFd : Bool)
    (hp : req.getPathWithoutQueryString = "/server.json")
    (h : ServerAgent.authorizeStateInspectionOperation srv req = true) :
    (ServerAgent.onRequestBegin srv env req (St.init logLevel logFile fdLogFile hasFd)).trace
      = Event.authorize ::
          (stateInspections srv.requestHandlers.length 0 ++
            [Event.writeSimpleResponse 200 jsonHeaders
               (Body.styled (Json.obj
                 (("threads", Json.int srv.requestHandlers.length) ::
                   threadEntries srv.requestHandlers 0))),
             Event.endRequest]) := by
  rw [ServerAgent.onRequestBegin, ServerAgent.dispatch_serverStatus _ _ _ _ hp,
    ServerAgent.processServerStatus_authorized srv req _ h rfl]
  simp [ServerAgent.catchInRequestBegin, St.init]

theorem responseDocs_status_run (n : Nat) (doc : Json) :
    responseDocs (Event.authorize ::
      (stateInspections n 0 ++
        [Event.writeSimpleResponse 200 jsonHeaders (Body.styled doc), Event.endRequest]))
      = [doc] := by
  rw [responseDocs, ← List.singleton_append, responses_append, responses_append,
    responses_stateInspections]
  rfl

theorem statusDoc_keys (hs : List RequestHandler) (n : Int) :
    (Json.obj (("threads", Json.int n) :: threadEntries hs 0)).keys
      = "threads" :: (List.range hs.length).map (fun j => "thread" ++ toString (j + 1)) := by
  simp only [Json.keys, List.map_cons, threadEntries_keys, Nat.zero_add]

/-- Counterexample to C15: with three workers the document of /server.json has
four keys, and `threads` is one of them. -/
theorem server_json_has_threads_key :
    (responseDocs (ServerAgent.onRequestBegin
        (ServerAgent.serverWithWorkers threeWorkers Authorization.full)
        (sampleEnv sampleWatchdog) (sampleRequest HttpMethod.HTTP_GET "/server.json")
        (St.init 0 "" "" false)).trace).map
        (fun doc => (doc.keys.contains "threads", doc.keys.length))
      = [(true, 4)] := by
  decide

/-- C15 (amended). For a request to /server.json with the inspect-state
capability and N registered workers, one document is returned. A key belongs to
it exactly when it is `threads` or `thread<i>` for some i from 1 to N; it has
N + 1 keys, no key twice; and the value of `threads` is N. Nothing is said about
the order in which the keys are written. -/
theorem server_json_keys
    (srv : ServerAgent.AdminServer) (env : Env) (req : Request)
    (logLevel : Int) (logFile fdLogFile : String) (hasFd : Bool)
    (hp : req.getPathWithoutQueryString = "/server.json")
    (h : ServerAgent.authorizeStateInspectionOperation srv req = true) :
    ∃ doc : Json,
      responseDocs (ServerAgent.onRequestBegin srv env req
        (St.init logLevel logFile fdLogFile hasFd)).trace = [doc] ∧
      (∀ key : String, key ∈ doc.keys ↔
        key = "threads" ∨
          ∃ i : Nat, 1 ≤ i ∧ i ≤ srv.requestHandlers.length ∧ key = "thread" ++ toString i) ∧
      doc.keys.length = srv.requestHandlers.length + 1 ∧
      doc.keys.Nodup ∧
      doc.get "threads" = Json.int srv.requestHandlers.length := by
  refine ⟨Json.obj (("threads", Json.int srv.requestHandlers.length) ::
    threadEntries srv.requestHandlers 0), ?_, ?_, ?_, ?_, rfl⟩
  · rw [ServerAgent.server_status_run srv env req logLevel logFile fdLogFile hasFd hp h,
      responseDocs_status_run]
  · intro key
    rw [statusDoc_keys, List.mem_cons, List.mem_map]
    constructor
    · rintro (hk | ⟨j, hj, hk⟩)
      · exact Or.inl hk
      · exact Or.inr ⟨j + 1, by omega, by have := List.mem_range.mp hj; omega, hk.symm⟩
    · rintro (hk | ⟨i, h1, h2, hk⟩)
      · exact Or.inl hk
      · refine Or.inr ⟨i - 1, List.mem_range.mpr (by omega), ?_⟩
        rw [hk, Nat.sub_add_cancel h1]
  · rw [statusDoc_keys, List.length_cons, List.length_map, List.length_range]
  · rw [statusDoc_keys, List.nodup_cons]
    constructor
    · intro hmem
      obtain ⟨j, _, hk⟩ := List.mem_map.mp hmem
      exact threadKey_ne_threads j hk
    · exact (List.nodup_range _).map (fun a b hab => threadKey_injective a b hab)

/-- Witness of C15 (amended): three workers, every capability. -/
theorem server_json_keys_witness :
    ∃ doc : Json,
      responseDocs (ServerAgent.onRequestBegin
        (ServerAgent.serverWithWorkers threeWorkers Authorization.full)
        (sampleEnv sampleWatchdog) (sampleRequest HttpMethod.HTTP_GET "/server.json")
        (St.init 0 "" "" false)).trace = [doc] ∧
      (∀ key : String, key ∈ doc.keys ↔
        key = "threads" ∨
          ∃ i : Nat, 1 ≤ i ∧ i ≤ 3 ∧ key = "thread" ++ toString i) ∧
      doc.keys.length = 3 + 1 ∧
      doc.keys.Nodup ∧
      doc.get "threads" = Json.int (3 : Nat) :=
  server_json_keys (ServerAgent.serverWithWorkers threeWorkers Authorization.full)
    (sampleEnv sampleWatchdog) (sampleRequest HttpMethod.HTTP_GET "/server.json")
    0 "" "" false (by decide) (by decide)

theorem find_threadEntries (hs : List RequestHandler) (i j : Nat) (rh : RequestHandler)
    (h : hs.get? j = some rh) :
    (threadEntries hs i).find? (fun kv => kv.1 == "thread" ++ toString (i + j + 1))
      = some ("thread" ++ toString (i + j + 1), rh.inspectStateAsJson) := by
  induction hs generalizing i j with
  | nil => simp at h
  | cons head rest ih =>
    cases j with
    | zero =>
      simp only [List.get?_cons_zero, Option.some.injEq] at h
      subst h
      simp [threadEntries]
    | succ j =>
      simp only [List.get?_cons_succ] at h
      have hne : ("thread" ++ toString (i + 1) == "thread" ++ toString (i + (j + 1) + 1))
          = false := by
        rw [beq_eq_false_iff_ne]
        intro hc
        have := threadKey_injective _ _ hc
        omega
      rw [threadEntries, List.find?_cons, hne]
      have := ih (i + 1) j h
      rw [show i + 1 + j + 1 = i + (j + 1) + 1 by omega] at this
      exact this

theorem get_thread_member (hs : List RequestHandler) (n : Int) (j : Nat) (rh : RequestHandler)
    (h : hs.get? j = some rh) :
    (Json.obj (("threads", Json.int n) :: threadEntries hs 0)).get
        ("thread" ++ toString (j + 1)) = rh.inspectStateAsJson := by
  have hne : ("threads" == "thread" ++ toString (j + 1)) = false := by
    rw [beq_eq_false_iff_ne]
    exact fun hc => threadKey_ne_threads j hc.symm
  have hf := find_threadEntries hs 0 j rh h
  rw [Nat.zero_add] at hf
  simp only [Json.get, List.find?_cons, hne, hf]

/-- C16. `processServerStatus` with the inspect-state capability and N workers:
after `authorize`, exactly N commands are run synchronously, one per worker in
increasing worker position, before the one response, 200, is written; and in
the document written the value under `thread<i>` is the state returned by the
`inspectStateAsJson` of the worker at position i - 1, for every i from 1 to N. -/
theorem server_status_queries_each_worker_in_order
    (srv : ServerAgent.AdminServer) (env : Env) (req : Request)
    (logLevel : Int) (logFile fdLogFile : String) (hasFd : Bool)
    (hp : req.getPathWithoutQueryString = "/server.json")
    (h : ServerAgent.authorizeStateInspectionOperation srv req = true) :
    ∃ doc : Json,
      (ServerAgent.onRequestBegin srv env req (St.init logLevel logFile fdLogFile hasFd)).trace
        = Event.authorize ::
            ((List.range srv.requestHandlers.length).map
                (fun i => Event.runSync i Command.inspectRequestHandlerState) ++
              [Event.writeSimpleResponse 200 jsonHeaders (Body.styled doc),
               Event.endRequest]) ∧
      ∀ (i : Nat) (rh : RequestHandler), srv.requestHandlers.get? i = some rh →
        doc.get ("thread" ++ toString (i + 1)) = rh.inspectStateAsJson := by
  refine ⟨Json.obj (("threads", Json.int srv.requestHandlers.length) ::
    threadEntries srv.requestHandlers 0), ?_, ?_⟩
  · rw [ServerAgent.server_status_run srv env req logLevel logFile fdLogFile hasFd hp h,
      stateInspections_eq_map]
    simp only [Nat.zero_add]
  · intro i rh hi
    exact get_thread_member _ _ i rh hi

/-- Witness of C16: three workers told apart by their state, every capability. -/
theorem server_status_queries_each_worker_in_order_witness :
    ∃ doc : Json,
      (ServerAgent.onRequestBegin (ServerAgent.serverWithWorkers threeWorkers Authorization.full)
        (sampleEnv sampleWatchdog) (sampleRequest HttpMethod.HTTP_GET "/server.json")
        (St.init 0 "" "" false)).trace
        = Event.authorize ::
            ((List.range 3).map
                (fun i => Event.runSync i Command.inspectRequestHandlerState) ++
              [Event.writeSimpleResponse 200 jsonHeaders (Body.styled doc),
               Event.endRequest]) ∧
      ∀ (i : Nat) (rh : RequestHandler), threeWorkers.get? i = some rh →
        doc.get ("thread" ++ toString (i + 1)) = rh.inspectStateAsJson :=
  server_status_queries_each_worker_in_order
    (ServerAgent.serverWithWorkers threeWorkers Authorization.full)
    (sampleEnv sampleWatchdog) (sampleRequest HttpMethod.HTTP_GET "/server.json")
    0 "" "" false (by decide) (by decide)

/-! ### The pool operations -/

/-- C19 (what the code does). With every capability, the 200 answers of
PUT /shutdown.json, PUT /gc.json, POST /reopen_logs.json and
DELETE /server/1-x.json of the helper agent, and of POST /shutdown.json,
POST /reopen_logs.json and PUT /config.json (body `{}`) of the logging agent,
carry `Content-Type` only: the `Cache-Control` header is missing. The sibling
PUT /config.json of the helper agent, with the same body, does carry it. -/
theorem mutating_answers_without_cache_control :
    cachingOfResponses (ServerAgent.onRequestBegin (ServerAgent.sampleServer Authorization.full)
        (sampleEnv sampleWatchdog) (sampleRequest HttpMethod.HTTP_PUT "/shutdown.json")
        (St.init 0 "" "" false)).trace = [(200, false)] ∧
    cachingOfResponses (ServerAgent.onRequestBegin (ServerAgent.sampleServer Authorization.full)
        (sampleEnv sampleWatchdog) (sampleRequest HttpMethod.HTTP_PUT "/gc.json")
        (St.init 0 "" "" false)).trace = [(200, false)] ∧
    cachingOfResponses (ServerAgent.onRequestBegin (ServerAgent.sampleServer Authorization.full)
        (sampleEnv sampleWatchdog) (sampleRequest HttpMethod.HTTP_POST "/reopen_logs.json")
        (St.init 0 "/var/log/passenger.log" "" false)).trace = [(200, false)] ∧
    cachingOfResponses (ServerAgent.onRequestBegin (ServerAgent.sampleServer Authorization.full)
        (sampleEnv sampleWatchdog) (sampleRequest HttpMethod.HTTP_DELETE "/server/1-x.json")
        (St.init 0 "" "" false)).trace = [(200, false)] ∧
    cachingOfResponses (LoggingAgent.onRequestBegin (LoggingAgent.sampleServer Authorization.full)
        (sampleEnv sampleWatchdog) (sampleRequest HttpMethod.HTTP_POST "/shutdown.json")
        (St.init 0 "" "" false)).trace = [(200, false)] ∧
    cachingOfResponses (LoggingAgent.onRequestBegin (LoggingAgent.sampleServer Authorization.full)
        (sampleEnv sampleWatchdog) (sampleRequest HttpMethod.HTTP_POST "/reopen_logs.json")
        (St.init 0 "/var/log/passenger.log" "" false)).trace = [(200, false)] ∧
    cachingOfResponses (LoggingAgent.processRequest (LoggingAgent.sampleServer Authorization.full)
        (sampleEnv sampleWatchdog) (sampleChunkedRequest HttpMethod.HTTP_PUT "/config.json")
        (bodyEvents ["\x7b\x7d"]) (St.init 0 "" "" false)).trace = [(200, false)] ∧
    cachingOfResponses (ServerAgent.processRequest (ServerAgent.sampleServer Authorization.full)
        (sampleEnv sampleWatchdog) (sampleChunkedRequest HttpMethod.HTTP_PUT "/config.json")
        (bodyEvents ["\x7b\x7d"]) (St.init 0 "" "" false)).trace = [(200, true)] := by
  refine ⟨?_, ?_, ?_, ?_, ?_, ?_, ?_, ?_⟩ <;> decide

/-! ### Reading the configuration -/

theorem ServerAgent.config_get_run (srv : ServerAgent.AdminServer) (env : Env) (req : Request)
    (logLevel : Int) (logFile fdLogFile : String) (hasFd : Bool)
    (h : ServerAgent.configGetAuthorized srv req = true) :
    ServerAgent.onRequestBegin srv env req (St.init logLevel logFile fdLogFile hasFd)
      = match srv.requestHandlers.head? with
        | Option.none =>
          { St.init logLevel logFile fdLogFile hasFd with
            trace := [Event.authorize, Event.getLogFile, Event.getFileDescriptorLogFile],
            thrown := some (Exn.other "requestHandlers[0] out of range") }
        | some rh =>
          { St.init logLevel logFile fdLogFile hasFd with
            trace := [Event.authorize, Event.getLogFile, Event.getFileDescriptorLogFile,
              Event.runSync 0 Command.getRequestHandlerConfig, Event.getLogLevel,
              Event.writeSimpleResponse 200 jsonHeaders
                (Body.styled (Json.obj
                  (ServerAgent.configDoc rh.getConfigAsJson logLevel logFile fdLogFile))),
              Event.endRequest],
            ended := true } := by
  simp only [ServerAgent.configGetAuthorized, Bool.and_eq_true, decide_eq_true_eq] at h
  obtain ⟨⟨hp, hm⟩, ha⟩ := h
  rw [ServerAgent.onRequestBegin, ServerAgent.dispatch_config _ _ _ _ hp]
  cases hh : srv.requestHandlers.head? with
  | none =>
    simp [ServerAgent.processConfig, hm, ha, hh, ServerAgent.catchInRequestBegin, St.emit,
      St.throw, St.init, Exn.isTracable]
  | some rh =>
    simp [ServerAgent.processConfig, hm, ha, hh, ServerAgent.catchInRequestBegin, St.emit,
      St.init, endRequestUnlessEnded, writeSimpleResponse, endRequest]

theorem LoggingAgent.logging_config_get_run (srv : LoggingAgent.AdminServer) (env : Env)
    (req : Request) (logLevel : Int) (logFile fdLogFile : String) (hasFd : Bool)
    (h : LoggingAgent.configGetAuthorized srv req = true) :
    LoggingAgent.onRequestBegin srv env req (St.init logLevel logFile fdLogFile hasFd)
      = { St.init logLevel logFile fdLogFile hasFd with
          trace := [Event.authorize, Event.getLogFile, Event.getFileDescriptorLogFile,
            Event.getLogLevel,
            Event.writeSimpleResponse 200 jsonHeaders
              (Body.styled (Json.obj (LoggingAgent.configDoc logLevel logFile fdLogFile))),
            Event.endRequest],
          ended := true } := by
  simp only [LoggingAgent.configGetAuthorized, Bool.and_eq_true, decide_eq_true_eq] at h
  obtain ⟨⟨hp, hm⟩, ha⟩ := h
  simp [LoggingAgent.onRequestBegin, LoggingAgent.dispatch, hp, LoggingAgent.processConfig, hm,
    ha, LoggingAgent.catchInRequestBegin, St.emit, St.init, endRequestUnlessEnded,
    writeSimpleResponse, endRequest]

/-- C20. GET /config.json with the inspect-state capability, on either agent: the
request leaves log level, log file and file descriptor log file as they were
and makes no call that changes the state of the server, of a worker or of the
logging (the only command submitted to a worker is the read of its
configuration); and a second such request, served right after the first,
writes the same responses: same status, same headers, same document. The helper
agent answers 200 when it has a worker, the logging agent always. -/
theorem config_get_is_idempotent
    (srvH : ServerAgent.AdminServer) (srvL : LoggingAgent.AdminServer) (env : Env)
    (first second : Request)
    (logLevel : Int) (logFile fdLogFile : String) (hasFd : Bool) :
    (ServerAgent.configGetAuthorized srvH first = true →
      ServerAgent.configGetAuthorized srvH second = true →
      (ServerAgent.onRequestBegin srvH env first
        (St.init logLevel logFile fdLogFile hasFd)).LoggingStateIs
          logLevel logFile fdLogFile hasFd ∧
      (ServerAgent.onRequestBegin srvH env first
        (St.init logLevel logFile fdLogFile hasFd)).trace.all
          (fun e => !e.changesState) = true ∧
      responses (ServerAgent.onRequestBegin srvH env second
        (St.init
          (ServerAgent.onRequestBegin srvH env first
            (St.init logLevel logFile fdLogFile hasFd)).logLevel
          (ServerAgent.onRequestBegin srvH env first
            (St.init logLevel logFile fdLogFile hasFd)).logFile
          (ServerAgent.onRequestBegin srvH env first
            (St.init logLevel logFile fdLogFile hasFd)).fileDescriptorLogFile
          (ServerAgent.onRequestBegin srvH env first
            (St.init logLevel logFile fdLogFile hasFd)).hasFileDescriptorLogFile)).trace
        = responses (ServerAgent.onRequestBegin srvH env first
            (St.init logLevel logFile fdLogFile hasFd)).trace ∧
      (srvH.requestHandlers ≠ [] →
        statuses (ServerAgent.onRequestBegin srvH env first
          (St.init logLevel logFile fdLogFile hasFd)).trace = [200])) ∧
    (LoggingAgent.configGetAuthorized srvL first = true →
      LoggingAgent.configGetAuthorized srvL second = true →
      (LoggingAgent.onRequestBegin srvL env first
        (St.init logLevel logFile fdLogFile hasFd)).LoggingStateIs
          logLevel logFile fdLogFile hasFd ∧
      (LoggingAgent.onRequestBegin srvL env first
        (St.init logLevel logFile fdLogFile hasFd)).trace.all
          (fun e => !e.changesState) = true ∧
      responses (LoggingAgent.onRequestBegin srvL env second
        (St.init
          (LoggingAgent.onRequestBegin srvL env first
            (St.init logLevel logFile fdLogFile hasFd)).logLevel
          (LoggingAgent.onRequestBegin srvL env first
            (St.init logLevel logFile fdLogFile hasFd)).logFile
          (LoggingAgent.onRequestBegin srvL env first
            (St.init logLevel logFile fdLogFile hasFd)).fileDescriptorLogFile
          (LoggingAgent.onRequestBegin srvL env first
            (St.init logLevel logFile fdLogFile hasFd)).hasFileDescriptorLogFile)).trace
        = responses (LoggingAgent.onRequestBegin srvL env first
            (St.init logLevel logFile fdLogFile hasFd)).trace ∧
      statuses (LoggingAgent.onRequestBegin srvL env first
        (St.init logLevel logFile fdLogFile hasFd)).trace = [200]) := by
  constructor
  · intro h1 h2
    have hstate : (ServerAgent.onRequestBegin srvH env first
        (St.init logLevel logFile fdLogFile hasFd)).LoggingStateIs
          logLevel logFile fdLogFile hasFd := by
      rw [ServerAgent.config_get_run srvH env first logLevel logFile fdLogFile hasFd h1]
      cases srvH.requestHandlers.head? <;> exact ⟨rfl, rfl, rfl, rfl⟩
    refine ⟨hstate, ?_, ?_, ?_⟩
    · rw [ServerAgent.config_get_run srvH env first logLevel logFile fdLogFile hasFd h1]
      cases srvH.requestHandlers.head? <;> rfl
    · rw [hstate.1, hstate.2.1, hstate.2.2.1, hstate.2.2.2,
        ServerAgent.config_get_run srvH env first logLevel logFile fdLogFile hasFd h1,
        ServerAgent.config_get_run srvH env second logLevel logFile fdLogFile hasFd h2]
    · intro hne
      rw [ServerAgent.config_get_run srvH env first logLevel logFile fdLogFile hasFd h1]
      cases hh : srvH.requestHandlers with
      | nil => exact absurd hh hne
      | cons rh rest => rfl
  · intro h1 h2
    have hstate : (LoggingAgent.onRequestBegin srvL env first
        (St.init logLevel logFile fdLogFile hasFd)).LoggingStateIs
          logLevel logFile fdLogFile hasFd := by
      rw [LoggingAgent.logging_config_get_run srvL env first logLevel logFile fdLogFile hasFd h1]
      exact ⟨rfl, rfl, rfl, rfl⟩
    refine ⟨hstate, ?_, ?_, ?_⟩
    · rw [LoggingAgent.logging_config_get_run srvL env first logLevel logFile fdLogFile hasFd h1]
      rfl
    · rw [hstate.1, hstate.2.1, hstate.2.2.1, hstate.2.2.2,
        LoggingAgent.logging_config_get_run srvL env first logLevel logFile fdLogFile hasFd h1,
        LoggingAgent.logging_config_get_run srvL env second logLevel logFile fdLogFile hasFd h2]
    · rw [LoggingAgent.logging_config_get_run srvL env first logLevel logFile fdLogFile hasFd h1]
      rfl

/-- Witness of C20: two GET /config.json with every capability, log level 3 and
the log file /var/log/passenger.log. -/
theorem config_get_is_idempotent_witness :
    (responses (ServerAgent.onRequestBegin (ServerAgent.sampleServer Authorization.full)
        (sampleEnv sampleWatchdog) (sampleRequest HttpMethod.HTTP_GET "/config.json")
        (St.init
          (ServerAgent.onRequestBegin (ServerAgent.sampleServer Authorization.full)
            (sampleEnv sampleWatchdog) (sampleRequest HttpMethod.HTTP_GET "/config.json")
            (St.init 3 "/var/log/passenger.log" "" false)).logLevel
          (ServerAgent.onRequestBegin (ServerAgent.sampleServer Authorization.full)
            (sampleEnv sampleWatchdog) (sampleRequest HttpMethod.HTTP_GET "/config.json")
            (St.init 3 "/var/log/passenger.log" "" false)).logFile
          (ServerAgent.onRequestBegin (ServerAgent.sampleServer Authorization.full)
            (sampleEnv sampleWatchdog) (sampleRequest HttpMethod.HTTP_GET "/config.json")
            (St.init 3 "/var/log/passenger.log" "" false)).fileDescriptorLogFile
          (ServerAgent.onRequestBegin (ServerAgent.sampleServer Authorization.full)
            (sampleEnv sampleWatchdog) (sampleRequest HttpMethod.HTTP_GET "/config.json")
            (St.init 3 "/var/log/passenger.log" "" false)).hasFileDescriptorLogFile)).trace
      = responses (ServerAgent.onRequestBegin (ServerAgent.sampleServer Authorization.full)
          (sampleEnv sampleWatchdog) (sampleRequest HttpMethod.HTTP_GET "/config.json")
          (St.init 3 "/var/log/passenger.log" "" false)).trace) ∧
    statuses (LoggingAgent.onRequestBegin (LoggingAgent.sampleServer Authorization.full)
        (sampleEnv sampleWatchdog) (sampleRequest HttpMethod.HTTP_GET "/config.json")
        (St.init 3 "/var/log/passenger.log" "" false)).trace = [200] :=
  ⟨((config_get_is_idempotent (ServerAgent.sampleServer Authorization.full)
      (LoggingAgent.sampleServer Authorization.full) (sampleEnv sampleWatchdog)
      (sampleRequest HttpMethod.HTTP_GET "/config.json")
      (sampleRequest HttpMethod.HTTP_GET "/config.json")
      3 "/var/log/passenger.log" "" false).1 (by decide) (by decide)).2.2.1,
   ((config_get_is_idempotent (ServerAgent.sampleServer Authorization.full)
      (LoggingAgent.sampleServer Authorization.full) (sampleEnv sampleWatchdog)
      (sampleRequest HttpMethod.HTTP_GET "/config.json")
      (sampleRequest HttpMethod.HTTP_GET "/config.json")
      3 "/var/log/passenger.log" "" false).2 (by decide) (by decide)).2.2.2⟩

/-! ### Reachability of the guard branches -/

theorem noGuard_emit (s : St) (e : Event) :
    (s.emit e).NoGuardBranch ↔ s.NoGuardBranch ∧ e.isGuardBranch = false := by
  simp [St.NoGuardBranch, St.emit, List.all_append]

theorem noGuard_respond (s : St) (code : Nat) (headers : HeaderTable) (body : Body) :
    (endRequestUnlessEnded (writeSimpleResponse s code headers body)).NoGuardBranch
      ↔ s.NoGuardBranch := by
  simp only [endRequestUnlessEnded, writeSimpleResponse, endRequest]
  split <;> simp [St.NoGuardBranch, St.emit, List.all_append, Event.isGuardBranch]

theorem noGuard_bad (s : St) (body : String) :
    (endAsBadRequest s body).NoGuardBranch
      ↔ s.NoGuardBranch ∧ (body == "Invalid URI") = false := by
  simp [St.NoGuardBranch, endAsBadRequest, St.emit, List.all_append, Event.isGuardBranch]

theorem noGuard_throw (s : St) (e : Exn) : (s.throw e).NoGuardBranch ↔ s.NoGuardBranch :=
  Iff.rfl

theorem noGuard_authorization (s : St) (auth : Authorization) :
    St.NoGuardBranch { s with authorization := auth } ↔ s.NoGuardBranch :=
  Iff.rfl

theorem noGuard_setLogLevel (s : St) (level : Int) :
    (setLogLevel s level).NoGuardBranch ↔ s.NoGuardBranch := by
  simp [St.NoGuardBranch, setLogLevel, St.emit, List.all_append, Event.isGuardBranch]

theorem noGuard_setLogFile (s : St) (path : String) :
    (setLogFile s path).NoGuardBranch ↔ s.NoGuardBranch := by
  simp [St.NoGuardBranch, setLogFile, St.emit, List.all_append, Event.isGuardBranch]

theorem noGuard_setFileDescriptorLogFile (s : St) (path : String) :
    (setFileDescriptorLogFile s path).NoGuardBranch ↔ s.NoGuardBranch := by
  simp [St.NoGuardBranch, setFileDescriptorLogFile, St.emit, List.all_append,
    Event.isGuardBranch]

theorem noGuard_setLogFileWithFd (s : St) (path : String) (fd : Int) :
    (setLogFileWithFd s path fd).NoGuardBranch ↔ s.NoGuardBranch := by
  simp [St.NoGuardBranch, setLogFileWithFd, St.emit, List.all_append, Event.isGuardBranch]

theorem noGuard_runLaterOnAll (hs : List RequestHandler) (i : Nat) (cmd : Command) (s : St) :
    (ServerAgent.runLaterOnAll hs i cmd s).NoGuardBranch ↔ s.NoGuardBranch := by
  induction hs generalizing i s with
  | nil => simp [ServerAgent.runLaterOnAll]
  | cons rh rest ih => simp [ServerAgent.runLaterOnAll, ih, noGuard_emit, Event.isGuardBranch]

theorem noGuard_processServerStatusLoop (hs : List RequestHandler) (i : Nat)
    (doc : List (String × Json)) (s : St) :
    (ServerAgent.processServerStatusLoop hs i doc s).2.NoGuardBranch ↔ s.NoGuardBranch := by
  induction hs generalizing i doc s with
  | nil => simp [ServerAgent.processServerStatusLoop]
  | cons rh rest ih =>
    simp [ServerAgent.processServerStatusLoop, ih, noGuard_emit, Event.isGuardBranch]

theorem noGuard_readHeaderLines (lines : List String) (logFilePath : String) (s : St) :
    (ServerAgent.readHeaderLines lines logFilePath s).2.NoGuardBranch ↔ s.NoGuardBranch := by
  induction lines generalizing logFilePath s with
  | nil => simp [ServerAgent.readHeaderLines, noGuard_emit, Event.isGuardBranch]
  | cons l rest ih =>
    simp only [ServerAgent.readHeaderLines]
    split_ifs <;> simp [ih, noGuard_emit, Event.isGuardBranch]

theorem closed_respond (s : St) : (endRequestUnlessEnded s).Closed := by
  simp only [endRequestUnlessEnded, St.Closed]
  split
  · exact Or.inl (by assumption)
  · exact Or.inl rfl

theorem closed_throw (s : St) (e : Exn) : (s.throw e).Closed :=
  Or.inr (by simp [St.throw])

theorem closed_bad (s : St) (body : String) : (endAsBadRequest s body).Closed :=
  Or.inl rfl

theorem ServerAgent.respondWith404_noGuard (s : St) (h : s.NoGuardBranch) :
    (ServerAgent.respondWith404 s).NoGuardBranch ∧ (ServerAgent.respondWith404 s).Closed :=
  ⟨(noGuard_respond _ _ _ _).mpr h, closed_respond _⟩

theorem ServerAgent.processServerStatus_noGuard (srv : ServerAgent.AdminServer) (req : Request)
    (s : St) (h : s.NoGuardBranch) :
    (ServerAgent.processServerStatus srv req s).NoGuardBranch ∧
      (ServerAgent.processServerStatus srv req s).Closed := by
  simp only [ServerAgent.processServerStatus, ServerAgent.respondWith401]
  constructor
  · repeat' split
    all_goals
      simp [noGuard_respond, noGuard_emit, noGuard_processServerStatusLoop,
        Event.isGuardBranch, h]
  · repeat' split
    all_goals exact closed_respond _

theorem ServerAgent.processServerConnectionOperation_noGuard (srv : ServerAgent.AdminServer)
    (req : Request) (s : St) (h : s.NoGuardBranch)
    (hre : regex_match req.getPathWithoutQueryString = true) :
    (ServerAgent.processServerConnectionOperation srv req s).NoGuardBranch ∧
      (ServerAgent.processServerConnectionOperation srv req s).Closed := by
  simp only [regex_match, Option.isSome_iff_exists] at hre
  obtain ⟨clientName, hc⟩ := hre
  simp only [ServerAgent.processServerConnectionOperation, ServerAgent.respondWith401,
    ServerAgent.respondWith405, hc]
  constructor
  · repeat' split
    all_goals simp [noGuard_respond, noGuard_emit, Event.isGuardBranch, h]
  · repeat' split
    all_goals exact closed_respond _

theorem ServerAgent.processPoolStatusXml_noGuard (srv : ServerAgent.AdminServer) (req : Request)
    (s : St) (h : s.NoGuardBranch) :
    (ServerAgent.processPoolStatusXml srv req s).NoGuardBranch ∧
      (ServerAgent.processPoolStatusXml srv req s).Closed := by
  simp only [ServerAgent.processPoolStatusXml, ServerAgent.respondWith401]
  constructor
  · repeat' split
    all_goals simp [noGuard_respond, noGuard_emit, Event.isGuardBranch, h]
  · repeat' split
    all_goals exact closed_respond _

theorem ServerAgent.processPoolStatusTxt_noGuard (srv : ServerAgent.AdminServer) (req : Request)
    (s : St) (h : s.NoGuardBranch) :
    (ServerAgent.processPoolStatusTxt srv req s).NoGuardBranch ∧
      (ServerAgent.processPoolStatusTxt srv req s).Closed := by
  simp only [ServerAgent.processPoolStatusTxt, ServerAgent.respondWith401]
  constructor
  · repeat' split
    all_goals simp [noGuard_respond, noGuard_emit, Event.isGuardBranch, h]
  · repeat' split
    all_goals exact closed_respond _

theorem ServerAgent.processBacktraces_noGuard (srv : ServerAgent.AdminServer) (env : Env)
    (req : Request) (s : St) (h : s.NoGuardBranch) :
    (ServerAgent.processBacktraces srv env req s).NoGuardBranch ∧
      (ServerAgent.processBacktraces srv env req s).Closed := by
  simp only [ServerAgent.processBacktraces, ServerAgent.respondWith401]
  constructor
  · repeat' split
    all_goals simp [noGuard_respond, noGuard_emit, Event.isGuardBranch, h]
  · repeat' split
    all_goals exact closed_respond _

theorem ServerAgent.processPing_noGuard (srv : ServerAgent.AdminServer) (req : Request)
    (s : St) (h : s.NoGuardBranch) :
    (ServerAgent.processPing srv req s).NoGuardBranch ∧
      (ServerAgent.processPing srv req s).Closed := by
  simp only [ServerAgent.processPing, ServerAgent.respondWith401]
  constructor
  · repeat' split
    all_goals simp [noGuard_respond, noGuard_emit, Event.isGuardBranch, h]
  · repeat' split
    all_goals exact closed_respond _

theorem ServerAgent.processShutdown_noGuard (srv : ServerAgent.AdminServer) (req : Request)
    (s : St) (h : s.NoGuardBranch) :
    (ServerAgent.processShutdown srv req s).NoGuardBranch ∧
      (ServerAgent.processShutdown srv req s).Closed := by
  simp only [ServerAgent.processShutdown, ServerAgent.respondWith405, ServerAgent.respondWith401]
  constructor
  · repeat' split
    all_goals simp [noGuard_respond, noGuard_emit, Event.isGuardBranch, h]
  · repeat' split
    all_goals exact closed_respond _

theorem ServerAgent.processGc_noGuard (srv : ServerAgent.AdminServer) (req : Request)
    (s : St) (h : s.NoGuardBranch) :
    (ServerAgent.processGc srv req s).NoGuardBranch ∧
      (ServerAgent.processGc srv req s).Closed := by
  simp only [ServerAgent.processGc, ServerAgent.respondWith405, ServerAgent.respondWith401]
  constructor
  · repeat' split
    all_goals
      simp [noGuard_respond, noGuard_emit, noGuard_runLaterOnAll, Event.isGuardBranch, h]
  · repeat' split
    all_goals exact closed_respond _

theorem ServerAgent.processReopenLogs_noGuard (srv : ServerAgent.AdminServer) (env : Env)
    (req : Request) (s : St) (h : s.NoGuardBranch) :
    (ServerAgent.processReopenLogs srv env req s).NoGuardBranch ∧
      (ServerAgent.processReopenLogs srv env req s).Closed := by
  simp only [ServerAgent.processReopenLogs, ServerAgent.respondWith405,
    ServerAgent.respondWith401]
  constructor
  · repeat' split
    all_goals
      simp [noGuard_respond, noGuard_emit, noGuard_setLogFile,
        noGuard_setFileDescriptorLogFile, Event.isGuardBranch, h]
  · repeat' split
    all_goals exact closed_respond _

theorem ServerAgent.processReinheritLogsExchange_noGuard (env : Env) (s : St)
    (h : s.NoGuardBranch) :
    (ServerAgent.processReinheritLogsExchange env s).NoGuardBranch ∧
      (ServerAgent.processReinheritLogsExchange env s).Closed := by
  simp only [ServerAgent.processReinheritLogsExchange]
  split
  · exact ⟨by simp [noGuard_respond, noGuard_emit, Event.isGuardBranch, h], closed_respond _⟩
  · have hq := (noGuard_readHeaderLines env.watchdog.lines.tail "" (s.emit Event.readLine)).mpr
      (by simp [noGuard_emit, Event.isGuardBranch, h])
    rcases hr : ServerAgent.readHeaderLines env.watchdog.lines.tail ""
      (s.emit Event.readLine) with ⟨_ | p, s2⟩
    · rw [hr] at hq
      exact ⟨by simp [noGuard_respond, noGuard_emit, Event.isGuardBranch, hq], closed_respond _⟩
    · rw [hr] at hq
      simp only []
      constructor
      · repeat' split
        all_goals
          simp [noGuard_respond, noGuard_emit, noGuard_throw, noGuard_setLogFileWithFd,
            Event.isGuardBranch, hq]
      · repeat' split
        all_goals
          first
          | exact closed_respond _
          | exact closed_throw _ _

theorem ServerAgent.processReinheritLogs_noGuard (srv : ServerAgent.AdminServer) (env : Env)
    (req : Request) (s : St) (h : s.NoGuardBranch) :
    (ServerAgent.processReinheritLogs srv env req s).NoGuardBranch ∧
      (ServerAgent.processReinheritLogs srv env req s).Closed := by
  simp only [ServerAgent.processReinheritLogs, ServerAgent.respondWith405,
    ServerAgent.respondWith401]
  repeat' split
  all_goals
    first
    | exact ⟨by simp [noGuard_respond, noGuard_emit, Event.isGuardBranch, h], closed_respond _⟩
    | exact ⟨by simp [noGuard_throw, noGuard_emit, Event.isGuardBranch, h], closed_throw _ _⟩
    | exact ServerAgent.processReinheritLogsExchange_noGuard env _
        (by simp [noGuard_emit, Event.isGuardBranch, h])

theorem ServerAgent.processPoolRestartAppGroup_noGuard (srv : ServerAgent.AdminServer)
    (req : Request) (s : St) (h : s.NoGuardBranch) :
    (ServerAgent.processPoolRestartAppGroup srv req s).NoGuardBranch := by
  simp only [ServerAgent.processPoolRestartAppGroup, ServerAgent.respondWith405,
    ServerAgent.respondWith401, ServerAgent.respondWith413]
  repeat' split
  all_goals
    simp [noGuard_respond, noGuard_emit, noGuard_bad, noGuard_authorization,
      Event.isGuardBranch, h]

theorem ServerAgent.processPoolDetachProcess_noGuard (srv : ServerAgent.AdminServer)
    (req : Request) (s : St) (h : s.NoGuardBranch) :
    (ServerAgent.processPoolDetachProcess srv req s).NoGuardBranch := by
  simp only [ServerAgent.processPoolDetachProcess, ServerAgent.respondWith405,
    ServerAgent.respondWith401, ServerAgent.respondWith413]
  repeat' split
  all_goals
    simp [noGuard_respond, noGuard_emit, noGuard_bad, noGuard_authorization,
      Event.isGuardBranch, h]

theorem ServerAgent.processConfig_noGuard (srv : ServerAgent.AdminServer)
    (req : Request) (s : St) (h : s.NoGuardBranch) :
    (ServerAgent.processConfig srv req s).NoGuardBranch := by
  simp only [ServerAgent.processConfig, ServerAgent.respondWith405,
    ServerAgent.respondWith401]
  repeat' split
  all_goals
    simp [noGuard_respond, noGuard_emit, noGuard_bad, noGuard_throw, Event.isGuardBranch, h]

theorem ServerAgent.catchInRequestBegin_noGuard (s : St) (h : s.NoGuardBranch) :
    (ServerAgent.catchInRequestBegin s).NoGuardBranch := by
  simp only [ServerAgent.catchInRequestBegin]
  repeat' split
  all_goals
    first
    | exact h
    | simpa [St.NoGuardBranch, endRequest, St.emit, List.all_append, Event.isGuardBranch]
        using h

theorem ServerAgent.catchInRequestBegin_closed (s : St) (h : s.Closed) :
    (ServerAgent.catchInRequestBegin s).Closed := by
  simp only [ServerAgent.catchInRequestBegin]
  repeat' split
  all_goals
    first
    | exact h
    | exact Or.inl rfl
    | exact Or.inl (by assumption)

theorem ServerAgent.catchInRequestBegin_open (s : St)
    (he : (ServerAgent.catchInRequestBegin s).ended = false)
    (ht : (ServerAgent.catchInRequestBegin s).thrown = Option.none) :
    s.ended = false ∧ s.thrown = Option.none := by
  by_cases hc : s.Closed
  · rcases ServerAgent.catchInRequestBegin_closed s hc with h | h
    · rw [he] at h
      cases h
    · exact absurd ht h
  · simp only [St.Closed, not_or, Bool.not_eq_true, ne_eq, not_not] at hc
    exact hc

theorem ended_respond (s : St) : (endRequestUnlessEnded s).ended = true := by
  simp only [endRequestUnlessEnded]
  split
  · assumption
  · rfl

theorem ServerAgent.processPoolRestartAppGroup_open (srv : ServerAgent.AdminServer)
    (req : Request) (logLevel : Int) (logFile fdLogFile : String) (hasFd : Bool)
    (hp : req.getPathWithoutQueryString = "/pool/restart_app_group.json")
    (he : (ServerAgent.processPoolRestartAppGroup srv req
      (St.init logLevel logFile fdLogFile hasFd)).ended = false) :
    ServerAgent.acceptsBody srv req = true := by
  simp only [ServerAgent.processPoolRestartAppGroup, ServerAgent.respondWith405,
    ServerAgent.respondWith401, ServerAgent.respondWith413] at he
  split_ifs at he with h1 h2 h3 h4
  · rw [ended_respond] at he; cases he
  · rw [ended_respond] at he; cases he
  · cases he
  · rw [ended_respond] at he; cases he
  · have hx : ServerAgent.requestBodyExceedsLimit req
        { St.init 0 "" "" false with body := "" } ServerAgent.defaultLimit = false :=
      (ServerAgent.exceeds_congr req _
        ((St.init logLevel logFile fdLogFile hasFd).emit Event.authorize) rfl).trans
        (by simpa using h4)
    simp only [Bool.not_eq_true', Bool.not_eq_false] at h1 h3
    simp only [ne_eq, not_not] at h2
    simp [ServerAgent.acceptsBody, hp, h1, h2, h3, ServerAgent.bodyWithinCeiling, hx]

theorem ServerAgent.processPoolDetachProcess_open (srv : ServerAgent.AdminServer)
    (req : Request) (logLevel : Int) (logFile fdLogFile : String) (hasFd : Bool)
    (hp : req.getPathWithoutQueryString = "/pool/detach_process.json")
    (he : (ServerAgent.processPoolDetachProcess srv req
      (St.init logLevel logFile fdLogFile hasFd)).ended = false) :
    ServerAgent.acceptsBody srv req = true := by
  simp only [ServerAgent.processPoolDetachProcess, ServerAgent.respondWith405,
    ServerAgent.respondWith401, ServerAgent.respondWith413] at he
  split_ifs at he with h1 h2 h3 h4
  · rw [ended_respond] at he; cases he
  · rw [ended_respond] at he; cases he
  · cases he
  · rw [ended_respond] at he; cases he
  · have hx : ServerAgent.requestBodyExceedsLimit req
        { St.init 0 "" "" false with body := "" } ServerAgent.defaultLimit = false :=
      (ServerAgent.exceeds_congr req _
        ((St.init logLevel logFile fdLogFile hasFd).emit Event.authorize) rfl).trans
        (by simpa using h4)
    simp only [Bool.not_eq_true', Bool.not_eq_false] at h1 h3
    simp only [ne_eq, not_not] at h2
    simp [ServerAgent.acceptsBody, hp, h1, h2, h3, ServerAgent.bodyWithinCeiling, hx]

theorem ServerAgent.processConfig_open (srv : ServerAgent.AdminServer)
    (req : Request) (logLevel : Int) (logFile fdLogFile : String) (hasFd : Bool)
    (hp : req.getPathWithoutQueryString = "/config.json")
    (he : (ServerAgent.processConfig srv req
      (St.init logLevel logFile fdLogFile hasFd)).ended = false)
    (ht : (ServerAgent.processConfig srv req
      (St.init logLevel logFile fdLogFile hasFd)).thrown = Option.none) :
    ServerAgent.acceptsBody srv req = true := by
  by_cases hg : req.method = HttpMethod.HTTP_GET
  · simp only [ServerAgent.processConfig, if_pos hg] at he ht
    cases hh : srv.requestHandlers.head? with
    | none =>
      rw [hh] at ht
      simp [St.throw] at ht
    | some rh =>
      rw [hh] at he
      simp only [] at he
      rw [ended_respond] at he
      cases he
  · by_cases hput : req.method = HttpMethod.HTTP_PUT
    · simp only [ServerAgent.processConfig, if_neg hg, if_pos hput,
        ServerAgent.respondWith401] at he
      split_ifs at he with h3 h4
      · rw [ended_respond] at he; cases he
      · cases he
      · simp only [Bool.not_eq_true', Bool.not_eq_false] at h3 h4
        simp [ServerAgent.acceptsBody, hp, hput, h3, h4]
    · simp only [ServerAgent.processConfig, if_neg hg, if_neg hput,
        ServerAgent.respondWith405] at he
      rw [ended_respond] at he
      cases he

theorem ServerAgent.dispatch_noGuard (srv : ServerAgent.AdminServer) (env : Env)
    (req : Request) (s : St) (h : s.NoGuardBranch) :
    (ServerAgent.dispatch srv env req s).NoGuardBranch := by
  rcases ServerAgent.dispatch_cases srv env req s with
    ⟨_, hd⟩ | ⟨hre, hd⟩ | ⟨_, hd⟩ | ⟨_, hd⟩ | ⟨_, hd⟩ | ⟨_, hd⟩ | ⟨_, hd⟩ | ⟨_, hd⟩ | ⟨_, hd⟩ |
    ⟨_, hd⟩ | ⟨_, hd⟩ | ⟨_, hd⟩ | ⟨_, hd⟩ | ⟨_, hd⟩ <;> rw [hd]
  · exact (ServerAgent.processServerStatus_noGuard srv req s h).1
  · exact (ServerAgent.processServerConnectionOperation_noGuard srv req s h hre).1
  · exact (ServerAgent.processPoolStatusXml_noGuard srv req s h).1
  · exact (ServerAgent.processPoolStatusTxt_noGuard srv req s h).1
  · exact ServerAgent.processPoolRestartAppGroup_noGuard srv req s h
  · exact ServerAgent.processPoolDetachProcess_noGuard srv req s h
  · exact (ServerAgent.processBacktraces_noGuard srv env req s h).1
  · exact (ServerAgent.processPing_noGuard srv req s h).1
  · exact (ServerAgent.processShutdown_noGuard srv req s h).1
  · exact (ServerAgent.processGc_noGuard srv req s h).1
  · exact ServerAgent.processConfig_noGuard srv req s h
  · exact (ServerAgent.processReinheritLogs_noGuard srv env req s h).1
  · exact (ServerAgent.processReopenLogs_noGuard srv env req s h).1
  · exact (ServerAgent.respondWith404_noGuard s h).1

theorem not_closed_of_open (s : St) (he : s.ended = false) (ht : s.thrown = Option.none)
    (hc : s.Closed) : False := by
  rcases hc with hc | hc
  · rw [he] at hc
    cases hc
  · exact hc ht

theorem ServerAgent.dispatch_open (srv : ServerAgent.AdminServer) (env : Env)
    (req : Request) (logLevel : Int) (logFile fdLogFile : String) (hasFd : Bool)
    (he : (ServerAgent.dispatch srv env req
      (St.init logLevel logFile fdLogFile hasFd)).ended = false)
    (ht : (ServerAgent.dispatch srv env req
      (St.init logLevel logFile fdLogFile hasFd)).thrown = Option.none) :
    ServerAgent.acceptsBody srv req = true := by
  have h0 : (St.init logLevel logFile fdLogFile hasFd).NoGuardBranch := rfl
  rcases ServerAgent.dispatch_cases srv env req (St.init logLevel logFile fdLogFile hasFd) with
    ⟨_, hd⟩ | ⟨hre, hd⟩ | ⟨_, hd⟩ | ⟨_, hd⟩ | ⟨hp, hd⟩ | ⟨hp, hd⟩ | ⟨_, hd⟩ | ⟨_, hd⟩ |
    ⟨_, hd⟩ | ⟨_, hd⟩ | ⟨hp, hd⟩ | ⟨_, hd⟩ | ⟨_, hd⟩ | ⟨_, hd⟩ <;> rw [hd] at he ht
  · exact (not_closed_of_open _ he ht
      (ServerAgent.processServerStatus_noGuard srv req _ h0).2).elim
  · exact (not_closed_of_open _ he ht
      (ServerAgent.processServerConnectionOperation_noGuard srv req _ h0 hre).2).elim
  · exact (not_closed_of_open _ he ht
      (ServerAgent.processPoolStatusXml_noGuard srv req _ h0).2).elim
  · exact (not_closed_of_open _ he ht
      (ServerAgent.processPoolStatusTxt_noGuard srv req _ h0).2).elim
  · exact ServerAgent.processPoolRestartAppGroup_open srv req _ _ _ _ hp he
  · exact ServerAgent.processPoolDetachProcess_open srv req _ _ _ _ hp he
  · exact (not_closed_of_open _ he ht
      (ServerAgent.processBacktraces_noGuard srv env req _ h0).2).elim
  · exact (not_closed_of_open _ he ht
      (ServerAgent.processPing_noGuard srv req _ h0).2).elim
  · exact (not_closed_of_open _ he ht
      (ServerAgent.processShutdown_noGuard srv req _ h0).2).elim
  · exact (not_closed_of_open _ he ht
      (ServerAgent.processGc_noGuard srv req _ h0).2).elim
  · exact ServerAgent.processConfig_open srv req _ _ _ _ hp he ht
  · exact (not_closed_of_open _ he ht
      (ServerAgent.processReinheritLogs_noGuard srv env req _ h0).2).elim
  · exact (not_closed_of_open _ he ht
      (ServerAgent.processReopenLogs_noGuard srv env req _ h0).2).elim
  · exact (not_closed_of_open _ he ht (ServerAgent.respondWith404_noGuard _ h0).2).elim

theorem ServerAgent.bodyPath_of_accepts (srv : ServerAgent.AdminServer) (req : Request)
    (h : ServerAgent.acceptsBody srv req = true) :
    req.getPathWithoutQueryString ∈ ServerAgent.bodyPaths := by
  simp only [ServerAgent.acceptsBody] at h
  simp only [ServerAgent.bodyPaths, List.mem_cons, List.mem_singleton, List.not_mem_nil,
    or_false]
  split_ifs at h with h1 h2
  · rcases h1 with h1 | h1
    · exact Or.inl h1
    · exact Or.inr (Or.inl h1)
  · exact Or.inr (Or.inr h2)

theorem ServerAgent.processPoolRestartAppGroupBodyRestart_noGuard
    (srv : ServerAgent.AdminServer) (env : Env) (s : St) (method : RestartMethod)
    (h : s.NoGuardBranch) :
    (ServerAgent.processPoolRestartAppGroupBodyRestart srv env s method).NoGuardBranch := by
  simp only [ServerAgent.processPoolRestartAppGroupBodyRestart, ServerAgent.respondWith401]
  repeat' split
  all_goals
    simp [noGuard_respond, noGuard_emit, noGuard_throw, Event.isGuardBranch, h]

theorem ServerAgent.processPoolRestartAppGroupBody_noGuard
    (srv : ServerAgent.AdminServer) (env : Env) (s : St) (h : s.NoGuardBranch) :
    (ServerAgent.processPoolRestartAppGroupBody srv env s).NoGuardBranch := by
  simp only [ServerAgent.processPoolRestartAppGroupBody]
  repeat' split
  all_goals
    first
    | exact ServerAgent.processPoolRestartAppGroupBodyRestart_noGuard srv env s _ h
    | simp [noGuard_bad, noGuard_throw, h]

theorem ServerAgent.processPoolDetachProcessBody_noGuard
    (srv : ServerAgent.AdminServer) (env : Env) (s : St) (h : s.NoGuardBranch) :
    (ServerAgent.processPoolDetachProcessBody srv env s).NoGuardBranch := by
  simp only [ServerAgent.processPoolDetachProcessBody, ServerAgent.respondWith401]
  repeat' split
  all_goals
    simp [noGuard_respond, noGuard_emit, noGuard_bad, noGuard_throw, Event.isGuardBranch, h]

theorem ServerAgent.processConfigBodyFinish_noGuard (srv : ServerAgent.AdminServer)
    (headers : HeaderTable) (s : St) (h : s.NoGuardBranch) :
    (ServerAgent.processConfigBodyFinish srv headers s).NoGuardBranch := by
  simp [ServerAgent.processConfigBodyFinish, noGuard_respond, noGuard_runLaterOnAll, h]

theorem ServerAgent.processConfigBodyLogFile_noGuard (srv : ServerAgent.AdminServer)
    (env : Env) (headers : HeaderTable) (s : St) (h : s.NoGuardBranch) :
    (ServerAgent.processConfigBodyLogFile srv env headers s).NoGuardBranch := by
  simp only [ServerAgent.processConfigBodyLogFile]
  repeat' split
  all_goals
    first
    | exact ServerAgent.processConfigBodyFinish_noGuard srv headers _
        (by simp [noGuard_setLogFile, noGuard_emit, Event.isGuardBranch, h])
    | simp [noGuard_respond, noGuard_emit, noGuard_throw, Event.isGuardBranch, h]

theorem ServerAgent.processConfigBody_noGuard (srv : ServerAgent.AdminServer)
    (env : Env) (s : St) (h : s.NoGuardBranch) :
    (ServerAgent.processConfigBody srv env s).NoGuardBranch := by
  simp only [ServerAgent.processConfigBody]
  repeat' split
  all_goals
    first
    | exact ServerAgent.processConfigBodyLogFile_noGuard srv env _ _
        (by simp [noGuard_setLogLevel, h])
    | simp [noGuard_throw, h]

theorem ServerAgent.catchInRequestBody_noGuard (s : St) (h : s.NoGuardBranch) :
    (ServerAgent.catchInRequestBody s).NoGuardBranch := by
  simp only [ServerAgent.catchInRequestBody, endRequestUnlessEnded]
  repeat' split
  all_goals
    first
    | exact h
    | simpa [St.NoGuardBranch, endRequest, St.emit, List.all_append, Event.isGuardBranch]
        using h

theorem ServerAgent.dispatchBody_noGuard (srv : ServerAgent.AdminServer) (env : Env)
    (req : Request) (s : St) (h : s.NoGuardBranch)
    (hp : req.getPathWithoutQueryString ∈ ServerAgent.bodyPaths) :
    (ServerAgent.dispatchBody srv env req s).NoGuardBranch := by
  simp only [ServerAgent.bodyPaths, List.mem_cons, List.mem_singleton, List.not_mem_nil,
    or_false] at hp
  rcases hp with hp | hp | hp
  · simp only [ServerAgent.dispatchBody, hp, if_true]
    exact ServerAgent.processPoolRestartAppGroupBody_noGuard srv env s h
  · simp only [ServerAgent.dispatchBody, hp, String.reduceEq, if_false, if_true]
    exact ServerAgent.processPoolDetachProcessBody_noGuard srv env s h
  · simp only [ServerAgent.dispatchBody, hp, String.reduceEq, if_false, if_true]
    exact ServerAgent.processConfigBody_noGuard srv env s h

theorem ServerAgent.onRequestBody_noGuard (srv : ServerAgent.AdminServer) (env : Env)
    (req : Request) (buffer : String) (errcode : Int) (s : St) (h : s.NoGuardBranch)
    (hp : req.getPathWithoutQueryString ∈ ServerAgent.bodyPaths) :
    (ServerAgent.onRequestBody srv env req buffer errcode s).NoGuardBranch := by
  simp only [ServerAgent.onRequestBody, ServerAgent.respondWith413, ServerAgent.respondWith422]
  repeat' split
  all_goals
    first
    | exact h
    | exact ServerAgent.catchInRequestBody_noGuard _
        (ServerAgent.dispatchBody_noGuard srv env req _
          (by simpa [St.NoGuardBranch, St.emit, List.all_append, Event.isGuardBranch] using h)
          hp)
    | simpa [St.NoGuardBranch, endRequestUnlessEnded, writeSimpleResponse, endRequest,
        disconnect, St.emit, List.all_append, Event.isGuardBranch] using h
    | (simp only [noGuard_respond]
       simpa [St.NoGuardBranch, St.emit, List.all_append, Event.isGuardBranch] using h)

theorem ServerAgent.deliverBody_noGuard (srv : ServerAgent.AdminServer) (env : Env)
    (req : Request) (events : List (String × Int)) (s : St) (h : s.NoGuardBranch)
    (hp : req.getPathWithoutQueryString ∈ ServerAgent.bodyPaths) :
    (ServerAgent.deliverBody srv env req events s).NoGuardBranch := by
  induction events generalizing s with
  | nil => exact h
  | cons ev rest ih =>
    simp only [ServerAgent.deliverBody]
    split
    · exact h
    · exact ih _ (ServerAgent.onRequestBody_noGuard srv env req _ _ s h hp)

/-- The two guard branches are there: entered directly, without the dispatch of
`onRequestBegin`, the body phase on /ping.json runs into `P_BUG`, and
`processServerConnectionOperation` on /ping.json answers `Invalid URI`. -/
theorem guard_branches_entered_directly :
    ¬ (ServerAgent.onRequestBody (ServerAgent.sampleServer Authorization.full)
        (sampleEnv sampleWatchdog) (sampleRequest HttpMethod.HTTP_GET "/ping.json") "" 0
        { St.init 0 "" "" false with body := "\x7b\x7d" }).NoGuardBranch ∧
    ¬ (ServerAgent.processServerConnectionOperation (ServerAgent.sampleServer Authorization.full)
        (sampleRequest HttpMethod.HTTP_DELETE "/ping.json")
        (St.init 0 "" "" false)).NoGuardBranch := by
  unfold St.NoGuardBranch
  constructor <;> decide

/-- C21. In the helper agent, for every request: `onRequestBegin` returns with
the request still open (not ended, no exception in flight) exactly when the
request is one that the header phase lets through, and then its path is
/pool/restart_app_group.json, /pool/detach_process.json or /config.json; every
other request is ended in the header phase, or an exception has left it. And
whatever body events follow, no call of the whole run belongs to a guard
branch: neither the `P_BUG` "Unknown path for body processing" of the
body-phase dispatch nor the answer `Invalid URI` of
`processServerConnectionOperation` is ever reached. -/
theorem body_dispatch_always_finds_handler
    (srv : ServerAgent.AdminServer) (env : Env) (req : Request)
    (events : List (String × Int))
    (logLevel : Int) (logFile fdLogFile : String) (hasFd : Bool) :
    (((ServerAgent.onRequestBegin srv env req
          (St.init logLevel logFile fdLogFile hasFd)).ended = false ∧
        (ServerAgent.onRequestBegin srv env req
          (St.init logLevel logFile fdLogFile hasFd)).thrown = Option.none)
      ↔ ServerAgent.acceptsBody srv req = true) ∧
    (ServerAgent.acceptsBody srv req = true →
      req.getPathWithoutQueryString ∈ ServerAgent.bodyPaths) ∧
    (ServerAgent.processRequest srv env req events
      (St.init logLevel logFile fdLogFile hasFd)).NoGuardBranch := by
  have hopen : ((ServerAgent.onRequestBegin srv env req
        (St.init logLevel logFile fdLogFile hasFd)).ended = false ∧
      (ServerAgent.onRequestBegin srv env req
        (St.init logLevel logFile fdLogFile hasFd)).thrown = Option.none)
      → ServerAgent.acceptsBody srv req = true := by
    rintro ⟨he, ht⟩
    obtain ⟨he2, ht2⟩ := ServerAgent.catchInRequestBegin_open _ he ht
    exact ServerAgent.dispatch_open srv env req logLevel logFile fdLogFile hasFd he2 ht2
  refine ⟨⟨hopen, ?_⟩, ServerAgent.bodyPath_of_accepts srv req, ?_⟩
  · intro hacc
    obtain ⟨hp, _, _⟩ := ServerAgent.onRequestBegin_accepts srv env req logLevel logFile
      fdLogFile hasFd hacc
    exact ⟨hp.1, hp.2.1⟩
  · have hbegin : (ServerAgent.onRequestBegin srv env req
        (St.init logLevel logFile fdLogFile hasFd)).NoGuardBranch :=
      ServerAgent.catchInRequestBegin_noGuard _
        (ServerAgent.dispatch_noGuard srv env req _ rfl)
    rw [ServerAgent.processRequest]
    by_cases hc : (ServerAgent.onRequestBegin srv env req
        (St.init logLevel logFile fdLogFile hasFd)).Closed
    · rw [ServerAgent.deliverBody_closed srv env req events _ hc]
      exact hbegin
    · simp only [St.Closed, not_or, Bool.not_eq_true, ne_eq, not_not] at hc
      exact ServerAgent.deliverBody_noGuard srv env req events _ hbegin
        (ServerAgent.bodyPath_of_accepts srv req (hopen hc))

/-- Witness of C21: POST /pool/restart_app_group.json with every capability and a
chunked body is let through by the header phase. -/
theorem body_dispatch_always_finds_handler_witness :
    ((ServerAgent.onRequestBegin (ServerAgent.sampleServer Authorization.full)
        (sampleEnv sampleWatchdog)
        (sampleChunkedRequest HttpMethod.HTTP_POST "/pool/restart_app_group.json")
        (St.init 0 "" "" false)).ended = false ∧
      (ServerAgent.onRequestBegin (ServerAgent.sampleServer Authorization.full)
        (sampleEnv sampleWatchdog)
        (sampleChunkedRequest HttpMethod.HTTP_POST "/pool/restart_app_group.json")
        (St.init 0 "" "" false)).thrown = Option.none) ∧
    (sampleChunkedRequest HttpMethod.HTTP_POST
      "/pool/restart_app_group.json").getPathWithoutQueryString ∈ ServerAgent.bodyPaths :=
  ⟨(body_dispatch_always_finds_handler (ServerAgent.sampleServer Authorization.full)
      (sampleEnv sampleWatchdog)
      (sampleChunkedRequest HttpMethod.HTTP_POST "/pool/restart_app_group.json")
      (bodyEvents ["\x7b\x7d"]) 0 "" "" false).1.mpr (by decide),
   (body_dispatch_always_finds_handler (ServerAgent.sampleServer Authorization.full)
      (sampleEnv sampleWatchdog)
      (sampleChunkedRequest HttpMethod.HTTP_POST "/pool/restart_app_group.json")
      (bodyEvents ["\x7b\x7d"]) 0 "" "" false).2.1 (by decide)⟩

/-! ### The two copies of the handoff -/

theorem LoggingAgent.logging_respond_eq (s : St) :
    LoggingAgent.respondWith401 s = ServerAgent.respondWith401 s ∧
    LoggingAgent.respondWith405 s = ServerAgent.respondWith405 s :=
  ⟨rfl, rfl⟩

/-- C22. The two copies of `processReinheritLogs` agree: on the same request,
from the same state, with the same outcome of the admin authorization, the
same instance directory and descriptor-passing password, and the same watchdog
(connection, lines sent, transfer outcome), the logging agent's copy and the
helper agent's copy end in the same state. So they make the same calls in the
same order, with the same bytes written to the watchdog, write the same
responses, and leave the same logging state. -/
theorem reinherit_logs_copies_agree
    (srvH : ServerAgent.AdminServer) (srvL : LoggingAgent.AdminServer) (envH envL : Env)
    (req : Request) (s : St)
    (hauth : LoggingAgent.authorizeAdminOperation srvL req
      = ServerAgent.authorizeAdminOperation srvH req)
    (hdir : srvL.instanceDir = srvH.instanceDir)
    (hpw : srvL.fdPassingPassword = srvH.fdPassingPassword)
    (hwd : envL.watchdog = envH.watchdog) :
    LoggingAgent.processReinheritLogs srvL envL req s
      = ServerAgent.processReinheritLogs srvH envH req s ∧
    (LoggingAgent.processReinheritLogs srvL envL req s).trace
      = (ServerAgent.processReinheritLogs srvH envH req s).trace ∧
    responses (LoggingAgent.processReinheritLogs srvL envL req s).trace
      = responses (ServerAgent.processReinheritLogs srvH envH req s).trace ∧
    (LoggingAgent.processReinheritLogs srvL envL req s).logFile
      = (ServerAgent.processReinheritLogs srvH envH req s).logFile := by
  have hx : ∀ t, LoggingAgent.processReinheritLogsExchange envL t
      = ServerAgent.processReinheritLogsExchange envH t := by
    intro t
    rw [LoggingAgent.logging_exchange_eq]
    simp only [ServerAgent.processReinheritLogsExchange, hwd]
  have heq : LoggingAgent.processReinheritLogs srvL envL req s
      = ServerAgent.processReinheritLogs srvH envH req s := by
    simp only [LoggingAgent.processReinheritLogs, ServerAgent.processReinheritLogs, hauth, hdir,
      hpw, hwd, hx, (LoggingAgent.logging_respond_eq _).1, (LoggingAgent.logging_respond_eq _).2,
      LoggingAgent.reinheritHeaders, ServerAgent.reinheritHeaders]
  exact ⟨heq, by rw [heq], by rw [heq], by rw [heq]⟩

/-- Witness of C22: an authorized POST with the watchdog that hands over
descriptor 7. -/
theorem reinherit_logs_copies_agree_witness :
    LoggingAgent.processReinheritLogs (LoggingAgent.sampleServer Authorization.full)
        (sampleEnv sampleWatchdog) (sampleRequest HttpMethod.HTTP_POST "/reinherit_logs.json")
        (St.init 0 "" "" false)
      = ServerAgent.processReinheritLogs (ServerAgent.sampleServer Authorization.full)
        (sampleEnv sampleWatchdog) (sampleRequest HttpMethod.HTTP_POST "/reinherit_logs.json")
        (St.init 0 "" "" false) :=
  (reinherit_logs_copies_agree (ServerAgent.sampleServer Authorization.full)
    (LoggingAgent.sampleServer Authorization.full) (sampleEnv sampleWatchdog)
    (sampleEnv sampleWatchdog) (sampleRequest HttpMethod.HTTP_POST "/reinherit_logs.json")
    (St.init 0 "" "" false) rfl rfl rfl rfl).1

end Passenger
